import Mathlib

/-!
Blitz convolution engine: pack / unpack kernels, layer shape setup, coprocessor entry points.

A shallow embedding of

* `src/backends/gpu_backend_pack-inl.h` (`GPUUnpack1024Kernel`, `GPUUnpackKernel`,
  `Unpack2DFunc`, `GPUPack1024Kernel`, `GPUPackKernel`, `Pack2DFunc`),
* `src/layers/conv.cc` (`Conv::InitImpl`, `Conv::ForwardPropImpl`, `Conv::BackwardPropImpl`),
* `src/backends/mic_backend_conv-inl.h` (the three `Convolution2D*Func` entry points),

followed by theorems about these definitions.

Conventions of the embedding.

* A device buffer is a function `Nat → α` from element index to element; `DType` is an
  arbitrary type `α` with exact arithmetic.
* `size_t` values are natural numbers below `2^64`.  Scalar sums and products that can
  exceed `2^64` wrap (`size_t_add`, `size_t_mul`), a subtraction that may borrow wraps
  (`size_t_sub`), and a division whose divisor may be zero is `size_t_div`.  Where the source
  converts a `size_t` expression to `int` the conversion is modelled by `to_int` (reduction to
  the 32-bit two's complement range).  Element offsets into a buffer are computed exactly.
* A kernel launch is the set of its threads, each running the kernel body; the threads are
  run one after the other in index order.
-/

namespace Blitz

/-! ## Machine integers, buffers, loops -/

/-- Value of an integer expression once it is stored in an `int`: the expression is computed
in `size_t` arithmetic (modulo `2^64`) and then truncated to 32 bits, two's complement.
Because `2^32` divides `2^64` this is the exact value reduced into `[-2^31, 2^31)`. -/
def to_int (x : Int) : Int := (x + 2 ^ 31) % 2 ^ 32 - 2 ^ 31

/-- Subtraction of two `size_t` values (both below `2^64`): a borrow wraps around. -/
def size_t_sub (a b : Nat) : Nat := if b ≤ a then a - b else a + 2 ^ 64 - b

/-- Sum of two `size_t` values: a carry out of 64 bits is dropped. -/
def size_t_add (a b : Nat) : Nat := (a + b) % 2 ^ 64

/-- Product of two `size_t` values: the low 64 bits of the product. -/
def size_t_mul (a b : Nat) : Nat := (a * b) % 2 ^ 64

/-- Store through a pointer: `buf[p] = v`. -/
def store {α : Type} (buf : Nat → α) (p : Nat) (v : α) : Nat → α :=
  fun k => if k = p then v else buf k

/-- The loop `for (size_t i = lo; i < hi; ++i) body`, acting on a state `σ`. -/
def forLoop {σ : Type} (lo hi : Nat) (body : Nat → σ → σ) (s : σ) : σ :=
  (List.range' lo (hi - lo)).foldl (fun s i => body i s) s

/-- Threads of a launch `<<<gridDim.x, dim3(blockDim.x, blockDim.y)>>>`, each given as
`(blockIdx.x, threadIdx.x, threadIdx.y)`. -/
def launchThreads (gridDim_x blockDim_x blockDim_y : Nat) : List (Nat × Nat × Nat) :=
  (List.range gridDim_x).flatMap fun blockIdx_x =>
    (List.range blockDim_x).flatMap fun threadIdx_x =>
      (List.range blockDim_y).map fun threadIdx_y => (blockIdx_x, threadIdx_x, threadIdx_y)

/-- Modelled from the spec: the macro `BLITZ_CUDA_LOOP(index, size)` (declared in
`utils/blitz_gpu_function.h`, outside `src/`) is the grid-stride loop that divides the flat
index space `[0, size)` across the launched workers; taken over all workers, the body runs
once for every `index < size`. -/
def BLITZ_CUDA_LOOP {σ : Type} (size : Nat) (body : Nat → σ → σ) (s : σ) : σ :=
  (List.range size).foldl (fun s index => body index s) s

/-- Layout tags (`BLITZ_DATA_LAYOUT`).  The tags named in `src/` are listed; `other` stands
for the remaining tags of the enumeration. -/
inductive BLITZ_DATA_LAYOUT where
  | BLITZ_BUFFER_NCHW
  | BLITZ_FILTER_KCRS
  | BLITZ_PACK_CRSPQ
  | other (tag : Nat)
  deriving DecidableEq, Repr

/-! ## Unpack (im2col) -/

section Unpack

variable {α : Type} [Zero α]

/-- Body of one unpack thread (`gpu_backend_pack-inl.h`, lines 22-53 of the small kernel and,
verbatim, lines 78-107 of the general kernel), for the thread whose indices are
`input_channel_index`, `output_height_index`, `output_width_index`.  The state of the loops
is the destination buffer together with the running pointer `p_unpack`. -/
def unpackThread (input : Nat → α) (unpack : Nat → α)
    (input_channel input_height input_width filter_height filter_width output_width
      padding_height padding_width stride_height stride_width : Nat)
    (input_channel_index output_height_index output_width_index : Nat) : Nat → α :=
  let height_offset : Int :=
    to_int ((output_height_index * stride_height : Nat) - (padding_height : Int))
  let width_offset : Int :=
    to_int ((output_width_index * stride_width : Nat) - (padding_width : Int))
  let p_input : Int :=
    ((input_channel_index * input_height : Nat) + height_offset) * input_width + width_offset
  let p_unpack : Nat :=
    (output_height_index * output_width + output_width_index) *
      filter_height * filter_width * input_channel +
    input_channel_index * filter_height * filter_width
  (forLoop 0 filter_height (fun i st =>
    let height_offset_index : Int := to_int (height_offset + i)
    if height_offset_index < 0 ∨ height_offset_index ≥ to_int input_height then
      forLoop 0 filter_width (fun _ st => (store st.1 st.2 0, st.2 + 1)) st
    else
      forLoop 0 filter_width (fun j st =>
        let width_offset_index : Int := to_int (width_offset + j)
        if width_offset_index < 0 ∨ width_offset_index ≥ to_int input_width then
          (store st.1 st.2 0, st.2 + 1)
        else
          (store st.1 st.2 (input (p_input + (i * input_width + j : Nat)).toNat), st.2 + 1)) st)
    (unpack, p_unpack)).1

/-- Small unpack kernel, launched on `gridDim_x` blocks of `blockDim_x × blockDim_y` threads:
`input_channel = gridDim.x`, `output_width = blockDim.y`, and the thread
`(blockIdx.x, threadIdx.x, threadIdx.y)` handles channel `blockIdx.x` and output position
`(threadIdx.x, threadIdx.y)`. -/
def GPUUnpack1024Kernel (gridDim_x blockDim_x blockDim_y : Nat)
    (input : Nat → α) (unpack : Nat → α)
    (input_height input_width filter_height filter_width
      padding_height padding_width stride_height stride_width : Nat) : Nat → α :=
  (launchThreads gridDim_x blockDim_x blockDim_y).foldl (fun unpack t =>
    let output_height_index := t.2.1
    let output_width_index := t.2.2
    let input_channel_index := t.1
    let output_width := blockDim_y
    let input_channel := gridDim_x
    unpackThread input unpack input_channel input_height input_width filter_height
      filter_width output_width padding_height padding_width stride_height stride_width
      input_channel_index output_height_index output_width_index) unpack

/-- General unpack kernel: a grid-stride loop over the flat index space `[0, size)`. -/
def GPUUnpackKernel (input : Nat → α) (unpack : Nat → α)
    (size input_channel input_height input_width filter_height filter_width
      output_height output_width padding_height padding_width
      stride_height stride_width : Nat) : Nat → α :=
  BLITZ_CUDA_LOOP size (fun index unpack =>
    let channel_output_offset := index / output_width
    let output_height_index := channel_output_offset % output_height
    let output_width_index := index % output_width
    let input_channel_index := channel_output_offset / output_height
    unpackThread input unpack input_channel input_height input_width filter_height
      filter_width output_width padding_height padding_width stride_height stride_width
      input_channel_index output_height_index output_width_index) unpack

/-- Entry point `Backend<GPUTensor, DType>::Unpack2DFunc`: chooses the kernel by problem
size, and returns the destination buffer together with the declared layout. -/
def Unpack2DFunc (input : Nat → α) (unpack : Nat → α)
    (channel input_height input_width filter_height filter_width
      output_height output_width padding_height padding_width
      stride_height stride_width : Nat)
    (_input_data_layout : BLITZ_DATA_LAYOUT) : (Nat → α) × BLITZ_DATA_LAYOUT :=
  if channel ≤ 64 ∧ output_height * output_width ≤ 256 then
    (GPUUnpack1024Kernel channel output_height output_width input unpack
      input_height input_width filter_height filter_width
      padding_height padding_width stride_height stride_width,
     BLITZ_DATA_LAYOUT.BLITZ_PACK_CRSPQ)
  else
    let size := channel * output_height * output_width
    (GPUUnpackKernel input unpack size channel input_height input_width
      filter_height filter_width output_height output_width
      padding_height padding_width stride_height stride_width,
     BLITZ_DATA_LAYOUT.BLITZ_PACK_CRSPQ)

end Unpack

/-! ## Pack (col2im) -/

section Pack

variable {α : Type} [AddCommMonoid α]

/-- First window index whose window reaches the padded coordinate `input_padding`
(`pack_height_start` / `pack_width_start`). -/
def pack_start (input_padding filter stride : Nat) : Nat :=
  if input_padding < filter then 0 else (input_padding - filter) / stride + 1

/-- One past the last window index that starts at or before the padded coordinate
(`pack_height_end` / `pack_width_end`).  The increment is exact for every padded coordinate
below `2^64 - 1`. -/
def pack_end (input_padding stride output : Nat) : Nat :=
  min (input_padding / stride + 1) output

/-- Body of one pack thread (`gpu_backend_pack-inl.h`, lines 165-195 of the small kernel and,
verbatim, lines 220-247 of the general kernel) for the thread whose indices are
`input_channel_index`, `input_height_index`, `input_width_index`.  The two sums
`index + padding` are `size_t` sums and wrap.  Inside the loops `i * stride_height` is at most
`input_height_padding` (for a stride of at least 1), so the product and the subtraction are
exact; the increment in `pack_end` is exact whenever `input_height + padding_height < 2^64`,
which the theorems on the stored value assume. -/
def packThread (pack : Nat → α) (input : Nat → α)
    (input_channel input_height input_width filter_height filter_width
      output_height output_width padding_height padding_width
      stride_height stride_width : Nat)
    (input_channel_index input_height_index input_width_index : Nat) : Nat → α :=
  let input_height_padding := size_t_add input_height_index padding_height
  let input_width_padding := size_t_add input_width_index padding_width
  let pack_width := filter_height * filter_width * input_channel
  let pack_height_start := pack_start input_height_padding filter_height stride_height
  let pack_height_end := pack_end input_height_padding stride_height output_height
  let pack_width_start := pack_start input_width_padding filter_width stride_width
  let pack_width_end := pack_end input_width_padding stride_width output_width
  let p_pack := filter_width * filter_height * input_channel_index
  let p_input := input_channel_index * input_height * input_width +
    input_height_index * input_width + input_width_index
  let sum : α :=
    forLoop pack_height_start pack_height_end (fun i sum =>
      forLoop pack_width_start pack_width_end (fun j sum =>
        let filter_height_index := input_height_padding - i * stride_height
        let filter_width_index := input_width_padding - j * stride_width
        sum + pack (p_pack + ((i * output_width + j) * pack_width +
          filter_height_index * filter_width + filter_width_index))) sum) 0
  store input p_input sum

/-- Small pack kernel, launched on `gridDim_x` blocks of `blockDim_x × blockDim_y` threads:
`input_channel = gridDim.x`, `input_height = blockDim.x`, `input_width = blockDim.y`. -/
def GPUPack1024Kernel (gridDim_x blockDim_x blockDim_y : Nat)
    (pack : Nat → α) (input : Nat → α)
    (filter_height filter_width output_height output_width
      padding_height padding_width stride_height stride_width : Nat) : Nat → α :=
  (launchThreads gridDim_x blockDim_x blockDim_y).foldl (fun input t =>
    let input_height_index := t.2.1
    let input_width_index := t.2.2
    let input_channel_index := t.1
    let input_height := blockDim_x
    let input_width := blockDim_y
    let input_channel := gridDim_x
    packThread pack input input_channel input_height input_width filter_height filter_width
      output_height output_width padding_height padding_width stride_height stride_width
      input_channel_index input_height_index input_width_index) input

/-- General pack kernel: a grid-stride loop over the flat index space `[0, size)`.  The
channel index is `channel_height_offset % input_channel`, as in the source. -/
def GPUPackKernel (pack : Nat → α) (input : Nat → α)
    (size input_channel input_height input_width filter_height filter_width
      output_height output_width padding_height padding_width
      stride_height stride_width : Nat) : Nat → α :=
  BLITZ_CUDA_LOOP size (fun index input =>
    let channel_height_offset := index / input_width
    let input_height_index := channel_height_offset % input_height
    let input_width_index := index % input_width
    let input_channel_index := channel_height_offset % input_channel
    packThread pack input input_channel input_height input_width filter_height filter_width
      output_height output_width padding_height padding_width stride_height stride_width
      input_channel_index input_height_index input_width_index) input

/-- Entry point `Backend<GPUTensor, DType>::Pack2DFunc`. -/
def Pack2DFunc (pack : Nat → α) (input : Nat → α)
    (channel input_height input_width filter_height filter_width
      output_height output_width padding_height padding_width
      stride_height stride_width : Nat)
    (_pack_data_layout : BLITZ_DATA_LAYOUT) : (Nat → α) × BLITZ_DATA_LAYOUT :=
  if channel ≤ 64 ∧ input_height * input_width ≤ 256 then
    (GPUPack1024Kernel channel input_height input_width pack input
      filter_height filter_width output_height output_width
      padding_height padding_width stride_height stride_width,
     BLITZ_DATA_LAYOUT.BLITZ_BUFFER_NCHW)
  else
    let size := channel * input_height * input_width
    (GPUPackKernel pack input size channel input_height input_width
      filter_height filter_width output_height output_width
      padding_height padding_width stride_height stride_width,
     BLITZ_DATA_LAYOUT.BLITZ_BUFFER_NCHW)

end Pack

section
variable {α : Type} [Zero α]

/-- Value an unpack thread stores for the window cell `(i, j)` of channel `c` at output
position `(oh, ow)`: the two range tests and the read of `unpackThread`, for one cell. -/
def unpackCell (input : Nat → α) (input_height input_width
    padding_height padding_width stride_height stride_width : Nat)
    (c oh ow i j : Nat) : α :=
  let height_offset : Int := to_int ((oh * stride_height : Nat) - (padding_height : Int))
  let width_offset : Int := to_int ((ow * stride_width : Nat) - (padding_width : Int))
  let p_input : Int := ((c * input_height : Nat) + height_offset) * input_width + width_offset
  if to_int (height_offset + i) < 0 ∨ to_int (height_offset + i) ≥ to_int input_height then 0
  else if to_int (width_offset + j) < 0 ∨ to_int (width_offset + j) ≥ to_int input_width then 0
  else input (p_input + (i * input_width + j : Nat)).toNat

/-- First destination index of the thread `(c, oh, ow)` (initial value of `p_unpack`). -/
def unpackBase (input_channel filter_height filter_width output_width c oh ow : Nat) : Nat :=
  (oh * output_width + ow) * filter_height * filter_width * input_channel +
    c * filter_height * filter_width
end
section
variable {α : Type} [Zero α]

/-- Content of destination index `k` after an unpack, read off the index alone: `k` is
decoded into the thread `(c, oh, ow)` and the window cell `(i, j)` that owns it. -/
def unpackSpec (input : Nat → α) (input_channel input_height input_width
    filter_height filter_width output_width
    padding_height padding_width stride_height stride_width : Nat) (k : Nat) : α :=
  let t := k / (filter_height * filter_width)
  let off := k % (filter_height * filter_width)
  unpackCell input input_height input_width padding_height padding_width
    stride_height stride_width
    (t % input_channel) (t / input_channel / output_width) (t / input_channel % output_width)
    (off / filter_width) (off % filter_width)
end

/-- The extents of an unpack call fit the `int` arithmetic of the kernels: the input extents
and paddings are within the `int` range and so is every window coordinate `oh * stride + i`
with `oh < P`, `i < R` (same for width). -/
def FitsInt (input_height input_width filter_height filter_width output_height output_width
    padding_height padding_width stride_height stride_width : Nat) : Prop :=
  input_height < 2 ^ 31 ∧ input_width < 2 ^ 31 ∧
  padding_height ≤ 2 ^ 31 ∧ padding_width ≤ 2 ^ 31 ∧
  output_height * stride_height + filter_height ≤ 2 ^ 31 ∧
  output_width * stride_width + filter_width ≤ 2 ^ 31

section
variable {α : Type} [AddCommMonoid α]

/-- Value a pack thread stores: the double loop of `packThread` (lines 185-194 / 237-246)
for the thread `(c, ih, iw)`, on the padded coordinates the thread computes (the `size_t`
sums `ih + padding_height` and `iw + padding_width`). -/
def packSum (pack : Nat → α)
    (input_channel filter_height filter_width output_height output_width
      padding_height padding_width stride_height stride_width : Nat)
    (c ih iw : Nat) : α :=
  let input_height_padding := size_t_add ih padding_height
  let input_width_padding := size_t_add iw padding_width
  forLoop (pack_start input_height_padding filter_height stride_height)
      (pack_end input_height_padding stride_height output_height) (fun i sum =>
    forLoop (pack_start input_width_padding filter_width stride_width)
        (pack_end input_width_padding stride_width output_width) (fun j sum =>
      sum + pack (filter_width * filter_height * c +
        ((i * output_width + j) * (filter_height * filter_width * input_channel) +
          (input_height_padding - i * stride_height) * filter_width +
          (input_width_padding - j * stride_width)))) sum) 0

/-- The col2im value the specification prescribes for input position `(c, ih, iw)`: the sum of
`pack[(oh*Q + ow)*(C*R*S) + c*R*S + fh*S + fw]` over all `oh < P`, `ow < Q`, `fh < R`, `fw < S`
with `oh*stride_h + fh = ih + pad_h` and `ow*stride_w + fw = iw + pad_w`. -/
def col2im (pack : Nat → α) (C R S P Q ph pw sh sw : Nat) (c ih iw : Nat) : α :=
  ((List.range P).map fun oh => ((List.range Q).map fun ow =>
    ((List.range R).map fun fh => ((List.range S).map fun fw =>
      if oh * sh + fh = ih + ph ∧ ow * sw + fw = iw + pw then
        pack ((oh * Q + ow) * (C * R * S) + c * R * S + fh * S + fw)
      else 0).sum).sum).sum).sum

end

/-! ## Layer set-up: `Conv::InitImpl` -/

/-- Algorithm kinds (`BLITZ_ALGORITHM`).  The kinds named in `src/` are listed; `other`
stands for the remaining values of the enumeration. -/
inductive BLITZ_ALGORITHM where
  | BLITZ_CONVOLUTION_XSMM_DIRECT
  | BLITZ_CONVOLUTION_SASS_GEMM
  | BLITZ_CONVOLUTION_BLAS_GEMM
  | BLITZ_CONVOLUTION_BLAS_GEMM_BATCH
  | BLITZ_CONVOLUTION_SASS_DIRECT
  | BLITZ_CONVOLUTION_CUDNN
  | other (tag : Nat)
  deriving DecidableEq, Repr

/-- A four-axis `Shape` with its layout tag; `dim0 .. dim3` are `shape[0] .. shape[3]`. -/
structure Shape where
  dim0 : Nat
  dim1 : Nat
  dim2 : Nat
  dim3 : Nat
  data_layout : BLITZ_DATA_LAYOUT
  deriving DecidableEq, Repr

/-- Modelled from the spec: `Shape::size()` (the `Shape` class is declared outside `src/`)
is the total element count, the product of the four extents, computed in `size_t`. -/
def Shape.size (s : Shape) : Nat :=
  size_t_mul (size_t_mul (size_t_mul s.dim0 s.dim1) s.dim2) s.dim3

/-- Members of the `Conv` layer that `InitImpl` reads. -/
structure Conv where
  filter_shape_ : Shape
  padding_height_ : Nat
  padding_width_ : Nat
  stride_height_ : Nat
  stride_width_ : Nat
  algorithm_ : BLITZ_ALGORITHM
  deriving DecidableEq, Repr

/-- Shapes of the tensors `InitImpl` creates.  `workspace_` is the single extent of the
workspace shape, `none` when no branch assigns `workspace_shape[0]`. -/
structure ConvTensors where
  forward_output_ : Shape
  backward_output_ : Shape
  weight_ : Shape
  update_ : Shape
  workspace_ : Option Nat
  deriving DecidableEq, Repr

/-- Ways in which `Conv::InitImpl` ends without returning. -/
inductive InitFailure where
  /-- The call `LOG(FATAL) << msg`. -/
  | fatal (msg : String)
  /-- An integer division by zero: the process is killed by the arithmetic trap. -/
  | division_by_zero
  deriving DecidableEq, Repr

/-- Quotient of two `size_t` values; a zero divisor ends the program. -/
def size_t_div (a b : Nat) : Except InitFailure Nat :=
  if b = 0 then Except.error InitFailure.division_by_zero else Except.ok (a / b)

/-- The function `Conv::InitImpl` (`layers/conv.cc`, lines 11-111).  All arithmetic is in
`size_t`: sums and products wrap, the subtraction of the filter extent wraps on a borrow, a
division by a zero stride ends the program.  `LOG(FATAL)` ends the call with the logged
message; either way no tensor has been created.  A tensor is represented by its shape (the
tensor classes and their allocation are outside `src/`).  The constant `BLITZ_NUM_THREADS`
is declared outside `src/` and is a parameter.  The operation counts
(`forward_computations_`, doubles) and the log lines are left out. -/
def Conv.InitImpl (BLITZ_NUM_THREADS : Nat) (self : Conv) (input_shape : Shape) :
    Except InitFailure ConvTensors :=
  -- input shape decode
  let batch_size := input_shape.dim0
  let input_channel := input_shape.dim1
  let input_height := input_shape.dim2
  let input_width := input_shape.dim3
  -- filter shape decode
  let filter_height := self.filter_shape_.dim2
  let filter_width := self.filter_shape_.dim3
  -- output shape encode
  let output_channel := self.filter_shape_.dim0
  let extents : Except InitFailure (Nat × Nat) :=
    if self.algorithm_ = BLITZ_ALGORITHM.BLITZ_CONVOLUTION_XSMM_DIRECT then
      if self.padding_height_ ≠ 0 ∨ self.padding_width_ ≠ 0 then
        Except.error
          (InitFailure.fatal "xsmm kernel do not support backward phase for padding > 0")
      else
        (size_t_div (size_t_sub input_height filter_height) self.stride_height_).bind
          fun quotient_height =>
        (size_t_div (size_t_sub input_width filter_width) self.stride_width_).bind
          fun quotient_width =>
        Except.ok
          (size_t_add (size_t_add quotient_height 1) (size_t_mul 2 self.padding_height_),
           size_t_add (size_t_add quotient_width 1) (size_t_mul 2 self.padding_width_))
    else
      (size_t_div
        (size_t_sub (size_t_add input_height (size_t_mul 2 self.padding_height_))
          filter_height) self.stride_height_).bind fun quotient_height =>
      (size_t_div
        (size_t_sub (size_t_add input_width (size_t_mul 2 self.padding_width_))
          filter_width) self.stride_width_).bind fun quotient_width =>
      Except.ok (size_t_add quotient_height 1, size_t_add quotient_width 1)
  match extents with
  | Except.error failure => Except.error failure
  | Except.ok (output_height, output_width) =>
    let output_shape : Shape :=
      { dim0 := batch_size, dim1 := output_channel, dim2 := output_height,
        dim3 := output_width, data_layout := BLITZ_DATA_LAYOUT.BLITZ_BUFFER_NCHW }
    let weight_shape : Shape :=
      { dim0 := output_channel, dim1 := input_channel, dim2 := filter_height,
        dim3 := filter_width, data_layout := BLITZ_DATA_LAYOUT.BLITZ_FILTER_KCRS }
    let workspace_shape : Option Nat :=
      if self.algorithm_ = BLITZ_ALGORITHM.BLITZ_CONVOLUTION_SASS_GEMM ∨
          self.algorithm_ = BLITZ_ALGORITHM.BLITZ_CONVOLUTION_BLAS_GEMM then
        some (size_t_mul (size_t_mul (size_t_mul (size_t_mul input_channel filter_height)
          filter_width) output_height) output_width)
      else if self.algorithm_ = BLITZ_ALGORITHM.BLITZ_CONVOLUTION_BLAS_GEMM_BATCH ∨
          self.algorithm_ = BLITZ_ALGORITHM.BLITZ_CONVOLUTION_XSMM_DIRECT then
        let workspace_unpack_size :=
          size_t_mul (size_t_mul (size_t_mul (size_t_mul (size_t_mul BLITZ_NUM_THREADS
            input_channel) filter_height) filter_width) output_height) output_width
        let workspace_update_size :=
          size_t_mul (size_t_mul (size_t_mul (size_t_mul BLITZ_NUM_THREADS output_channel)
            input_channel) filter_height) filter_width
        some (size_t_add workspace_unpack_size workspace_update_size)
      else if self.algorithm_ = BLITZ_ALGORITHM.BLITZ_CONVOLUTION_SASS_DIRECT then
        some (size_t_add (size_t_add input_shape.size output_shape.size) weight_shape.size)
      else
        none
    Except.ok
      { forward_output_ := output_shape
        backward_output_ := input_shape
        weight_ := weight_shape
        update_ := weight_shape
        workspace_ := workspace_shape }

/-! ## Coprocessor entry points (`mic_backend_conv-inl.h`) -/

/-- A tensor as the entry points see it: its layout tag and its shape. -/
structure MICTensor where
  data_layout : BLITZ_DATA_LAYOUT
  shape : Shape
  deriving DecidableEq, Repr

/-- Convolution kind passed to `libxsmm_dnn_convolve_st`. -/
inductive LIBXSMM_DNN_CONV_KIND where
  | LIBXSMM_DNN_CONV_KIND_FWD
  | LIBXSMM_DNN_CONV_KIND_BWD
  | LIBXSMM_DNN_CONV_KIND_UPD
  deriving DecidableEq, Repr

/-- Extents and configuration handed to `BlitzXsmmPrepare2D` (the data pointers are left
out). -/
structure XsmmArgs where
  buffer_layout : BLITZ_DATA_LAYOUT
  filter_layout : BLITZ_DATA_LAYOUT
  N : Nat
  H : Nat
  W : Nat
  C : Nat
  K : Nat
  R : Nat
  S : Nat
  stride_height : Nat
  stride_width : Nat
  padding_height : Nat
  padding_width : Nat
  deriving DecidableEq, Repr

/-- The handle `BlitzXsmmPrepare2D` returns. -/
structure XsmmBuffer where
  libxsmm_handle : Nat
  deriving DecidableEq, Repr

/-- Fatal terminations of an entry point. -/
inductive Fatal where
  /-- The check `CHECK_EQ(lhs, rhs)` failed on the values `a`, `b`. -/
  | check_eq (lhs rhs : String) (a b : Nat)
  /-- The default case: `LOG(FATAL) << "Unupported algorithm type: " << algorithm`. -/
  | unsupported_algorithm (algorithm : BLITZ_ALGORITHM)
  /-- A fatal termination inside `BlitzXsmmPrepare2D`. -/
  | prepare (msg : String)
  deriving DecidableEq, Repr

/-- Steps an entry point invokes, in order. -/
inductive Step where
  /-- The prepare step `BlitzXsmmPrepare2D`. -/
  | prepare (args : XsmmArgs)
  /-- The compute step `libxsmm_dnn_convolve_st(handle, kind, 0, tid)`. -/
  | convolve (handle : Nat) (kind : LIBXSMM_DNN_CONV_KIND) (tid : Nat)
  deriving DecidableEq, Repr

/-- Outcome of a call: the steps invoked so far and, if the call terminated fatally, why. -/
structure Run where
  steps : List Step
  fatal : Option Fatal
  deriving DecidableEq, Repr

/-- Functions and values the entry points use that are declared outside `src/`: the shape
decoders `Blitz2DBuffer` and `Blitz2DFilter` (returning the four named extents), the prepare
step `BlitzXsmmPrepare2D` (which may terminate fatally), and the number of threads of an
`omp parallel` region. -/
structure Env where
  Blitz2DBuffer : BLITZ_DATA_LAYOUT → Shape → Nat × Nat × Nat × Nat
  Blitz2DFilter : BLITZ_DATA_LAYOUT → Shape → Nat × Nat × Nat × Nat
  BlitzXsmmPrepare2D : XsmmArgs → Except String XsmmBuffer
  omp_num_threads : Nat

/-- The `switch (algorithm)` of the entry points: the fused-direct case prepares a handle and
then runs the compute step on each thread in `tids`; every other kind is fatal. -/
def dispatch (env : Env) (kind : LIBXSMM_DNN_CONV_KIND) (tids : List Nat)
    (args : XsmmArgs) (algorithm : BLITZ_ALGORITHM) : Run :=
  match algorithm with
  | BLITZ_ALGORITHM.BLITZ_CONVOLUTION_XSMM_DIRECT =>
    match env.BlitzXsmmPrepare2D args with
    | Except.error msg => { steps := [Step.prepare args], fatal := some (Fatal.prepare msg) }
    | Except.ok xsmmBuffer =>
      { steps := Step.prepare args ::
          tids.map (fun tid => Step.convolve xsmmBuffer.libxsmm_handle kind tid),
        fatal := none }
  | _ => { steps := [], fatal := some (Fatal.unsupported_algorithm algorithm) }

/-- Arguments the entry points hand to `BlitzXsmmPrepare2D`: the layouts of the input and of
the filter, the decoded extents `NIN, H, W, C, K, R, S`, the strides and the paddings. -/
def prepareArgs (env : Env) (input filter output : MICTensor)
    (padding_height padding_width stride_height stride_width : Nat) : XsmmArgs :=
  let (NIN, C, H, W) := env.Blitz2DBuffer input.data_layout input.shape
  let (_KF, _CF, R, S) := env.Blitz2DFilter filter.data_layout filter.shape
  let (_NOUT, K, _P, _Q) := env.Blitz2DBuffer output.data_layout output.shape
  { buffer_layout := input.data_layout, filter_layout := filter.data_layout,
    N := NIN, H := H, W := W, C := C, K := K, R := R, S := S,
    stride_height := stride_height, stride_width := stride_width,
    padding_height := padding_height, padding_width := padding_width }

/-- The shape decoding and the three `CHECK_EQ` lines shared by the entry points, followed by
the algorithm switch. -/
def checkedDispatch (env : Env) (kind : LIBXSMM_DNN_CONV_KIND) (tids : List Nat)
    (input filter output : MICTensor)
    (padding_height padding_width stride_height stride_width : Nat)
    (algorithm : BLITZ_ALGORITHM) : Run :=
  let (NIN, C, H, W) := env.Blitz2DBuffer input.data_layout input.shape
  let (KF, CF, R, S) := env.Blitz2DFilter filter.data_layout filter.shape
  let (NOUT, K, _P, _Q) := env.Blitz2DBuffer output.data_layout output.shape
  if NIN ≠ NOUT then { steps := [], fatal := some (Fatal.check_eq "NIN" "NOUT" NIN NOUT) }
  else if KF ≠ K then { steps := [], fatal := some (Fatal.check_eq "KF" "K" KF K) }
  else if CF ≠ C then { steps := [], fatal := some (Fatal.check_eq "CF" "C" CF C) }
  else
    dispatch env kind tids
      { buffer_layout := input.data_layout, filter_layout := filter.data_layout,
        N := NIN, H := H, W := W, C := C, K := K, R := R, S := S,
        stride_height := stride_height, stride_width := stride_width,
        padding_height := padding_height, padding_width := padding_width }
      algorithm

/-- Entry point `Backend<MICTensor, DType>::Convolution2DForwardFunc` (lines 5-63): the compute step runs
in an `omp parallel` region, once per thread. -/
def Convolution2DForwardFunc (env : Env) (input filter output _workspace : MICTensor)
    (padding_height padding_width stride_height stride_width : Nat)
    (algorithm : BLITZ_ALGORITHM) : Run :=
  checkedDispatch env LIBXSMM_DNN_CONV_KIND.LIBXSMM_DNN_CONV_KIND_FWD
    (List.range env.omp_num_threads) input filter output
    padding_height padding_width stride_height stride_width algorithm

/-- Entry point `Backend<MICTensor, DType>::Convolution2DBackwardFunc` (lines 65-122): the compute step
runs once, with `tid = 0`. -/
def Convolution2DBackwardFunc (env : Env) (output filter input _workspace : MICTensor)
    (padding_height padding_width stride_height stride_width : Nat)
    (algorithm : BLITZ_ALGORITHM) : Run :=
  checkedDispatch env LIBXSMM_DNN_CONV_KIND.LIBXSMM_DNN_CONV_KIND_BWD
    [0] input filter output
    padding_height padding_width stride_height stride_width algorithm

/-- Entry point `Backend<MICTensor, DType>::Convolution2DUpdateFunc` (lines 124-179): the compute step
runs in an `omp parallel` region, once per thread. -/
def Convolution2DUpdateFunc (env : Env) (input output filter _workspace : MICTensor)
    (padding_height padding_width stride_height stride_width : Nat)
    (algorithm : BLITZ_ALGORITHM) : Run :=
  checkedDispatch env LIBXSMM_DNN_CONV_KIND.LIBXSMM_DNN_CONV_KIND_UPD
    (List.range env.omp_num_threads) input filter output
    padding_height padding_width stride_height stride_width algorithm


/-- Modelled from the spec: the prepare step `BlitzXsmmPrepare2D` of the fused-direct path,
which is defined outside `src/` (the entry points only call it).  The spec says that the
prepare phase "may itself fail fatally if requested padding/stride is unsupported by that
path", that the fused-direct path "forbids nonzero input-side padding as an explicit
precondition", and that this rule is checked at "layer initialization and backend
execution".  So the prepare step fails fatally when a padding is nonzero (the text of its
message is not specified); on every other argument list it does what `supported` does, which
the spec leaves open. -/
def BlitzXsmmPrepare2D (supported : XsmmArgs → Except String XsmmBuffer) (args : XsmmArgs) :
    Except String XsmmBuffer :=
  if args.padding_height ≠ 0 ∨ args.padding_width ≠ 0 then
    Except.error "xsmm kernel do not support input padding"
  else supported args

/-- An environment for concrete evaluations of the entry points: the decoders read the four
extents in storage order (`NCHW` buffers, `KCRS` filters), the prepare step is the modelled
`BlitzXsmmPrepare2D` returning the handle `0` on every argument list without padding, and a
parallel region has two threads. -/
def nchwEnv : Env where
  Blitz2DBuffer := fun _ s => (s.dim0, s.dim1, s.dim2, s.dim3)
  Blitz2DFilter := fun _ s => (s.dim0, s.dim1, s.dim2, s.dim3)
  BlitzXsmmPrepare2D := BlitzXsmmPrepare2D (fun _ => Except.ok { libxsmm_handle := 0 })
  omp_num_threads := 2

/-- A tensor in `NCHW` layout with the given extents. -/
def nchwTensor (n c h w : Nat) : MICTensor :=
  { data_layout := BLITZ_DATA_LAYOUT.BLITZ_BUFFER_NCHW,
    shape := ⟨n, c, h, w, BLITZ_DATA_LAYOUT.BLITZ_BUFFER_NCHW⟩ }

/-- A filter tensor in `KCRS` layout with the given extents. -/
def kcrsTensor (k c r s : Nat) : MICTensor :=
  { data_layout := BLITZ_DATA_LAYOUT.BLITZ_FILTER_KCRS,
    shape := ⟨k, c, r, s, BLITZ_DATA_LAYOUT.BLITZ_FILTER_KCRS⟩ }


/-! ## Instrumented unpack threads: write log and bounds-checked reads -/

/-- Destination indices an unpack thread stores to, in program order: the loops of
`unpackThread` with every `*p_unpack++ = ...` recorded instead of performed.  The state is the
log together with the running pointer `p_unpack`. -/
def unpackThreadWrites
    (input_channel input_height input_width filter_height filter_width output_width
      padding_height padding_width stride_height stride_width : Nat)
    (input_channel_index output_height_index output_width_index : Nat) : List Nat :=
  let height_offset : Int :=
    to_int ((output_height_index * stride_height : Nat) - (padding_height : Int))
  let width_offset : Int :=
    to_int ((output_width_index * stride_width : Nat) - (padding_width : Int))
  let p_unpack : Nat :=
    (output_height_index * output_width + output_width_index) *
      filter_height * filter_width * input_channel +
    input_channel_index * filter_height * filter_width
  (forLoop 0 filter_height (fun i (st : List Nat × Nat) =>
    let height_offset_index : Int := to_int (height_offset + i)
    if height_offset_index < 0 ∨ height_offset_index ≥ to_int input_height then
      forLoop 0 filter_width (fun _ st => (st.1 ++ [st.2], st.2 + 1)) st
    else
      forLoop 0 filter_width (fun j st =>
        let width_offset_index : Int := to_int (width_offset + j)
        if width_offset_index < 0 ∨ width_offset_index ≥ to_int input_width then
          (st.1 ++ [st.2], st.2 + 1)
        else
          (st.1 ++ [st.2], st.2 + 1)) st)
    ([], p_unpack)).1

/-- Write log of one launch of the small unpack kernel: the logs of its threads, thread after
thread. -/
def GPUUnpack1024KernelWrites (gridDim_x blockDim_x blockDim_y : Nat)
    (input_height input_width filter_height filter_width
      padding_height padding_width stride_height stride_width : Nat) : List Nat :=
  (launchThreads gridDim_x blockDim_x blockDim_y).flatMap fun t =>
    unpackThreadWrites gridDim_x input_height input_width filter_height filter_width
      blockDim_y padding_height padding_width stride_height stride_width t.1 t.2.1 t.2.2

/-- Write log of the general unpack kernel: the logs of the iterations `index < size`. -/
def GPUUnpackKernelWrites
    (size input_channel input_height input_width filter_height filter_width
      output_height output_width padding_height padding_width
      stride_height stride_width : Nat) : List Nat :=
  (List.range size).flatMap fun index =>
    unpackThreadWrites input_channel input_height input_width filter_height filter_width
      output_width padding_height padding_width stride_height stride_width
      (index / output_width / output_height) (index / output_width % output_height)
      (index % output_width)

/-- Write log of one `Unpack2DFunc` call: the log of the kernel it launches. -/
def Unpack2DFuncWrites
    (channel input_height input_width filter_height filter_width
      output_height output_width padding_height padding_width
      stride_height stride_width : Nat) : List Nat :=
  if channel ≤ 64 ∧ output_height * output_width ≤ 256 then
    GPUUnpack1024KernelWrites channel output_height output_width
      input_height input_width filter_height filter_width
      padding_height padding_width stride_height stride_width
  else
    GPUUnpackKernelWrites (channel * output_height * output_width) channel
      input_height input_width filter_height filter_width output_height output_width
      padding_height padding_width stride_height stride_width

section
variable {α : Type} [Zero α]

/-- Bounds-checked read of a buffer of `size` elements at a signed element offset: `none`
when the offset is outside `[0, size)`. -/
def readChecked (input : Nat → α) (size : Nat) (idx : Int) : Option α :=
  if 0 ≤ idx ∧ idx < size then some (input idx.toNat) else none

/-- The unpack thread with the read of `p_input[i * input_width + j]` bounds-checked against an
input buffer of `size` elements: `none` as soon as one read is out of range. -/
def unpackThreadChecked (input : Nat → α) (size : Nat) (unpack : Nat → α)
    (input_channel input_height input_width filter_height filter_width output_width
      padding_height padding_width stride_height stride_width : Nat)
    (input_channel_index output_height_index output_width_index : Nat) : Option (Nat → α) :=
  let height_offset : Int :=
    to_int ((output_height_index * stride_height : Nat) - (padding_height : Int))
  let width_offset : Int :=
    to_int ((output_width_index * stride_width : Nat) - (padding_width : Int))
  let p_input : Int :=
    ((input_channel_index * input_height : Nat) + height_offset) * input_width + width_offset
  let p_unpack : Nat :=
    (output_height_index * output_width + output_width_index) *
      filter_height * filter_width * input_channel +
    input_channel_index * filter_height * filter_width
  (forLoop 0 filter_height (fun i (ost : Option ((Nat → α) × Nat)) =>
    ost.bind fun st =>
      let height_offset_index : Int := to_int (height_offset + i)
      if height_offset_index < 0 ∨ height_offset_index ≥ to_int input_height then
        some (forLoop 0 filter_width (fun _ st => (store st.1 st.2 0, st.2 + 1)) st)
      else
        forLoop 0 filter_width (fun j (ost : Option ((Nat → α) × Nat)) =>
          ost.bind fun st =>
            let width_offset_index : Int := to_int (width_offset + j)
            if width_offset_index < 0 ∨ width_offset_index ≥ to_int input_width then
              some (store st.1 st.2 0, st.2 + 1)
            else
              (readChecked input size (p_input + (i * input_width + j : Nat))).map
                fun v => (store st.1 st.2 v, st.2 + 1)) (some st))
    (some (unpack, p_unpack))).map Prod.fst

/-- Small unpack kernel with bounds-checked reads of an input buffer of `size` elements. -/
def GPUUnpack1024KernelChecked (gridDim_x blockDim_x blockDim_y : Nat)
    (input : Nat → α) (size : Nat) (unpack : Nat → α)
    (input_height input_width filter_height filter_width
      padding_height padding_width stride_height stride_width : Nat) : Option (Nat → α) :=
  (launchThreads gridDim_x blockDim_x blockDim_y).foldl (fun ounpack t =>
    ounpack.bind fun unpack =>
      unpackThreadChecked input size unpack gridDim_x input_height input_width filter_height
        filter_width blockDim_y padding_height padding_width stride_height stride_width
        t.1 t.2.1 t.2.2) (some unpack)

/-- General unpack kernel with bounds-checked reads of an input buffer of `size_input`
elements. -/
def GPUUnpackKernelChecked (input : Nat → α) (size_input : Nat) (unpack : Nat → α)
    (size input_channel input_height input_width filter_height filter_width
      output_height output_width padding_height padding_width
      stride_height stride_width : Nat) : Option (Nat → α) :=
  BLITZ_CUDA_LOOP size (fun index ounpack =>
    ounpack.bind fun unpack =>
      unpackThreadChecked input size_input unpack input_channel input_height input_width
        filter_height filter_width output_width padding_height padding_width stride_height
        stride_width (index / output_width / output_height)
        (index / output_width % output_height) (index % output_width)) (some unpack)

end

/-! ## The all-ones scenario -/

/-- Number of window cells `i < filter` whose source coordinate `o * stride - pad + i` lies in
`[0, extent)`. -/
def windowCount (filter extent o pad stride : Nat) : Nat :=
  ((List.range filter).filter fun i =>
    decide (pad ≤ o * stride + i ∧ o * stride + i < pad + extent)).length

/-- Sum of the `C * R * S` elements of the row of the unpacked matrix that belongs to the
output position `(oh, ow)`. -/
def rowSum {α : Type} [AddCommMonoid α] (unpack : Nat → α) (C R S Q oh ow : Nat) : α :=
  ((List.range (C * R * S)).map fun t => unpack ((oh * Q + ow) * (C * R * S) + t)).sum


/-! ## Instrumented pack threads: checked subtraction, bounds-checked accesses, write log -/

/-- Subtraction of two `size_t` values that reports a borrow: `none` when `b > a`. -/
def subChecked (a b : Nat) : Option Nat := if b ≤ a then some (a - b) else none

/-- The expression of `pack_height_start` / `pack_width_start` with its subtraction
checked. -/
def pack_startChecked (input_padding filter stride : Nat) : Option Nat :=
  if input_padding < filter then some 0
  else (subChecked input_padding filter).map fun d => d / stride + 1

section
variable {α : Type} [AddCommMonoid α]

/-- The pack thread with every subtraction checked for a borrow, every read of `p_pack[...]`
bounds-checked against a pack buffer of `size_pack` elements and the store through `p_input`
bounds-checked against an input buffer of `size_input` elements: `none` as soon as one of
them fails. -/
def packThreadChecked (pack : Nat → α) (size_pack : Nat) (input : Nat → α) (size_input : Nat)
    (input_channel input_height input_width filter_height filter_width
      output_height output_width padding_height padding_width
      stride_height stride_width : Nat)
    (input_channel_index input_height_index input_width_index : Nat) : Option (Nat → α) :=
  let input_height_padding := size_t_add input_height_index padding_height
  let input_width_padding := size_t_add input_width_index padding_width
  let pack_width := filter_height * filter_width * input_channel
  (pack_startChecked input_height_padding filter_height stride_height).bind
    fun pack_height_start =>
  let pack_height_end := pack_end input_height_padding stride_height output_height
  (pack_startChecked input_width_padding filter_width stride_width).bind
    fun pack_width_start =>
  let pack_width_end := pack_end input_width_padding stride_width output_width
  let p_pack := filter_width * filter_height * input_channel_index
  let p_input := input_channel_index * input_height * input_width +
    input_height_index * input_width + input_width_index
  let osum : Option α :=
    forLoop pack_height_start pack_height_end (fun i osum =>
      forLoop pack_width_start pack_width_end (fun j osum =>
        osum.bind fun sum =>
          (subChecked input_height_padding (i * stride_height)).bind
            fun filter_height_index =>
          (subChecked input_width_padding (j * stride_width)).bind
            fun filter_width_index =>
          (readChecked pack size_pack
            ((p_pack + ((i * output_width + j) * pack_width +
              filter_height_index * filter_width + filter_width_index) : Nat) : Int)).map
            fun v => sum + v) osum) (some 0)
  osum.bind fun sum =>
    if p_input < size_input then some (store input p_input sum) else none

/-- Small pack kernel with checked subtractions and bounds-checked accesses. -/
def GPUPack1024KernelChecked (gridDim_x blockDim_x blockDim_y : Nat)
    (pack : Nat → α) (size_pack : Nat) (input : Nat → α) (size_input : Nat)
    (filter_height filter_width output_height output_width
      padding_height padding_width stride_height stride_width : Nat) : Option (Nat → α) :=
  (launchThreads gridDim_x blockDim_x blockDim_y).foldl (fun oinput t =>
    oinput.bind fun input =>
      packThreadChecked pack size_pack input size_input gridDim_x blockDim_x blockDim_y
        filter_height filter_width output_height output_width padding_height padding_width
        stride_height stride_width t.1 t.2.1 t.2.2) (some input)

/-- General pack kernel with checked subtractions and bounds-checked accesses. -/
def GPUPackKernelChecked (pack : Nat → α) (size_pack : Nat) (input : Nat → α)
    (size_input : Nat)
    (size input_channel input_height input_width filter_height filter_width
      output_height output_width padding_height padding_width
      stride_height stride_width : Nat) : Option (Nat → α) :=
  BLITZ_CUDA_LOOP size (fun index oinput =>
    oinput.bind fun input =>
      packThreadChecked pack size_pack input size_input input_channel input_height
        input_width filter_height filter_width output_height output_width padding_height
        padding_width stride_height stride_width
        (index / input_width % input_channel) (index / input_width % input_height)
        (index % input_width)) (some input)

end

/-- Destination indices the general pack kernel stores to, in order of the flat index: the
single store `*(p_input) = sum` of every iteration `index < size`, recorded instead of
performed. -/
def GPUPackKernelWrites (size input_channel input_height input_width : Nat) : List Nat :=
  BLITZ_CUDA_LOOP size (fun index log =>
    let channel_height_offset := index / input_width
    let input_height_index := channel_height_offset % input_height
    let input_width_index := index % input_width
    let input_channel_index := channel_height_offset % input_channel
    log ++ [input_channel_index * input_height * input_width +
      input_height_index * input_width + input_width_index]) []

/-- The index decoding of the general pack kernel (lines 216-219):
`(input_channel_index, input_height_index, input_width_index)` of a flat index. -/
def packDecode (input_channel input_height input_width index : Nat) : Nat × Nat × Nat :=
  let channel_height_offset := index / input_width
  let input_height_index := channel_height_offset % input_height
  let input_width_index := index % input_width
  let input_channel_index := channel_height_offset % input_channel
  (input_channel_index, input_height_index, input_width_index)


/-! ## The calls of the layer into the backend (`layers/conv.cc`) -/

/-- Modelled from the spec: the tensor constructor `TensorType<DType>(shape)` (the tensor
classes are declared outside `src/`) builds a tensor that keeps the given shape and whose
layout tag is the tag of that shape. -/
def MICTensor.ofShape (shape : Shape) : MICTensor :=
  { data_layout := shape.data_layout, shape := shape }

/-- The function `Conv::ForwardPropImpl` (`layers/conv.cc`, lines 113-147, the branch
compiled without `BLITZ_USE_GPU`): one call of `Convolution2DForwardFunc` on the forward
input, the layer's weight, forward output and workspace, with the layer's configuration.
The tensors of the layer are those built from the shapes `t` of `InitImpl`. -/
def Conv.ForwardPropImpl (env : Env) (self : Conv) (t : ConvTensors) (workspace_ : MICTensor)
    (forward_input : MICTensor) : Run :=
  Convolution2DForwardFunc env
    forward_input
    (MICTensor.ofShape t.weight_)
    (MICTensor.ofShape t.forward_output_)
    workspace_
    self.padding_height_ self.padding_width_
    self.stride_height_ self.stride_width_
    self.algorithm_

/-- The function `Conv::BackwardPropImpl` (`layers/conv.cc`, lines 149-212, the branch
compiled without `BLITZ_USE_GPU`): when `backward_prop_` is set, one call of
`Convolution2DBackwardFunc` on the backward input, the weight and the backward output; then
one call of `Convolution2DUpdateFunc` on the saved forward input, the backward input and the
update tensor.  A fatal termination of the first call ends the function. -/
def Conv.BackwardPropImpl (env : Env) (self : Conv) (t : ConvTensors) (workspace_ : MICTensor)
    (backward_prop_ : Bool) (forward_input_ backward_input : MICTensor) : Run :=
  let backward : Run :=
    if backward_prop_ then
      Convolution2DBackwardFunc env
        backward_input
        (MICTensor.ofShape t.weight_)
        (MICTensor.ofShape t.backward_output_)
        workspace_
        self.padding_height_ self.padding_width_
        self.stride_height_ self.stride_width_
        self.algorithm_
    else { steps := [], fatal := none }
  match backward.fatal with
  | some _ => backward
  | none =>
    let update : Run :=
      Convolution2DUpdateFunc env
        forward_input_
        backward_input
        (MICTensor.ofShape t.update_)
        workspace_
        self.padding_height_ self.padding_width_
        self.stride_height_ self.stride_width_
        self.algorithm_
    { steps := backward.steps ++ update.steps, fatal := update.fatal }


/-! ## Loop lemmas -/

theorem forLoop_empty {σ : Type} (lo hi : Nat) (h : hi ≤ lo) (body : Nat → σ → σ) (s : σ) :
    forLoop lo hi body s = s := by
  unfold forLoop
  have : hi - lo = 0 := by omega
  rw [this]; rfl

theorem forLoop_succ_right {σ : Type} (lo hi : Nat) (h : lo ≤ hi) (body : Nat → σ → σ) (s : σ) :
    forLoop lo (hi + 1) body s = body hi (forLoop lo hi body s) := by
  unfold forLoop
  have h1 : hi + 1 - lo = (hi - lo) + 1 := by omega
  have h2 : lo + (hi - lo) = hi := by omega
  rw [h1, List.range'_1_concat, List.foldl_append, h2]
  rfl

/-- A loop that stores `val j` through a post-incremented pointer fills a contiguous run. -/
theorem forLoop_store_row {α : Type} (val : Nat → α) (n : Nat) (b : Nat → α) (p : Nat) :
    forLoop 0 n (fun j st => (store st.1 st.2 (val j), st.2 + 1)) (b, p)
      = (fun k => if p ≤ k ∧ k < p + n then val (k - p) else b k, p + n) := by
  induction n with
  | zero =>
    rw [forLoop_empty 0 0 (Nat.le_refl 0)]
    refine Prod.ext ?_ rfl
    funext k
    exact (if_neg (by omega)).symm
  | succ n ih =>
    rw [forLoop_succ_right 0 n (Nat.zero_le n), ih]
    refine Prod.ext ?_ rfl
    funext k
    simp only [store]
    by_cases hk : k = p + n
    · subst hk
      have : p ≤ p + n ∧ p + n < p + (n + 1) := by omega
      simp [this]
    · by_cases hin : p ≤ k ∧ k < p + n
      · have : p ≤ k ∧ k < p + (n + 1) := by omega
        simp [hk, hin, this]
      · have : ¬ (p ≤ k ∧ k < p + (n + 1)) := by omega
        simp [hk, hin, this]

/-- A loop over rows, each row storing `val i j` for `j < m` through the running pointer. -/
theorem forLoop_store_rows {α : Type} (val : Nat → Nat → α) (m n : Nat) (b : Nat → α) (p : Nat) :
    forLoop 0 n (fun i st =>
        forLoop 0 m (fun j st => (store st.1 st.2 (val i j), st.2 + 1)) st) (b, p)
      = (fun k => if p ≤ k ∧ k < p + n * m then val ((k - p) / m) ((k - p) % m) else b k,
          p + n * m) := by
  induction n with
  | zero =>
    rw [forLoop_empty 0 0 (Nat.le_refl 0)]
    refine Prod.ext ?_ (by simp)
    funext k
    exact (if_neg (by omega)).symm
  | succ n ih =>
    rw [forLoop_succ_right 0 n (Nat.zero_le n), ih, forLoop_store_row]
    refine Prod.ext ?_ (by simp [Nat.succ_mul, Nat.add_assoc])
    funext k
    simp only
    have hexp : (n + 1) * m = n * m + m := Nat.succ_mul n m
    by_cases h1 : p + n * m ≤ k ∧ k < p + n * m + m
    · have h2 : p ≤ k ∧ k < p + (n + 1) * m := by omega
      have hm : 0 < m := by omega
      have hq : (k - p) / m = n := by
        apply Nat.div_eq_of_lt_le
        · omega
        · show k - p < (n + 1) * m
          omega
      have hr : (k - p) % m = k - (p + n * m) := by
        have := Nat.div_add_mod (k - p) m
        rw [hq, Nat.mul_comm] at this
        omega
      simp [h1, h2, hq, hr]
    · by_cases h3 : p ≤ k ∧ k < p + n * m
      · have h2 : p ≤ k ∧ k < p + (n + 1) * m := by omega
        simp [h1, h2, h3]
      · have h2 : ¬ (p ≤ k ∧ k < p + (n + 1) * m) := by omega
        simp [h1, h2, h3]

section
variable {α : Type} [Zero α]

theorem unpackThread_eq (input u : Nat → α) (C H W R S Q ph pw sh sw c oh ow : Nat) :
    unpackThread input u C H W R S Q ph pw sh sw c oh ow
      = fun k =>
          if unpackBase C R S Q c oh ow ≤ k ∧ k < unpackBase C R S Q c oh ow + R * S then
            unpackCell input H W ph pw sh sw c oh ow
              ((k - unpackBase C R S Q c oh ow) / S) ((k - unpackBase C R S Q c oh ow) % S)
          else u k := by
  have hbody : (fun (i : Nat) (st : (Nat → α) × Nat) =>
      if to_int (to_int ((oh * sh : Nat) - (ph : Int)) + i) < 0 ∨
          to_int (to_int ((oh * sh : Nat) - (ph : Int)) + i) ≥ to_int H then
        forLoop 0 S (fun _ st => (store st.1 st.2 (0 : α), st.2 + 1)) st
      else
        forLoop 0 S (fun j st =>
          if to_int (to_int ((ow * sw : Nat) - (pw : Int)) + j) < 0 ∨
              to_int (to_int ((ow * sw : Nat) - (pw : Int)) + j) ≥ to_int W then
            (store st.1 st.2 (0 : α), st.2 + 1)
          else
            (store st.1 st.2 (input ((((c * H : Nat) + to_int ((oh * sh : Nat) - (ph : Int))) * W
              + to_int ((ow * sw : Nat) - (pw : Int))) + (i * W + j : Nat)).toNat), st.2 + 1)) st)
      = fun i st => forLoop 0 S (fun j st =>
          (store st.1 st.2 (unpackCell input H W ph pw sh sw c oh ow i j), st.2 + 1)) st := by
    funext i st
    by_cases hrow : to_int (to_int ((oh * sh : Nat) - (ph : Int)) + i) < 0 ∨
          to_int (to_int ((oh * sh : Nat) - (ph : Int)) + i) ≥ to_int H
    · rw [if_pos hrow]
      congr 1
      funext j st
      simp only [unpackCell, if_pos hrow]
    · rw [if_neg hrow]
      congr 1
      funext j st
      by_cases hcol : to_int (to_int ((ow * sw : Nat) - (pw : Int)) + j) < 0 ∨
              to_int (to_int ((ow * sw : Nat) - (pw : Int)) + j) ≥ to_int W
      · simp only [unpackCell, if_neg hrow, if_pos hcol]
      · simp only [unpackCell, if_neg hrow, if_neg hcol]
  show (forLoop 0 R _ (u, unpackBase C R S Q c oh ow)).1 = _
  rw [hbody, forLoop_store_rows]

end

/-! ## Folding a list of workers over a buffer -/

theorem foldl_workers_frame {ι β : Type} (step : ι → (Nat → β) → (Nat → β)) (k : Nat)
    (ws : List ι) (h : ∀ w ∈ ws, ∀ u, step w u k = u k) (b : Nat → β) :
    ws.foldl (fun u w => step w u) b k = b k := by
  induction ws generalizing b with
  | nil => rfl
  | cons w ws ih =>
    rw [List.foldl_cons, ih (fun w' hw' => h w' (List.mem_cons_of_mem _ hw'))]
    exact h w (List.mem_cons_self _ _) b

theorem foldl_workers_keep {ι β : Type} (step : ι → (Nat → β) → (Nat → β)) (k : Nat) (v : β)
    (ws : List ι)
    (h : ∀ w ∈ ws, (∀ u, step w u k = u k) ∨ (∀ u, step w u k = v))
    (b : Nat → β) (hb : b k = v) :
    ws.foldl (fun u w => step w u) b k = v := by
  induction ws generalizing b with
  | nil => exact hb
  | cons w ws ih =>
    rw [List.foldl_cons]
    apply ih (fun w' hw' => h w' (List.mem_cons_of_mem _ hw'))
    rcases h w (List.mem_cons_self _ _) with hw | hw
    · rw [hw, hb]
    · exact hw b

theorem foldl_workers_written {ι β : Type} (step : ι → (Nat → β) → (Nat → β)) (k : Nat)
    (v : β) (ws : List ι)
    (h : ∀ w ∈ ws, (∀ u, step w u k = u k) ∨ (∀ u, step w u k = v))
    (hex : ∃ w ∈ ws, ∀ u, step w u k = v) (b : Nat → β) :
    ws.foldl (fun u w => step w u) b k = v := by
  induction ws generalizing b with
  | nil => obtain ⟨w, hw, _⟩ := hex; cases hw
  | cons w ws ih =>
    rw [List.foldl_cons]
    have htail : ∀ w' ∈ ws, (∀ u, step w' u k = u k) ∨ (∀ u, step w' u k = v) :=
      fun w' hw' => h w' (List.mem_cons_of_mem _ hw')
    obtain ⟨w0, hw0, hv⟩ := hex
    rcases List.mem_cons.mp hw0 with rfl | hmem
    · exact foldl_workers_keep step k v ws htail _ (hv b)
    · exact ih htail ⟨w0, hmem, hv⟩ _

theorem mem_launchThreads (gx bx b_y : Nat) (t : Nat × Nat × Nat) :
    t ∈ launchThreads gx bx b_y ↔ t.1 < gx ∧ t.2.1 < bx ∧ t.2.2 < b_y := by
  obtain ⟨c, x, y⟩ := t
  simp only [launchThreads, List.mem_flatMap, List.mem_map, List.mem_range, Prod.mk.injEq]
  constructor
  · rintro ⟨c', hc, x', hx, y', hy, rfl, rfl, rfl⟩
    exact ⟨hc, hx, hy⟩
  · rintro ⟨hc, hx, hy⟩
    exact ⟨c, hc, x, hx, y, hy, rfl, rfl, rfl⟩

/-! ## Index arithmetic -/

theorem div_mod_of_block (L a r : Nat) (hr : r < L) :
    (a * L + r) / L = a ∧ (a * L + r) % L = r := by
  have hq : (a * L + r) / L = a := by
    apply Nat.div_eq_of_lt_le
    · omega
    · show a * L + r < (a + 1) * L
      rw [Nat.succ_mul]; omega
  refine ⟨hq, ?_⟩
  have := Nat.div_add_mod (a * L + r) L
  rw [hq, Nat.mul_comm] at this
  omega

theorem block_of_div_mod (L k : Nat) (hL : 0 < L) :
    (k / L) * L ≤ k ∧ k < (k / L) * L + L ∧ k - (k / L) * L = k % L := by
  have h1 := Nat.div_add_mod k L
  have h2 := Nat.mod_lt k hL
  rw [Nat.mul_comm] at h1
  omega

theorem unpackBase_eq (C R S Q c oh ow : Nat) :
    unpackBase C R S Q c oh ow = ((oh * Q + ow) * C + c) * (R * S) := by
  unfold unpackBase; ring

section
variable {α : Type} [Zero α]

/-- One unpack thread, seen from a destination index: inside its block of `R * S` cells it
stores the value `unpackSpec` prescribes, outside it leaves the buffer alone. -/
theorem unpackThread_spec (input u : Nat → α) (C H W R S Q ph pw sh sw c oh ow : Nat)
    (hc : c < C) (how : ow < Q) (k : Nat) :
    unpackThread input u C H W R S Q ph pw sh sw c oh ow k
      = if k / (R * S) = (oh * Q + ow) * C + c ∧ 0 < R * S then
          unpackSpec input C H W R S Q ph pw sh sw k
        else u k := by
  rw [unpackThread_eq, unpackBase_eq]
  simp only
  by_cases hreg : ((oh * Q + ow) * C + c) * (R * S) ≤ k ∧
      k < ((oh * Q + ow) * C + c) * (R * S) + R * S
  · obtain ⟨q, hq⟩ : ∃ r, k = ((oh * Q + ow) * C + c) * (R * S) + r :=
      ⟨k - ((oh * Q + ow) * C + c) * (R * S), by omega⟩
    have hr : q < R * S := by omega
    obtain ⟨hd, hm⟩ := div_mod_of_block (R * S) ((oh * Q + ow) * C + c) q hr
    obtain ⟨hd2, hm2⟩ := div_mod_of_block C (oh * Q + ow) c hc
    obtain ⟨hd3, hm3⟩ := div_mod_of_block Q oh ow how
    have hsub : k - ((oh * Q + ow) * C + c) * (R * S) = q := by omega
    rw [if_pos hreg, hsub]
    have hcond : k / (R * S) = (oh * Q + ow) * C + c ∧ 0 < R * S := by
      rw [hq, hd]; exact ⟨rfl, by omega⟩
    rw [if_pos hcond]
    unfold unpackSpec
    simp only [hq, hd, hm, hd2, hm2, hd3, hm3]
  · rw [if_neg hreg]
    have hcond : ¬ (k / (R * S) = (oh * Q + ow) * C + c ∧ 0 < R * S) := by
      rintro ⟨h1, h2⟩
      obtain ⟨a1, a2, _⟩ := block_of_div_mod (R * S) k h2
      rw [h1] at a1 a2
      exact hreg ⟨a1, a2⟩
    rw [if_neg hcond]

end

theorem digits_lt (a b A B : Nat) (ha : a < A) (hb : b < B) : a * B + b < A * B := by
  have h1 : (a + 1) * B ≤ A * B := Nat.mul_le_mul_right B ha
  rw [Nat.succ_mul] at h1
  omega

section
variable {α : Type} [Zero α]

/-- Any list of unpack threads whose coordinates stay inside the `C × P × Q` grid and reach
every point of it leaves `unpackSpec` in the first `P * Q * C * (R * S)` cells of the
destination and nothing else. -/
theorem unpack_workers_spec {ι : Type} (ws : List ι) (coord : ι → Nat × Nat × Nat)
    (C P Q : Nat)
    (hin : ∀ w ∈ ws, (coord w).1 < C ∧ (coord w).2.1 < P ∧ (coord w).2.2 < Q)
    (hall : ∀ c oh ow, c < C → oh < P → ow < Q → ∃ w ∈ ws, coord w = (c, oh, ow))
    (input u : Nat → α) (H W R S ph pw sh sw : Nat) (k : Nat) :
    ws.foldl (fun u w => unpackThread input u C H W R S Q ph pw sh sw
        (coord w).1 (coord w).2.1 (coord w).2.2) u k
      = if k < P * Q * C * (R * S) then unpackSpec input C H W R S Q ph pw sh sw k
        else u k := by
  have hfold : ∀ b : Nat → α, ws.foldl (fun u w => unpackThread input u C H W R S Q ph pw sh sw
        (coord w).1 (coord w).2.1 (coord w).2.2) b
      = ws.foldl (fun u w => (fun w u => unpackThread input u C H W R S Q ph pw sh sw
        (coord w).1 (coord w).2.1 (coord w).2.2) w u) b := fun _ => rfl
  rw [hfold]
  by_cases hk : k < P * Q * C * (R * S)
  · rw [if_pos hk]
    have hL : 0 < R * S := by
      rcases Nat.eq_zero_or_pos (R * S) with h0 | h0
      · rw [h0] at hk; simp at hk
      · exact h0
    have ht : k / (R * S) < P * Q * C := (Nat.div_lt_iff_lt_mul hL).mpr hk
    have hC : 0 < C := by
      rcases Nat.eq_zero_or_pos C with h0 | h0
      · rw [h0] at ht; simp at ht
      · exact h0
    have hq : k / (R * S) / C < P * Q := (Nat.div_lt_iff_lt_mul hC).mpr ht
    have hQ : 0 < Q := by
      rcases Nat.eq_zero_or_pos Q with h0 | h0
      · rw [h0] at hq; simp at hq
      · exact h0
    have hoh : k / (R * S) / C / Q < P := (Nat.div_lt_iff_lt_mul hQ).mpr hq
    apply foldl_workers_written
    · intro w hw
      obtain ⟨h1, _, h3⟩ := hin w hw
      by_cases hcond : k / (R * S) = ((coord w).2.1 * Q + (coord w).2.2) * C + (coord w).1 ∧
          0 < R * S
      · right; intro b
        simp only [unpackThread_spec input b C H W R S Q ph pw sh sw _ _ _ h1 h3, if_pos hcond]
      · left; intro b
        simp only [unpackThread_spec input b C H W R S Q ph pw sh sw _ _ _ h1 h3, if_neg hcond]
    · obtain ⟨w, hw, hcw⟩ := hall (k / (R * S) % C) (k / (R * S) / C / Q) (k / (R * S) / C % Q)
        (Nat.mod_lt _ hC) hoh (Nat.mod_lt _ hQ)
      refine ⟨w, hw, fun b => ?_⟩
      have hcond : k / (R * S) = ((coord w).2.1 * Q + (coord w).2.2) * C + (coord w).1 ∧
          0 < R * S := by
        rw [hcw]
        refine ⟨?_, hL⟩
        have e1 := Nat.div_add_mod (k / (R * S)) C
        have e2 := Nat.div_add_mod (k / (R * S) / C) Q
        rw [Nat.mul_comm] at e1 e2
        simp only
        rw [e2, e1]
      obtain ⟨h1, _, h3⟩ := hin w hw
      simp only [unpackThread_spec input b C H W R S Q ph pw sh sw _ _ _ h1 h3, if_pos hcond]
  · rw [if_neg hk]
    apply foldl_workers_frame
    intro w hw b
    obtain ⟨h1, h2, h3⟩ := hin w hw
    have hcond : ¬ (k / (R * S) = ((coord w).2.1 * Q + (coord w).2.2) * C + (coord w).1 ∧
          0 < R * S) := by
      rintro ⟨e, hL⟩
      apply hk
      have ht : k / (R * S) < P * Q * C := by
        rw [e]
        exact digits_lt _ _ _ _ (digits_lt _ _ _ _ h2 h3) h1
      exact (Nat.div_lt_iff_lt_mul hL).mp ht
    simp only [unpackThread_spec input b C H W R S Q ph pw sh sw _ _ _ h1 h3, if_neg hcond]

theorem GPUUnpack1024Kernel_spec (C P Q : Nat) (input u : Nat → α)
    (H W R S ph pw sh sw : Nat) (k : Nat) :
    GPUUnpack1024Kernel C P Q input u H W R S ph pw sh sw k
      = if k < P * Q * C * (R * S) then unpackSpec input C H W R S Q ph pw sh sw k
        else u k := by
  unfold GPUUnpack1024Kernel
  exact unpack_workers_spec (launchThreads C P Q) (fun t => t) C P Q
    (fun w hw => (mem_launchThreads C P Q w).mp hw)
    (fun c oh ow hc hoh how => ⟨(c, oh, ow), (mem_launchThreads C P Q _).mpr ⟨hc, hoh, how⟩, rfl⟩)
    input u H W R S ph pw sh sw k

theorem GPUUnpackKernel_spec (C P Q : Nat) (input u : Nat → α)
    (H W R S ph pw sh sw : Nat) (k : Nat) :
    GPUUnpackKernel input u (C * P * Q) C H W R S P Q ph pw sh sw k
      = if k < P * Q * C * (R * S) then unpackSpec input C H W R S Q ph pw sh sw k
        else u k := by
  unfold GPUUnpackKernel BLITZ_CUDA_LOOP
  refine unpack_workers_spec (List.range (C * P * Q))
    (fun index => (index / Q / P, index / Q % P, index % Q)) C P Q ?_ ?_
    input u H W R S ph pw sh sw k
  · intro index hidx
    have hlt : index < C * P * Q := List.mem_range.mp hidx
    have hQ : 0 < Q := by
      rcases Nat.eq_zero_or_pos Q with h0 | h0
      · rw [h0] at hlt; simp at hlt
      · exact h0
    have h1 : index / Q < C * P := (Nat.div_lt_iff_lt_mul hQ).mpr hlt
    have hP : 0 < P := by
      rcases Nat.eq_zero_or_pos P with h0 | h0
      · rw [h0] at h1; simp at h1
      · exact h0
    exact ⟨(Nat.div_lt_iff_lt_mul hP).mpr h1, Nat.mod_lt _ hP, Nat.mod_lt _ hQ⟩
  · intro c oh ow hc hoh how
    refine ⟨(c * P + oh) * Q + ow, List.mem_range.mpr ?_, ?_⟩
    · exact digits_lt _ _ _ _ (digits_lt _ _ _ _ hc hoh) how
    · obtain ⟨e1, e2⟩ := div_mod_of_block Q (c * P + oh) ow how
      obtain ⟨e3, e4⟩ := div_mod_of_block P c oh hoh
      simp only [e1, e2, e3, e4]

end

theorem to_int_of_range (x : Int) (h1 : -2 ^ 31 ≤ x) (h2 : x < 2 ^ 31) : to_int x = x := by
  unfold to_int
  omega

section
variable {α : Type} [Zero α]

theorem unpackSpec_at (input : Nat → α) (C H W R S Q ph pw sh sw : Nat)
    (c oh ow i j : Nat) (hc : c < C) (how : ow < Q) (hi : i < R) (hj : j < S) :
    unpackSpec input C H W R S Q ph pw sh sw
        ((oh * Q + ow) * (C * R * S) + c * R * S + i * S + j)
      = unpackCell input H W ph pw sh sw c oh ow i j := by
  have hidx : (oh * Q + ow) * (C * R * S) + c * R * S + i * S + j
      = ((oh * Q + ow) * C + c) * (R * S) + (i * S + j) := by ring
  have hoff : i * S + j < R * S := digits_lt i j R S hi hj
  obtain ⟨e1, e2⟩ := div_mod_of_block (R * S) ((oh * Q + ow) * C + c) (i * S + j) hoff
  obtain ⟨e3, e4⟩ := div_mod_of_block C (oh * Q + ow) c hc
  obtain ⟨e5, e6⟩ := div_mod_of_block Q oh ow how
  obtain ⟨e7, e8⟩ := div_mod_of_block S i j hj
  rw [hidx]
  unfold unpackSpec
  simp only [e1, e2, e3, e4, e5, e6, e7, e8]

theorem unpack_index_lt (C R S P Q c oh ow i j : Nat)
    (hc : c < C) (hoh : oh < P) (how : ow < Q) (hi : i < R) (hj : j < S) :
    (oh * Q + ow) * (C * R * S) + c * R * S + i * S + j < P * Q * C * (R * S) := by
  have hidx : (oh * Q + ow) * (C * R * S) + c * R * S + i * S + j
      = ((oh * Q + ow) * C + c) * (R * S) + (i * S + j) := by ring
  rw [hidx]
  exact digits_lt _ _ _ _ (digits_lt _ _ _ _ (digits_lt _ _ _ _ hoh how) hc)
    (digits_lt i j R S hi hj)

/-- Both branches of `Unpack2DFunc` leave `unpackSpec` in the destination. -/
theorem Unpack2DFunc_spec (input u : Nat → α) (C H W R S P Q ph pw sh sw : Nat)
    (layout : BLITZ_DATA_LAYOUT) (k : Nat) :
    (Unpack2DFunc input u C H W R S P Q ph pw sh sw layout).1 k
      = if k < P * Q * C * (R * S) then unpackSpec input C H W R S Q ph pw sh sw k
        else u k := by
  unfold Unpack2DFunc
  split
  · exact GPUUnpack1024Kernel_spec C P Q input u H W R S ph pw sh sw k
  · exact GPUUnpackKernel_spec C P Q input u H W R S ph pw sh sw k

theorem unpackCell_in_bounds (input : Nat → α) (H W ph pw sh sw : Nat)
    (c oh ow i j ih iw : Nat) (hH : H < 2 ^ 31) (hW : W < 2 ^ 31)
    (hi : i ≤ 2 ^ 31) (hj : j ≤ 2 ^ 31)
    (eh : oh * sh + i = ph + ih) (ew : ow * sw + j = pw + iw) (hih : ih < H) (hiw : iw < W) :
    unpackCell input H W ph pw sh sw c oh ow i j = input ((c * H + ih) * W + iw) := by
  have eh' : ((oh * sh : Nat) : Int) - (ph : Int) = (ih : Int) - (i : Int) := by omega
  have ew' : ((ow * sw : Nat) : Int) - (pw : Int) = (iw : Int) - (j : Int) := by omega
  have hrow : ¬ ((ih : Int) < 0 ∨ (ih : Int) ≥ (H : Int)) := by omega
  have hcol : ¬ ((iw : Int) < 0 ∨ (iw : Int) ≥ (W : Int)) := by omega
  have hidx : (((c * H : Nat) : Int) + ((ih : Int) - (i : Int))) * (W : Int)
      + ((iw : Int) - (j : Int)) + ((i * W + j : Nat) : Int)
      = (((c * H + ih) * W + iw : Nat) : Int) := by
    push_cast; ring
  have h1 : to_int ((ih : Int) - (i : Int)) = (ih : Int) - (i : Int) :=
    to_int_of_range _ (by omega) (by omega)
  have h2 : to_int ((iw : Int) - (j : Int)) = (iw : Int) - (j : Int) :=
    to_int_of_range _ (by omega) (by omega)
  have h3 : to_int ((ih : Int) - (i : Int) + (i : Int)) = (ih : Int) :=
    (to_int_of_range _ (by omega) (by omega)).trans (by omega)
  have h4 : to_int ((iw : Int) - (j : Int) + (j : Int)) = (iw : Int) :=
    (to_int_of_range _ (by omega) (by omega)).trans (by omega)
  have h5 : to_int (H : Int) = (H : Int) := to_int_of_range _ (by omega) (by omega)
  have h6 : to_int (W : Int) = (W : Int) := to_int_of_range _ (by omega) (by omega)
  unfold unpackCell
  simp only [eh', ew', h1, h2, h3, h4, h5, h6]
  rw [if_neg hrow, if_neg hcol, hidx, Int.toNat_ofNat]

theorem unpackCell_out_of_bounds (input : Nat → α) (H W R S P Q ph pw sh sw : Nat)
    (c oh ow i j : Nat) (hfit : FitsInt H W R S P Q ph pw sh sw)
    (hoh : oh < P) (how : ow < Q) (hi : i < R) (hj : j < S)
    (hout : ((oh * sh : Nat) : Int) - ph + i < 0 ∨ (H : Int) ≤ ((oh * sh : Nat) : Int) - ph + i ∨
      ((ow * sw : Nat) : Int) - pw + j < 0 ∨ (W : Int) ≤ ((ow * sw : Nat) : Int) - pw + j) :
    unpackCell input H W ph pw sh sw c oh ow i j = 0 := by
  obtain ⟨hH, hW, hph, hpw, hP, hQ⟩ := hfit
  have b1 : oh * sh ≤ P * sh := Nat.mul_le_mul_right sh (Nat.le_of_lt hoh)
  have b2 : ow * sw ≤ Q * sw := Nat.mul_le_mul_right sw (Nat.le_of_lt how)
  have h1 : to_int (((oh * sh : Nat) : Int) - (ph : Int)) = ((oh * sh : Nat) : Int) - (ph : Int) :=
    to_int_of_range _ (by omega) (by omega)
  have h2 : to_int (((ow * sw : Nat) : Int) - (pw : Int)) = ((ow * sw : Nat) : Int) - (pw : Int) :=
    to_int_of_range _ (by omega) (by omega)
  have h3 : to_int (((oh * sh : Nat) : Int) - (ph : Int) + (i : Int))
      = ((oh * sh : Nat) : Int) - (ph : Int) + (i : Int) :=
    to_int_of_range _ (by omega) (by omega)
  have h4 : to_int (((ow * sw : Nat) : Int) - (pw : Int) + (j : Int))
      = ((ow * sw : Nat) : Int) - (pw : Int) + (j : Int) :=
    to_int_of_range _ (by omega) (by omega)
  have h5 : to_int (H : Int) = (H : Int) := to_int_of_range _ (by omega) (by omega)
  have h6 : to_int (W : Int) = (W : Int) := to_int_of_range _ (by omega) (by omega)
  unfold unpackCell
  simp only [h1, h2, h3, h4, h5, h6]
  by_cases hrow : ((oh * sh : Nat) : Int) - (ph : Int) + (i : Int) < 0 ∨
      ((oh * sh : Nat) : Int) - (ph : Int) + (i : Int) ≥ (H : Int)
  · exact if_pos hrow
  · rw [if_neg hrow]
    have hcol : ((ow * sw : Nat) : Int) - (pw : Int) + (j : Int) < 0 ∨
        ((ow * sw : Nat) : Int) - (pw : Int) + (j : Int) ≥ (W : Int) := by
      rcases hout with h | h | h | h
      · exact absurd (Or.inl h) hrow
      · exact absurd (Or.inr h) hrow
      · exact Or.inl h
      · exact Or.inr h
    exact if_pos hcol

end

/-! ## Pack: window range and kernel lemmas -/

theorem pack_range_iff (x R stride P i : Nat) (hs : 1 ≤ stride) :
    (pack_start x R stride ≤ i ∧ i < pack_end x stride P) ↔
      (i < P ∧ i * stride ≤ x ∧ x < i * stride + R) := by
  unfold pack_start pack_end
  have hend : i < x / stride + 1 ↔ i * stride ≤ x := by
    rw [Nat.lt_succ_iff, Nat.le_div_iff_mul_le hs]
  by_cases hx : x < R
  · rw [if_pos hx]
    constructor
    · rintro ⟨_, h2⟩
      have h3 := lt_min_iff.mp h2
      have := hend.mp h3.1
      omega
    · rintro ⟨h1, h2, _⟩
      exact ⟨Nat.zero_le _, lt_min_iff.mpr ⟨hend.mpr h2, h1⟩⟩
  · rw [if_neg hx]
    have hstart : (x - R) / stride + 1 ≤ i ↔ x - R < i * stride := by
      rw [Nat.succ_le_iff, Nat.div_lt_iff_lt_mul hs]
    constructor
    · rintro ⟨h1, h2⟩
      have h3 := lt_min_iff.mp h2
      have := hend.mp h3.1
      have := hstart.mp h1
      omega
    · rintro ⟨h1, h2, h3⟩
      exact ⟨hstart.mpr (by omega), lt_min_iff.mpr ⟨hend.mpr h2, h1⟩⟩

theorem size_t_add_of_lt (a b : Nat) (h : a + b < 2 ^ 64) : size_t_add a b = a + b := by
  unfold size_t_add
  exact Nat.mod_eq_of_lt h

section
variable {α : Type} [AddCommMonoid α]

theorem packThread_eq (pack input : Nat → α) (C H W R S P Q ph pw sh sw c ih iw : Nat) :
    packThread pack input C H W R S P Q ph pw sh sw c ih iw
      = store input (c * H * W + ih * W + iw) (packSum pack C R S P Q ph pw sh sw c ih iw) :=
  rfl

/-- Any list of pack threads: an input position `(c, ih, iw)` of the grid that some thread
handles holds that thread's sum afterwards, provided every thread stays inside the grid. -/
theorem pack_workers_at {ι : Type} (ws : List ι) (coord : ι → Nat × Nat × Nat)
    (C H W : Nat)
    (hin : ∀ w ∈ ws, (coord w).2.1 < H ∧ (coord w).2.2 < W)
    (pack input : Nat → α) (R S P Q ph pw sh sw : Nat) (c ih iw : Nat)
    (hih : ih < H) (hiw : iw < W)
    (hex : ∃ w ∈ ws, coord w = (c, ih, iw)) :
    ws.foldl (fun input w => packThread pack input C H W R S P Q ph pw sh sw
        (coord w).1 (coord w).2.1 (coord w).2.2) input (c * H * W + ih * W + iw)
      = packSum pack C R S P Q ph pw sh sw c ih iw := by
  have hfold : ∀ b : Nat → α, ws.foldl (fun input w => packThread pack input C H W R S P Q
        ph pw sh sw (coord w).1 (coord w).2.1 (coord w).2.2) b
      = ws.foldl (fun u w => (fun w u => packThread pack u C H W R S P Q
        ph pw sh sw (coord w).1 (coord w).2.1 (coord w).2.2) w u) b := fun _ => rfl
  rw [hfold]
  apply foldl_workers_written
  · intro w hw
    obtain ⟨h2, h3⟩ := hin w hw
    by_cases hp : c * H * W + ih * W + iw
        = (coord w).1 * H * W + (coord w).2.1 * W + (coord w).2.2
    · right; intro u
      have e1 : c * H * W + ih * W + iw = (c * H + ih) * W + iw := by ring
      have e2 : (coord w).1 * H * W + (coord w).2.1 * W + (coord w).2.2
          = ((coord w).1 * H + (coord w).2.1) * W + (coord w).2.2 := by ring
      have hp' := hp
      rw [e1, e2] at hp'
      obtain ⟨a1, a2⟩ := div_mod_of_block W (c * H + ih) iw hiw
      obtain ⟨a3, a4⟩ := div_mod_of_block W ((coord w).1 * H + (coord w).2.1) (coord w).2.2 h3
      obtain ⟨a5, a6⟩ := div_mod_of_block H c ih hih
      obtain ⟨a7, a8⟩ := div_mod_of_block H (coord w).1 (coord w).2.1 h2
      have hiw' : iw = (coord w).2.2 := by rw [← a2, ← a4, hp']
      have hq : c * H + ih = (coord w).1 * H + (coord w).2.1 := by rw [← a1, ← a3, hp']
      have hih' : ih = (coord w).2.1 := by rw [← a6, ← a8, hq]
      have hc' : c = (coord w).1 := by rw [← a5, ← a7, hq]
      simp only [packThread_eq, store, ← hiw', ← hih', ← hc', if_true]
    · left; intro u
      simp only [packThread_eq, store, if_neg hp]
  · obtain ⟨w, hw, hcw⟩ := hex
    refine ⟨w, hw, fun u => ?_⟩
    simp only [packThread_eq, store, hcw, if_true]

theorem GPUPack1024Kernel_at (C H W : Nat) (pack input : Nat → α)
    (R S P Q ph pw sh sw : Nat) (c ih iw : Nat) (hc : c < C) (hih : ih < H) (hiw : iw < W) :
    GPUPack1024Kernel C H W pack input R S P Q ph pw sh sw (c * H * W + ih * W + iw)
      = packSum pack C R S P Q ph pw sh sw c ih iw := by
  unfold GPUPack1024Kernel
  exact pack_workers_at (launchThreads C H W) (fun t => t) C H W
    (fun w hw => ((mem_launchThreads C H W w).mp hw).2)
    pack input R S P Q ph pw sh sw c ih iw hih hiw
    ⟨(c, ih, iw), (mem_launchThreads C H W _).mpr ⟨hc, hih, hiw⟩, rfl⟩

/-- The general pack kernel leaves alone every destination index that no flat index below
`size` decodes to. -/
theorem GPUPackKernel_untouched (pack input : Nat → α)
    (size C H W R S P Q ph pw sh sw : Nat) (k : Nat)
    (h : ∀ index, index < size →
      k ≠ index / W % C * H * W + index / W % H * W + index % W) :
    GPUPackKernel pack input size C H W R S P Q ph pw sh sw k = input k := by
  unfold GPUPackKernel BLITZ_CUDA_LOOP
  refine foldl_workers_frame (fun index input =>
    packThread pack input C H W R S P Q ph pw sh sw
      (index / W % C) (index / W % H) (index % W)) _ _ ?_ _
  intro index hidx u
  simp only [packThread_eq, store, if_neg (h index (List.mem_range.mp hidx))]

end

/-! ## Pack applied to an unpacked buffer -/

theorem forLoop_congr {σ : Type} (lo hi : Nat) (b1 b2 : Nat → σ → σ)
    (h : ∀ i, lo ≤ i → i < hi → ∀ s, b1 i s = b2 i s) (s : σ) :
    forLoop lo hi b1 s = forLoop lo hi b2 s := by
  induction hi with
  | zero => rw [forLoop_empty lo 0 (Nat.zero_le _), forLoop_empty lo 0 (Nat.zero_le _)]
  | succ hi ih =>
    by_cases hle : lo ≤ hi
    · rw [forLoop_succ_right lo hi hle, forLoop_succ_right lo hi hle,
        ih (fun i h1 h2 => h i h1 (Nat.lt_succ_of_lt h2)), h hi hle (Nat.lt_succ_self hi)]
    · rw [forLoop_empty lo (hi + 1) (by omega), forLoop_empty lo (hi + 1) (by omega)]

theorem forLoop_sum_const {α : Type} [AddCommMonoid α] (lo hi : Nat) (x : α) (s : α) :
    forLoop lo hi (fun _ sum => sum + x) s = s + (hi - lo) • x := by
  induction hi with
  | zero =>
    rw [forLoop_empty lo 0 (Nat.zero_le _), Nat.zero_sub, zero_nsmul, add_zero]
  | succ hi ih =>
    by_cases hle : lo ≤ hi
    · have e : hi + 1 - lo = (hi - lo) + 1 := by omega
      rw [forLoop_succ_right lo hi hle, ih, e, succ_nsmul, add_assoc]
    · have e : hi + 1 - lo = 0 := by omega
      rw [forLoop_empty lo (hi + 1) (by omega), e, zero_nsmul, add_zero]

theorem overlap_free_count (x R stride P : Nat) (hs : 1 ≤ stride) (hR : R ≤ stride) :
    ((∃ i, i < P ∧ i * stride ≤ x ∧ x < i * stride + R) →
        pack_end x stride P - pack_start x R stride = 1) ∧
    ((¬ ∃ i, i < P ∧ i * stride ≤ x ∧ x < i * stride + R) →
        pack_end x stride P - pack_start x R stride = 0) := by
  constructor
  · rintro ⟨i, hi⟩
    have h1 := (pack_range_iff x R stride P i hs).mpr hi
    by_contra hne
    have h2 : pack_start x R stride + 1 < pack_end x stride P := by omega
    have a := (pack_range_iff x R stride P (pack_start x R stride) hs).mp
      ⟨Nat.le_refl _, by omega⟩
    have b := (pack_range_iff x R stride P (pack_start x R stride + 1) hs).mp
      ⟨by omega, h2⟩
    have e : (pack_start x R stride + 1) * stride = pack_start x R stride * stride + stride :=
      Nat.succ_mul _ _
    omega
  · intro hno
    by_contra hne
    have h2 : pack_start x R stride < pack_end x stride P := by omega
    exact hno ⟨_, (pack_range_iff x R stride P (pack_start x R stride) hs).mp
      ⟨Nat.le_refl _, h2⟩⟩

section
variable {α : Type} [AddCommMonoid α]

/-- The pack sum over a buffer that holds an unpacked `X`, when the sums `ih + pad` do not
wrap: every term of the double loop is `X[c, ih, iw]`, so the sum is that element taken once
per window covering the position. -/
theorem packSum_of_unpacked (X U : Nat → α) (C H W R S P Q ph pw sh sw : Nat)
    (hU : ∀ k, k < P * Q * C * (R * S) → U k = unpackSpec X C H W R S Q ph pw sh sw k)
    (hH : H < 2 ^ 31) (hW : W < 2 ^ 31) (hR : R ≤ 2 ^ 31) (hS : S ≤ 2 ^ 31)
    (hsh : 1 ≤ sh) (hsw : 1 ≤ sw)
    (c ih iw : Nat) (hc : c < C) (hih : ih < H) (hiw : iw < W)
    (hx : ih + ph < 2 ^ 64) (hy : iw + pw < 2 ^ 64) :
    packSum U C R S P Q ph pw sh sw c ih iw
      = (pack_end (ih + ph) sh P - pack_start (ih + ph) R sh) •
          ((pack_end (iw + pw) sw Q - pack_start (iw + pw) S sw) • X ((c * H + ih) * W + iw)) := by
  unfold packSum
  simp only [size_t_add_of_lt _ _ hx, size_t_add_of_lt _ _ hy]
  have hterm : ∀ i, pack_start (ih + ph) R sh ≤ i → i < pack_end (ih + ph) sh P →
      ∀ j, pack_start (iw + pw) S sw ≤ j → j < pack_end (iw + pw) sw Q →
      U (S * R * c + ((i * Q + j) * (R * S * C) + (ih + ph - i * sh) * S + (iw + pw - j * sw)))
        = X ((c * H + ih) * W + iw) := by
    intro i hi1 hi2 j hj1 hj2
    obtain ⟨hiP, hi3, hi4⟩ := (pack_range_iff (ih + ph) R sh P i hsh).mp ⟨hi1, hi2⟩
    obtain ⟨hjQ, hj3, hj4⟩ := (pack_range_iff (iw + pw) S sw Q j hsw).mp ⟨hj1, hj2⟩
    have hfh : ih + ph - i * sh < R := by omega
    have hfw : iw + pw - j * sw < S := by omega
    have hidx : S * R * c + ((i * Q + j) * (R * S * C) + (ih + ph - i * sh) * S
          + (iw + pw - j * sw))
        = (i * Q + j) * (C * R * S) + c * R * S + (ih + ph - i * sh) * S
          + (iw + pw - j * sw) := by ring
    rw [hidx, hU _ (unpack_index_lt C R S P Q c i j _ _ hc hiP hjQ hfh hfw),
      unpackSpec_at X C H W R S Q ph pw sh sw c i j _ _ hc hjQ hfh hfw]
    exact unpackCell_in_bounds X H W ph pw sh sw c i j _ _ ih iw hH hW (by omega) (by omega)
      (by omega) (by omega) hih hiw
  have hinner : ∀ i, pack_start (ih + ph) R sh ≤ i → i < pack_end (ih + ph) sh P → ∀ s : α,
      forLoop (pack_start (iw + pw) S sw) (pack_end (iw + pw) sw Q) (fun j sum =>
        sum + U (S * R * c + ((i * Q + j) * (R * S * C) + (ih + ph - i * sh) * S
          + (iw + pw - j * sw)))) s
      = s + (pack_end (iw + pw) sw Q - pack_start (iw + pw) S sw) • X ((c * H + ih) * W + iw) := by
    intro i hi1 hi2 s
    rw [← forLoop_sum_const]
    apply forLoop_congr
    intro j hj1 hj2 s'
    simp only [hterm i hi1 hi2 j hj1 hj2]
  rw [forLoop_congr _ _ _ _ hinner, forLoop_sum_const, zero_add]

end

/-! ## Layer set-up and entry-point lemmas -/

theorem size_t_sub_of_le (a b : Nat) (h : b ≤ a) : size_t_sub a b = a - b := by
  unfold size_t_sub
  rw [if_pos h]

theorem size_t_mul_of_lt (a b : Nat) (h : a * b < 2 ^ 64) : size_t_mul a b = a * b := by
  unfold size_t_mul
  exact Nat.mod_eq_of_lt h

theorem size_t_mul_mod (a b : Nat) : size_t_mul (a % 2 ^ 64) b = (a * b) % 2 ^ 64 := by
  unfold size_t_mul
  exact Nat.mod_mul_mod

theorem size_t_mul5 (a b c d e : Nat) :
    size_t_mul (size_t_mul (size_t_mul (size_t_mul a b) c) d) e
      = (a * b * c * d * e) % 2 ^ 64 := by
  simp only [size_t_mul, Nat.mod_mul_mod]

theorem size_t_mul6 (a b c d e f : Nat) :
    size_t_mul (size_t_mul (size_t_mul (size_t_mul (size_t_mul a b) c) d) e) f
      = (a * b * c * d * e * f) % 2 ^ 64 := by
  simp only [size_t_mul, Nat.mod_mul_mod]

theorem size_t_add_mod (a b : Nat) :
    size_t_add (a % 2 ^ 64) (b % 2 ^ 64) = (a + b) % 2 ^ 64 := by
  unfold size_t_add
  exact (Nat.add_mod a b (2 ^ 64)).symm

theorem size_t_div_ok (a b : Nat) (hb : b ≠ 0) : size_t_div a b = Except.ok (a / b) := by
  unfold size_t_div
  rw [if_neg hb]

theorem size_t_div_zero (a : Nat) :
    size_t_div a 0 = Except.error InitFailure.division_by_zero := by
  unfold size_t_div
  rw [if_pos rfl]

/-- The extent expression of `InitImpl` when neither the padded extent nor the increment
overflows and the filter fits the padded input. -/
theorem extent_of_no_overflow (inp pad filter stride : Nat)
    (hfit : filter ≤ inp + 2 * pad) (hno : inp + 2 * pad < 2 ^ 64 - 1) :
    size_t_add (size_t_sub (size_t_add inp (size_t_mul 2 pad)) filter / stride) 1
      = (inp + 2 * pad - filter) / stride + 1 := by
  have h64 : (0 : Nat) < 2 ^ 64 - 1 := by norm_num
  have hq : (inp + 2 * pad - filter) / stride ≤ inp + 2 * pad - filter := Nat.div_le_self _ _
  rw [size_t_mul_of_lt 2 pad (by omega), size_t_add_of_lt inp (2 * pad) (by omega),
    size_t_sub_of_le _ _ hfit, size_t_add_of_lt _ 1 (by omega)]

/-- A non-fused algorithm with nonzero strides: `InitImpl` completes. -/
theorem Conv.InitImpl_ok_of_not_xsmm (nt : Nat) (self : Conv) (input_shape : Shape)
    (halg : self.algorithm_ ≠ BLITZ_ALGORITHM.BLITZ_CONVOLUTION_XSMM_DIRECT)
    (hsh : self.stride_height_ ≠ 0) (hsw : self.stride_width_ ≠ 0) :
    ∃ t, Conv.InitImpl nt self input_shape = Except.ok t ∧
      t.forward_output_ =
        { dim0 := input_shape.dim0
          dim1 := self.filter_shape_.dim0
          dim2 := size_t_add (size_t_sub
            (size_t_add input_shape.dim2 (size_t_mul 2 self.padding_height_))
            self.filter_shape_.dim2 / self.stride_height_) 1
          dim3 := size_t_add (size_t_sub
            (size_t_add input_shape.dim3 (size_t_mul 2 self.padding_width_))
            self.filter_shape_.dim3 / self.stride_width_) 1
          data_layout := BLITZ_DATA_LAYOUT.BLITZ_BUFFER_NCHW } := by
  unfold Conv.InitImpl
  simp only [if_neg halg, size_t_div_ok _ _ hsh, size_t_div_ok _ _ hsw, Except.bind]
  exact ⟨_, rfl, rfl⟩

/-- A non-fused algorithm with a zero stride: `InitImpl` dies on the division. -/
theorem Conv.InitImpl_div_of_not_xsmm (nt : Nat) (self : Conv) (input_shape : Shape)
    (halg : self.algorithm_ ≠ BLITZ_ALGORITHM.BLITZ_CONVOLUTION_XSMM_DIRECT)
    (h0 : self.stride_height_ = 0 ∨ self.stride_width_ = 0) :
    Conv.InitImpl nt self input_shape = Except.error InitFailure.division_by_zero := by
  unfold Conv.InitImpl
  by_cases hsh : self.stride_height_ = 0
  · simp only [if_neg halg, hsh, size_t_div_zero, Except.bind]
  · have hsw : self.stride_width_ = 0 := h0.resolve_left hsh
    simp only [if_neg halg, size_t_div_ok _ _ hsh, hsw, size_t_div_zero, Except.bind]

/-- The fused-direct algorithm with a nonzero padding: `InitImpl` ends in `LOG(FATAL)`. -/
theorem Conv.InitImpl_fatal_of_xsmm (nt : Nat) (self : Conv) (input_shape : Shape)
    (halg : self.algorithm_ = BLITZ_ALGORITHM.BLITZ_CONVOLUTION_XSMM_DIRECT)
    (hp : self.padding_height_ ≠ 0 ∨ self.padding_width_ ≠ 0) :
    Conv.InitImpl nt self input_shape = Except.error
      (InitFailure.fatal "xsmm kernel do not support backward phase for padding > 0") := by
  unfold Conv.InitImpl
  simp only [if_pos halg, if_pos hp]

/-- The fused-direct algorithm with zero padding and nonzero strides: `InitImpl` completes. -/
theorem Conv.InitImpl_ok_of_xsmm (nt : Nat) (self : Conv) (input_shape : Shape)
    (halg : self.algorithm_ = BLITZ_ALGORITHM.BLITZ_CONVOLUTION_XSMM_DIRECT)
    (hp : ¬ (self.padding_height_ ≠ 0 ∨ self.padding_width_ ≠ 0))
    (hsh : self.stride_height_ ≠ 0) (hsw : self.stride_width_ ≠ 0) :
    ∃ t, Conv.InitImpl nt self input_shape = Except.ok t ∧
      t.forward_output_ =
        { dim0 := input_shape.dim0
          dim1 := self.filter_shape_.dim0
          dim2 := size_t_add (size_t_add
            (size_t_sub input_shape.dim2 self.filter_shape_.dim2 / self.stride_height_) 1)
            (size_t_mul 2 self.padding_height_)
          dim3 := size_t_add (size_t_add
            (size_t_sub input_shape.dim3 self.filter_shape_.dim3 / self.stride_width_) 1)
            (size_t_mul 2 self.padding_width_)
          data_layout := BLITZ_DATA_LAYOUT.BLITZ_BUFFER_NCHW } := by
  unfold Conv.InitImpl
  simp only [if_pos halg, if_neg hp, size_t_div_ok _ _ hsh, size_t_div_ok _ _ hsw, Except.bind]
  exact ⟨_, rfl, rfl⟩

/-- The fused-direct algorithm with zero padding and a zero stride: `InitImpl` dies on the
division. -/
theorem Conv.InitImpl_div_of_xsmm (nt : Nat) (self : Conv) (input_shape : Shape)
    (halg : self.algorithm_ = BLITZ_ALGORITHM.BLITZ_CONVOLUTION_XSMM_DIRECT)
    (hp : ¬ (self.padding_height_ ≠ 0 ∨ self.padding_width_ ≠ 0))
    (h0 : self.stride_height_ = 0 ∨ self.stride_width_ = 0) :
    Conv.InitImpl nt self input_shape = Except.error InitFailure.division_by_zero := by
  unfold Conv.InitImpl
  by_cases hsh : self.stride_height_ = 0
  · simp only [if_pos halg, if_neg hp, hsh, size_t_div_zero, Except.bind]
  · have hsw : self.stride_width_ = 0 := h0.resolve_left hsh
    simp only [if_pos halg, if_neg hp, size_t_div_ok _ _ hsh, hsw, size_t_div_zero,
      Except.bind]

/-- When `InitImpl` completes, both strides are nonzero. -/
theorem Conv.InitImpl_ok_strides (nt : Nat) (self : Conv) (input_shape : Shape)
    (t : ConvTensors) (hok : Conv.InitImpl nt self input_shape = Except.ok t) :
    self.stride_height_ ≠ 0 ∧ self.stride_width_ ≠ 0 := by
  by_contra hne
  have h0 : self.stride_height_ = 0 ∨ self.stride_width_ = 0 := by
    by_cases h : self.stride_height_ = 0
    · exact Or.inl h
    · right
      by_contra h'
      exact hne ⟨h, h'⟩
  by_cases halg : self.algorithm_ = BLITZ_ALGORITHM.BLITZ_CONVOLUTION_XSMM_DIRECT
  · by_cases hp : self.padding_height_ ≠ 0 ∨ self.padding_width_ ≠ 0
    · rw [Conv.InitImpl_fatal_of_xsmm nt self input_shape halg hp] at hok
      cases hok
    · rw [Conv.InitImpl_div_of_xsmm nt self input_shape halg hp h0] at hok
      cases hok
  · rw [Conv.InitImpl_div_of_not_xsmm nt self input_shape halg h0] at hok
    cases hok

theorem checkedDispatch_reject (env : Env) (kind : LIBXSMM_DNN_CONV_KIND) (tids : List Nat)
    (input filter output : MICTensor) (ph pw sh sw : Nat) (algorithm : BLITZ_ALGORITHM)
    (h : (env.Blitz2DBuffer input.data_layout input.shape).1
          ≠ (env.Blitz2DBuffer output.data_layout output.shape).1 ∨
        (env.Blitz2DFilter filter.data_layout filter.shape).1
          ≠ (env.Blitz2DBuffer output.data_layout output.shape).2.1 ∨
        (env.Blitz2DFilter filter.data_layout filter.shape).2.1
          ≠ (env.Blitz2DBuffer input.data_layout input.shape).2.1) :
    (checkedDispatch env kind tids input filter output ph pw sh sw algorithm).steps = [] ∧
    ∃ lhs rhs a b,
      (checkedDispatch env kind tids input filter output ph pw sh sw algorithm).fatal
        = some (Fatal.check_eq lhs rhs a b) := by
  unfold checkedDispatch
  revert h
  generalize env.Blitz2DBuffer input.data_layout input.shape = di
  generalize env.Blitz2DFilter filter.data_layout filter.shape = df
  generalize env.Blitz2DBuffer output.data_layout output.shape = dout
  obtain ⟨NIN, C, H, W⟩ := di
  obtain ⟨KF, CF, R, S⟩ := df
  obtain ⟨NOUT, K, P, Q⟩ := dout
  intro h
  simp only at h ⊢
  by_cases h1 : NIN ≠ NOUT
  · rw [if_pos h1]; exact ⟨rfl, _, _, _, _, rfl⟩
  · rw [if_neg h1]
    by_cases h2 : KF ≠ K
    · rw [if_pos h2]; exact ⟨rfl, _, _, _, _, rfl⟩
    · rw [if_neg h2]
      have h3 : CF ≠ C := by
        rcases h with h | h | h
        · exact absurd h h1
        · exact absurd h h2
        · exact h
      rw [if_pos h3]; exact ⟨rfl, _, _, _, _, rfl⟩

theorem checkedDispatch_accept (env : Env) (kind : LIBXSMM_DNN_CONV_KIND) (tids : List Nat)
    (input filter output : MICTensor) (ph pw sh sw : Nat) (algorithm : BLITZ_ALGORITHM)
    (h1 : (env.Blitz2DBuffer input.data_layout input.shape).1
          = (env.Blitz2DBuffer output.data_layout output.shape).1)
    (h2 : (env.Blitz2DFilter filter.data_layout filter.shape).1
          = (env.Blitz2DBuffer output.data_layout output.shape).2.1)
    (h3 : (env.Blitz2DFilter filter.data_layout filter.shape).2.1
          = (env.Blitz2DBuffer input.data_layout input.shape).2.1) :
    checkedDispatch env kind tids input filter output ph pw sh sw algorithm
      = dispatch env kind tids (prepareArgs env input filter output ph pw sh sw)
          algorithm := by
  unfold checkedDispatch prepareArgs
  revert h1 h2 h3
  generalize env.Blitz2DBuffer input.data_layout input.shape = di
  generalize env.Blitz2DFilter filter.data_layout filter.shape = df
  generalize env.Blitz2DBuffer output.data_layout output.shape = dout
  obtain ⟨NIN, C, H, W⟩ := di
  obtain ⟨KF, CF, R, S⟩ := df
  obtain ⟨NOUT, K, P, Q⟩ := dout
  intro h1 h2 h3
  simp only at h1 h2 h3 ⊢
  rw [if_neg (not_not.mpr h1), if_neg (not_not.mpr h2), if_neg (not_not.mpr h3)]


/-! ## The pack sum is the col2im sum -/

section
variable {α : Type} [AddCommMonoid α]

theorem list_range_sum (f : Nat → α) (n : Nat) :
    ((List.range n).map f).sum = ∑ i in Finset.range n, f i := by
  induction n with
  | zero => simp
  | succ n ih =>
    rw [List.range_succ, List.map_append, List.sum_append, ih, Finset.sum_range_succ]
    simp

theorem forLoop_sum (lo hi : Nat) (f : Nat → α) (s : α) :
    forLoop lo hi (fun i sum => sum + f i) s = s + ∑ i in Finset.Ico lo hi, f i := by
  induction hi with
  | zero =>
    rw [forLoop_empty lo 0 (Nat.zero_le _)]
    simp
  | succ hi ih =>
    by_cases hle : lo ≤ hi
    · rw [forLoop_succ_right lo hi hle, ih, Finset.sum_Ico_succ_top hle, add_assoc]
    · rw [forLoop_empty lo (hi + 1) (by omega), Finset.Ico_eq_empty (by omega)]
      simp

/-- A sum over `i < n` of terms guarded by `a * stride + i = x` keeps the one term
`i = x - a * stride`, when that index exists. -/
theorem sum_range_window (n a stride x : Nat) (g : Nat → α) :
    (∑ i in Finset.range n, if a * stride + i = x then g i else 0)
      = if a * stride ≤ x ∧ x < a * stride + n then g (x - a * stride) else 0 := by
  by_cases h : a * stride ≤ x ∧ x < a * stride + n
  · rw [if_pos h]
    rw [Finset.sum_eq_single (x - a * stride)]
    · rw [if_pos (by omega)]
    · intro i _ hne
      rw [if_neg (by omega)]
    · intro hnot
      exact absurd (Finset.mem_range.mpr (by omega)) hnot
  · rw [if_neg h]
    apply Finset.sum_eq_zero
    intro i hi
    have := Finset.mem_range.mp hi
    rw [if_neg (by omega)]

/-- A sum over `i < P` of terms guarded by the window condition is the sum over the pack
range `[pack_start, pack_end)`. -/
theorem sum_range_pack_range (x R stride P : Nat) (hs : 1 ≤ stride) (g : Nat → α) :
    (∑ i in Finset.range P, if i * stride ≤ x ∧ x < i * stride + R then g i else 0)
      = ∑ i in Finset.Ico (pack_start x R stride) (pack_end x stride P), g i := by
  rw [← Finset.sum_filter]
  apply Finset.sum_congr _ (fun _ _ => rfl)
  ext i
  simp only [Finset.mem_filter, Finset.mem_range, Finset.mem_Ico]
  exact (pack_range_iff x R stride P i hs).symm

theorem packSum_eq_col2im (pack : Nat → α) (C R S P Q ph pw sh sw : Nat)
    (hsh : 1 ≤ sh) (hsw : 1 ≤ sw) (c ih iw : Nat)
    (hx : ih + ph < 2 ^ 64) (hy : iw + pw < 2 ^ 64) :
    packSum pack C R S P Q ph pw sh sw c ih iw = col2im pack C R S P Q ph pw sh sw c ih iw := by
  unfold packSum col2im
  simp only [size_t_add_of_lt _ _ hx, size_t_add_of_lt _ _ hy]
  have hinner : ∀ (i : Nat) (s : α),
      forLoop (pack_start (iw + pw) S sw) (pack_end (iw + pw) sw Q) (fun j sum =>
        sum + pack (S * R * c + ((i * Q + j) * (R * S * C) + (ih + ph - i * sh) * S
          + (iw + pw - j * sw)))) s
      = s + ∑ j in Finset.Ico (pack_start (iw + pw) S sw) (pack_end (iw + pw) sw Q),
          pack ((i * Q + j) * (C * R * S) + c * R * S + (ih + ph - i * sh) * S
            + (iw + pw - j * sw)) := by
    intro i s
    rw [forLoop_sum]
    congr 1
    apply Finset.sum_congr rfl
    intro j _
    congr 1
    ring
  simp only [hinner]
  rw [forLoop_sum, zero_add, list_range_sum]
  rw [← sum_range_pack_range (ih + ph) R sh P hsh]
  apply Finset.sum_congr rfl
  intro oh _
  rw [list_range_sum]
  by_cases hch : oh * sh ≤ ih + ph ∧ ih + ph < oh * sh + R
  · rw [if_pos hch, ← sum_range_pack_range (iw + pw) S sw Q hsw]
    apply Finset.sum_congr rfl
    intro ow _
    rw [list_range_sum]
    have hfw : ∀ fh, ((List.range S).map fun fw =>
        if oh * sh + fh = ih + ph ∧ ow * sw + fw = iw + pw then
          pack ((oh * Q + ow) * (C * R * S) + c * R * S + fh * S + fw) else 0).sum
        = if oh * sh + fh = ih + ph then
            (if ow * sw ≤ iw + pw ∧ iw + pw < ow * sw + S then
              pack ((oh * Q + ow) * (C * R * S) + c * R * S + fh * S + (iw + pw - ow * sw))
             else 0)
          else 0 := by
      intro fh
      rw [list_range_sum]
      by_cases hA : oh * sh + fh = ih + ph
      · rw [if_pos hA, ← sum_range_window S ow sw (iw + pw)
          (fun fw => pack ((oh * Q + ow) * (C * R * S) + c * R * S + fh * S + fw))]
        apply Finset.sum_congr rfl
        intro fw _
        by_cases hB : ow * sw + fw = iw + pw
        · rw [if_pos ⟨hA, hB⟩, if_pos hB]
        · rw [if_neg (fun h => hB h.2), if_neg hB]
      · rw [if_neg hA]
        apply Finset.sum_eq_zero
        intro fw _
        rw [if_neg (fun h => hA h.1)]
    simp only [hfw]
    rw [sum_range_window R oh sh (ih + ph), if_pos hch]
  · rw [if_neg hch]
    symm
    apply Finset.sum_eq_zero
    intro ow _
    rw [list_range_sum]
    apply Finset.sum_eq_zero
    intro fh _
    rw [list_range_sum]
    apply Finset.sum_eq_zero
    intro fw hfw
    have := Finset.mem_range.mp ‹fh ∈ Finset.range R›
    rw [if_neg (fun h => hch (by omega))]

/-- On the sizes that `Pack2DFunc` runs on the small kernel, every input position whose sums
`ih + pad` do not wrap holds its col2im sum afterwards. -/
theorem Pack2DFunc_small_col2im (pack input : Nat → α) (C H W R S P Q ph pw sh sw : Nat)
    (layout : BLITZ_DATA_LAYOUT) (hsmall : C ≤ 64 ∧ H * W ≤ 256)
    (hsh : 1 ≤ sh) (hsw : 1 ≤ sw) (c ih iw : Nat) (hc : c < C) (hih : ih < H) (hiw : iw < W)
    (hx : ih + ph < 2 ^ 64) (hy : iw + pw < 2 ^ 64) :
    (Pack2DFunc pack input C H W R S P Q ph pw sh sw layout).1 (c * H * W + ih * W + iw)
      = col2im pack C R S P Q ph pw sh sw c ih iw := by
  have hd : (Pack2DFunc pack input C H W R S P Q ph pw sh sw layout).1
      = GPUPack1024Kernel C H W pack input R S P Q ph pw sh sw := by
    unfold Pack2DFunc
    rw [if_pos hsmall]
  rw [hd, GPUPack1024Kernel_at C H W pack input R S P Q ph pw sh sw c ih iw hc hih hiw,
    packSum_eq_col2im pack C R S P Q ph pw sh sw hsh hsw c ih iw hx hy]

end

/-! ## Entry points: what the switch does, and what is not checked -/

theorem dispatch_unsupported (env : Env) (kind : LIBXSMM_DNN_CONV_KIND) (tids : List Nat)
    (args : XsmmArgs) (algorithm : BLITZ_ALGORITHM)
    (h : algorithm ≠ BLITZ_ALGORITHM.BLITZ_CONVOLUTION_XSMM_DIRECT) :
    dispatch env kind tids args algorithm
      = { steps := [], fatal := some (Fatal.unsupported_algorithm algorithm) } := by
  unfold dispatch
  cases algorithm <;> first | rfl | exact absurd rfl h

theorem dispatch_xsmm_ok (env : Env) (kind : LIBXSMM_DNN_CONV_KIND) (tids : List Nat)
    (args : XsmmArgs) (xsmmBuffer : XsmmBuffer)
    (h : env.BlitzXsmmPrepare2D args = Except.ok xsmmBuffer) :
    dispatch env kind tids args BLITZ_ALGORITHM.BLITZ_CONVOLUTION_XSMM_DIRECT
      = { steps := Step.prepare args ::
            tids.map (fun tid => Step.convolve xsmmBuffer.libxsmm_handle kind tid),
          fatal := none } := by
  unfold dispatch
  simp only [h]

theorem dispatch_xsmm_steps_ne_nil (env : Env) (kind : LIBXSMM_DNN_CONV_KIND)
    (tids : List Nat) (args : XsmmArgs) :
    (dispatch env kind tids args BLITZ_ALGORITHM.BLITZ_CONVOLUTION_XSMM_DIRECT).steps.head?
      = some (Step.prepare args) := by
  unfold dispatch
  cases env.BlitzXsmmPrepare2D args <;> rfl

/-- The outcome of the shared prologue and switch depends on the output tensor only through
its decoded batch and channel: the decoded height and width are never used. -/
theorem checkedDispatch_output_extent_unused (env : Env) (kind : LIBXSMM_DNN_CONV_KIND)
    (tids : List Nat) (input filter output output' : MICTensor) (ph pw sh sw : Nat)
    (algorithm : BLITZ_ALGORITHM)
    (h1 : (env.Blitz2DBuffer output.data_layout output.shape).1
          = (env.Blitz2DBuffer output'.data_layout output'.shape).1)
    (h2 : (env.Blitz2DBuffer output.data_layout output.shape).2.1
          = (env.Blitz2DBuffer output'.data_layout output'.shape).2.1) :
    checkedDispatch env kind tids input filter output ph pw sh sw algorithm
      = checkedDispatch env kind tids input filter output' ph pw sh sw algorithm := by
  unfold checkedDispatch
  revert h1 h2
  generalize env.Blitz2DBuffer input.data_layout input.shape = di
  generalize env.Blitz2DFilter filter.data_layout filter.shape = df
  generalize env.Blitz2DBuffer output.data_layout output.shape = dout
  generalize env.Blitz2DBuffer output'.data_layout output'.shape = dout'
  obtain ⟨NIN, C, H, W⟩ := di
  obtain ⟨KF, CF, R, S⟩ := df
  obtain ⟨NOUT, K, P, Q⟩ := dout
  obtain ⟨NOUT', K', P', Q'⟩ := dout'
  intro h1 h2
  simp only at h1 h2
  subst h1 h2
  rfl


theorem dispatch_fatal_eq (env : Env) (k1 k2 : LIBXSMM_DNN_CONV_KIND) (t1 t2 : List Nat)
    (args : XsmmArgs) (algorithm : BLITZ_ALGORITHM) :
    (dispatch env k1 t1 args algorithm).fatal = (dispatch env k2 t2 args algorithm).fatal := by
  unfold dispatch
  cases algorithm <;> first | rfl | (cases env.BlitzXsmmPrepare2D args <;> rfl)

theorem checkedDispatch_fatal_eq (env : Env) (k1 k2 : LIBXSMM_DNN_CONV_KIND)
    (t1 t2 : List Nat) (input filter output : MICTensor) (ph pw sh sw : Nat)
    (algorithm : BLITZ_ALGORITHM) :
    (checkedDispatch env k1 t1 input filter output ph pw sh sw algorithm).fatal
      = (checkedDispatch env k2 t2 input filter output ph pw sh sw algorithm).fatal := by
  unfold checkedDispatch
  generalize env.Blitz2DBuffer input.data_layout input.shape = di
  generalize env.Blitz2DFilter filter.data_layout filter.shape = df
  generalize env.Blitz2DBuffer output.data_layout output.shape = dout
  obtain ⟨NIN, C, H, W⟩ := di
  obtain ⟨KF, CF, R, S⟩ := df
  obtain ⟨NOUT, K, P, Q⟩ := dout
  simp only
  split
  · rfl
  · split
    · rfl
    · split
      · rfl
      · exact dispatch_fatal_eq env k1 k2 t1 t2 _ algorithm

theorem Conv.InitImpl_xsmm_ok (nt : Nat) (self : Conv) (input_shape : Shape) (t : ConvTensors)
    (halg : self.algorithm_ = BLITZ_ALGORITHM.BLITZ_CONVOLUTION_XSMM_DIRECT)
    (hok : Conv.InitImpl nt self input_shape = Except.ok t) :
    self.padding_height_ = 0 ∧ self.padding_width_ = 0 ∧
    t.forward_output_ =
      { dim0 := input_shape.dim0
        dim1 := self.filter_shape_.dim0
        dim2 := size_t_add (size_t_add
          (size_t_sub input_shape.dim2 self.filter_shape_.dim2 / self.stride_height_) 1)
          (size_t_mul 2 self.padding_height_)
        dim3 := size_t_add (size_t_add
          (size_t_sub input_shape.dim3 self.filter_shape_.dim3 / self.stride_width_) 1)
          (size_t_mul 2 self.padding_width_)
        data_layout := BLITZ_DATA_LAYOUT.BLITZ_BUFFER_NCHW } := by
  obtain ⟨hsh, hsw⟩ := Conv.InitImpl_ok_strides nt self input_shape t hok
  by_cases hp : self.padding_height_ ≠ 0 ∨ self.padding_width_ ≠ 0
  · rw [Conv.InitImpl_fatal_of_xsmm nt self input_shape halg hp] at hok
    cases hok
  · have hp' : self.padding_height_ = 0 ∧ self.padding_width_ = 0 := by
      constructor
      · by_contra h; exact hp (Or.inl h)
      · by_contra h; exact hp (Or.inr h)
    obtain ⟨t', h1, h2⟩ := Conv.InitImpl_ok_of_xsmm nt self input_shape halg hp hsh hsw
    rw [hok] at h1
    cases h1
    exact ⟨hp'.1, hp'.2, h2⟩


/-- What `Conv::InitImpl` builds when it completes, in terms of the output extents it chose:
the input shape is kept for the backward output, the weight and update shapes are
`(K, C, R, S)`, the output shape is `(N, K, P, Q)`, and the workspace is sized by algorithm,
in `size_t` arithmetic. -/
theorem Conv.InitImpl_ok_tensors (nt : Nat) (self : Conv) (input_shape : Shape)
    (t : ConvTensors) (hok : Conv.InitImpl nt self input_shape = Except.ok t) :
    t.backward_output_ = input_shape ∧
    t.weight_ = { dim0 := self.filter_shape_.dim0, dim1 := input_shape.dim1,
                  dim2 := self.filter_shape_.dim2, dim3 := self.filter_shape_.dim3,
                  data_layout := BLITZ_DATA_LAYOUT.BLITZ_FILTER_KCRS } ∧
    t.update_ = t.weight_ ∧
    t.forward_output_.dim0 = input_shape.dim0 ∧
    t.forward_output_.dim1 = self.filter_shape_.dim0 ∧
    t.forward_output_.data_layout = BLITZ_DATA_LAYOUT.BLITZ_BUFFER_NCHW ∧
    t.workspace_ =
      (if self.algorithm_ = BLITZ_ALGORITHM.BLITZ_CONVOLUTION_SASS_GEMM ∨
          self.algorithm_ = BLITZ_ALGORITHM.BLITZ_CONVOLUTION_BLAS_GEMM then
        some (size_t_mul (size_t_mul (size_t_mul (size_t_mul input_shape.dim1
          self.filter_shape_.dim2) self.filter_shape_.dim3) t.forward_output_.dim2)
          t.forward_output_.dim3)
      else if self.algorithm_ = BLITZ_ALGORITHM.BLITZ_CONVOLUTION_BLAS_GEMM_BATCH ∨
          self.algorithm_ = BLITZ_ALGORITHM.BLITZ_CONVOLUTION_XSMM_DIRECT then
        some (size_t_add
          (size_t_mul (size_t_mul (size_t_mul (size_t_mul (size_t_mul nt input_shape.dim1)
            self.filter_shape_.dim2) self.filter_shape_.dim3) t.forward_output_.dim2)
            t.forward_output_.dim3)
          (size_t_mul (size_t_mul (size_t_mul (size_t_mul nt self.filter_shape_.dim0)
            input_shape.dim1) self.filter_shape_.dim2) self.filter_shape_.dim3))
      else if self.algorithm_ = BLITZ_ALGORITHM.BLITZ_CONVOLUTION_SASS_DIRECT then
        some (size_t_add (size_t_add input_shape.size t.forward_output_.size) t.weight_.size)
      else none) := by
  obtain ⟨hsh, hsw⟩ := Conv.InitImpl_ok_strides nt self input_shape t hok
  unfold Conv.InitImpl at hok
  by_cases halg : self.algorithm_ = BLITZ_ALGORITHM.BLITZ_CONVOLUTION_XSMM_DIRECT
  · by_cases hp : self.padding_height_ ≠ 0 ∨ self.padding_width_ ≠ 0
    · simp only [if_pos halg, if_pos hp] at hok
      cases hok
    · simp only [if_pos halg, if_neg hp, size_t_div_ok _ _ hsh, size_t_div_ok _ _ hsw,
        Except.bind] at hok
      cases hok
      exact ⟨rfl, rfl, rfl, rfl, rfl, rfl, rfl⟩
  · simp only [if_neg halg, size_t_div_ok _ _ hsh, size_t_div_ok _ _ hsw, Except.bind] at hok
    cases hok
    exact ⟨rfl, rfl, rfl, rfl, rfl, rfl, rfl⟩


/-! ## Claims about unpack -/

/-- C1. `Unpack2DFunc` copies in-bounds window cells to the documented place.  With input
extents below `2^31` and filter extents at most `2^31` (no `int` overflow), for every thread
`c < C`, `oh < P`, `ow < Q` and window cell `i < R`, `j < S` whose source coordinate
`ih = oh * stride_h - pad_h + i`, `iw = ow * stride_w - pad_w + j` satisfies `0 ≤ ih < H` and
`0 ≤ iw < W`, the destination element at `(oh * Q + ow) * (C * R * S) + c * R * S + i * S + j`
equals `input[(c * H + ih) * W + iw]`; this holds for the entry point and for each of the two
kernels it may launch. -/
theorem Unpack2DFunc_copies_in_bounds_cell {α : Type} [Zero α] (input unpack : Nat → α)
    (C H W R S P Q ph pw sh sw : Nat) (layout : BLITZ_DATA_LAYOUT)
    (hH : H < 2 ^ 31) (hW : W < 2 ^ 31) (hR : R ≤ 2 ^ 31) (hS : S ≤ 2 ^ 31)
    (c oh ow i j ih iw : Nat)
    (hc : c < C) (hoh : oh < P) (how : ow < Q) (hi : i < R) (hj : j < S)
    (eh : oh * sh + i = ph + ih) (ew : ow * sw + j = pw + iw)
    (hih : ih < H) (hiw : iw < W) :
    (Unpack2DFunc input unpack C H W R S P Q ph pw sh sw layout).1
        ((oh * Q + ow) * (C * R * S) + c * R * S + i * S + j)
      = input ((c * H + ih) * W + iw) ∧
    GPUUnpack1024Kernel C P Q input unpack H W R S ph pw sh sw
        ((oh * Q + ow) * (C * R * S) + c * R * S + i * S + j)
      = input ((c * H + ih) * W + iw) ∧
    GPUUnpackKernel input unpack (C * P * Q) C H W R S P Q ph pw sh sw
        ((oh * Q + ow) * (C * R * S) + c * R * S + i * S + j)
      = input ((c * H + ih) * W + iw) := by
  have hlt := unpack_index_lt C R S P Q c oh ow i j hc hoh how hi hj
  have hcell := unpackCell_in_bounds input H W ph pw sh sw c oh ow i j ih iw hH hW
    (by omega) (by omega) eh ew hih hiw
  have hspec := unpackSpec_at input C H W R S Q ph pw sh sw c oh ow i j hc how hi hj
  refine ⟨?_, ?_, ?_⟩
  · rw [Unpack2DFunc_spec, if_pos hlt, hspec, hcell]
  · rw [GPUUnpack1024Kernel_spec, if_pos hlt, hspec, hcell]
  · rw [GPUUnpackKernel_spec, if_pos hlt, hspec, hcell]

/-- Witness for C1: channel 1, output position (1, 2), window cell (0, 1) of a `2 × 3 × 3`
input with a `2 × 2` filter, padding 1 and stride 1 reads input position (1, 0, 2). -/
theorem Unpack2DFunc_copies_in_bounds_cell_witness :
    (Unpack2DFunc (fun k => (k : Int)) (fun _ => 0) 2 3 3 2 2 4 4 1 1 1 1
        BLITZ_DATA_LAYOUT.BLITZ_BUFFER_NCHW).1
        ((1 * 4 + 2) * (2 * 2 * 2) + 1 * 2 * 2 + 0 * 2 + 1)
      = (fun k => (k : Int)) ((1 * 3 + 0) * 3 + 2) ∧
    GPUUnpack1024Kernel 2 4 4 (fun k => (k : Int)) (fun _ => 0) 3 3 2 2 1 1 1 1
        ((1 * 4 + 2) * (2 * 2 * 2) + 1 * 2 * 2 + 0 * 2 + 1)
      = (fun k => (k : Int)) ((1 * 3 + 0) * 3 + 2) ∧
    GPUUnpackKernel (fun k => (k : Int)) (fun _ => 0) (2 * 4 * 4) 2 3 3 2 2 4 4 1 1 1 1
        ((1 * 4 + 2) * (2 * 2 * 2) + 1 * 2 * 2 + 0 * 2 + 1)
      = (fun k => (k : Int)) ((1 * 3 + 0) * 3 + 2) :=
  Unpack2DFunc_copies_in_bounds_cell (fun k => (k : Int)) (fun _ => 0) 2 3 3 2 2 4 4 1 1 1 1
    BLITZ_DATA_LAYOUT.BLITZ_BUFFER_NCHW (by norm_num) (by norm_num) (by norm_num) (by norm_num)
    1 1 2 0 1 0 2 (by decide) (by decide) (by decide) (by decide) (by decide)
    (by decide) (by decide) (by decide) (by decide)

/-- C2, counterexample.  With `padding_height = 2^32` the `int` offset wraps to `0`: for
`C = H = W = R = S = P = Q = 1`, stride 1, the only cell has source coordinate
`ih = 0 * 1 - 2^32 + 0 < 0`, outside `[0, H)`, yet the kernel stores `input[0] = 5`, not `0`. -/
theorem Unpack2DFunc_zero_fill_fails_on_int_wrap :
    (((0 * 1 : Nat) : Int) - ((2 ^ 32 : Nat) : Int) + ((0 : Nat) : Int) < 0) ∧
    (Unpack2DFunc (fun _ => (5 : Int)) (fun _ => 0) 1 1 1 1 1 1 1 (2 ^ 32) 0 1 1
        BLITZ_DATA_LAYOUT.BLITZ_BUFFER_NCHW).1
        ((0 * 1 + 0) * (1 * 1 * 1) + 0 * 1 * 1 + 0 * 1 + 0) ≠ 0 := by
  constructor
  · norm_num
  · decide

/-- C2, amended.  Zero-fill for configurations within the `int` range (`FitsInt`): every
element written for `(c, oh, ow, i, j)` whose source coordinate `ih = oh * stride_h - pad_h + i`
lies outside `[0, H)` or whose `iw = ow * stride_w - pad_w + j` lies outside `[0, W)` equals `0`,
whatever the input buffer contains; for the entry point and for each kernel. -/
theorem Unpack2DFunc_zero_fill {α : Type} [Zero α] (input unpack : Nat → α)
    (C H W R S P Q ph pw sh sw : Nat) (layout : BLITZ_DATA_LAYOUT)
    (hfit : FitsInt H W R S P Q ph pw sh sw)
    (c oh ow i j : Nat)
    (hc : c < C) (hoh : oh < P) (how : ow < Q) (hi : i < R) (hj : j < S)
    (hout : ((oh * sh : Nat) : Int) - ph + i < 0 ∨ (H : Int) ≤ ((oh * sh : Nat) : Int) - ph + i ∨
      ((ow * sw : Nat) : Int) - pw + j < 0 ∨ (W : Int) ≤ ((ow * sw : Nat) : Int) - pw + j) :
    (Unpack2DFunc input unpack C H W R S P Q ph pw sh sw layout).1
        ((oh * Q + ow) * (C * R * S) + c * R * S + i * S + j) = 0 ∧
    GPUUnpack1024Kernel C P Q input unpack H W R S ph pw sh sw
        ((oh * Q + ow) * (C * R * S) + c * R * S + i * S + j) = 0 ∧
    GPUUnpackKernel input unpack (C * P * Q) C H W R S P Q ph pw sh sw
        ((oh * Q + ow) * (C * R * S) + c * R * S + i * S + j) = 0 := by
  have hlt := unpack_index_lt C R S P Q c oh ow i j hc hoh how hi hj
  have hcell := unpackCell_out_of_bounds input H W R S P Q ph pw sh sw c oh ow i j hfit
    hoh how hi hj hout
  have hspec := unpackSpec_at input C H W R S Q ph pw sh sw c oh ow i j hc how hi hj
  refine ⟨?_, ?_, ?_⟩
  · rw [Unpack2DFunc_spec, if_pos hlt, hspec, hcell]
  · rw [GPUUnpack1024Kernel_spec, if_pos hlt, hspec, hcell]
  · rw [GPUUnpackKernel_spec, if_pos hlt, hspec, hcell]

/-- Witness for the amended C2: with padding 1 the cell `(i, j) = (0, 1)` of output position
`(0, 2)` has `ih = -1` and is zero although the input is nowhere zero. -/
theorem Unpack2DFunc_zero_fill_witness :
    (Unpack2DFunc (fun _ => (7 : Int)) (fun _ => 9) 2 3 3 2 2 4 4 1 1 1 1
        BLITZ_DATA_LAYOUT.BLITZ_BUFFER_NCHW).1
        ((0 * 4 + 2) * (2 * 2 * 2) + 1 * 2 * 2 + 0 * 2 + 1) = 0 ∧
    GPUUnpack1024Kernel 2 4 4 (fun _ => (7 : Int)) (fun _ => 9) 3 3 2 2 1 1 1 1
        ((0 * 4 + 2) * (2 * 2 * 2) + 1 * 2 * 2 + 0 * 2 + 1) = 0 ∧
    GPUUnpackKernel (fun _ => (7 : Int)) (fun _ => 9) (2 * 4 * 4) 2 3 3 2 2 4 4 1 1 1 1
        ((0 * 4 + 2) * (2 * 2 * 2) + 1 * 2 * 2 + 0 * 2 + 1) = 0 :=
  Unpack2DFunc_zero_fill (fun _ => (7 : Int)) (fun _ => 9) 2 3 3 2 2 4 4 1 1 1 1
    BLITZ_DATA_LAYOUT.BLITZ_BUFFER_NCHW (by unfold FitsInt; norm_num)
    1 0 2 0 1 (by decide) (by decide) (by decide) (by decide) (by decide)
    (Or.inl (by norm_num))

/-- C6. The two unpack kernels are equivalent: for every input buffer, every initial
destination buffer and every `C, H, W, R, S, P, Q`, padding and stride, the general kernel run
over all indices `0 .. C*P*Q-1` leaves exactly the buffer the small kernel leaves when run over
all `(c, oh, ow)` with `c < C`, `oh < P`, `ow < Q`; and the decoding
`c = (index / Q) / P`, `oh = (index / Q) % P`, `ow = index % Q` is a bijection between
`[0, C*P*Q)` and those triples. -/
theorem unpack_kernels_equivalent {α : Type} [Zero α] (input unpack : Nat → α)
    (C H W R S P Q ph pw sh sw : Nat) :
    GPUUnpackKernel input unpack (C * P * Q) C H W R S P Q ph pw sh sw
      = GPUUnpack1024Kernel C P Q input unpack H W R S ph pw sh sw ∧
    (∀ index, index < C * P * Q →
      index / Q / P < C ∧ index / Q % P < P ∧ index % Q < Q) ∧
    (∀ c oh ow, c < C → oh < P → ow < Q →
      ∃ index, index < C * P * Q ∧
        (index / Q / P = c ∧ index / Q % P = oh ∧ index % Q = ow) ∧
        ∀ index', index' / Q / P = c ∧ index' / Q % P = oh ∧ index' % Q = ow →
          index' = index) := by
  refine ⟨?_, ?_, ?_⟩
  · funext k
    rw [GPUUnpackKernel_spec, GPUUnpack1024Kernel_spec]
  · intro index hlt
    have hQ : 0 < Q := by
      rcases Nat.eq_zero_or_pos Q with h0 | h0
      · rw [h0] at hlt; simp at hlt
      · exact h0
    have h1 : index / Q < C * P := (Nat.div_lt_iff_lt_mul hQ).mpr hlt
    have hP : 0 < P := by
      rcases Nat.eq_zero_or_pos P with h0 | h0
      · rw [h0] at h1; simp at h1
      · exact h0
    exact ⟨(Nat.div_lt_iff_lt_mul hP).mpr h1, Nat.mod_lt _ hP, Nat.mod_lt _ hQ⟩
  · intro c oh ow hc hoh how
    obtain ⟨e1, e2⟩ := div_mod_of_block Q (c * P + oh) ow how
    obtain ⟨e3, e4⟩ := div_mod_of_block P c oh hoh
    refine ⟨(c * P + oh) * Q + ow, digits_lt _ _ _ _ (digits_lt _ _ _ _ hc hoh) how, ?_, ?_⟩
    · rw [e1, e2, e3, e4]; exact ⟨rfl, rfl, rfl⟩
    · rintro index' ⟨rfl, rfl, rfl⟩
      have a1 := Nat.div_add_mod index' Q
      have a2 := Nat.div_add_mod (index' / Q) P
      rw [Nat.mul_comm] at a1 a2
      rw [a2, a1]


/-! ## Claims about pack -/

/-- C3, failing input.  `Pack2DFunc` with `channel = 66`, `input_height = 2`,
`input_width = 1`, a `1 × 1` filter, `2 × 1` outputs, no padding, stride 1 dispatches to the
general kernel (`channel > 64`).  For a pack buffer of all ones and a zeroed destination the
col2im value of position `(c, ih, iw) = (0, 1, 0)` is `1`, but the destination still holds `0`
there: no index of the general kernel decodes to channel 0 and row 1. -/
theorem Pack2DFunc_general_kernel_misses_position :
    ¬ (66 ≤ 64 ∧ 2 * 1 ≤ 256) ∧
    col2im (fun _ => (1 : Int)) 66 1 1 2 1 0 0 1 1 0 1 0 = 1 ∧
    (Pack2DFunc (fun _ => (1 : Int)) (fun _ => 0) 66 2 1 1 1 2 1 0 0 1 1
        BLITZ_DATA_LAYOUT.BLITZ_PACK_CRSPQ).1 (0 * 2 * 1 + 1 * 1 + 0) = 0 := by
  refine ⟨by decide, by decide, ?_⟩
  have hgen : (Pack2DFunc (fun _ => (1 : Int)) (fun _ => 0) 66 2 1 1 1 2 1 0 0 1 1
      BLITZ_DATA_LAYOUT.BLITZ_PACK_CRSPQ).1
      = GPUPackKernel (fun _ => (1 : Int)) (fun _ => 0) (66 * 2 * 1) 66 2 1 1 1 2 1 0 0 1 1 := by
    unfold Pack2DFunc
    rw [if_neg (by decide)]
  rw [hgen]
  exact GPUPackKernel_untouched _ _ _ 66 2 1 1 1 2 1 0 0 1 1 _ (fun index _ => by omega)

/-- C5, failing input.  With `C = 2`, `H = 2`, `W = 1`, a `1 × 1` filter, `2 × 1` outputs, no
padding, stride 1, pack buffer `[1, 2, 3, 4]` and a zeroed destination, the small kernel leaves
`[1, 3, 2, 4]` while the general kernel run over the indices `0 .. 3` leaves `[1, 0, 0, 4]`:
its indices decode to `(c, ih) = (0,0), (1,1), (0,0), (1,1)` only.  The same happens at a size
`Pack2DFunc` hands to the general kernel, `C = 66`, `H = 2`, `W = 1` with a pack buffer of all
ones: at position `(0, 1, 0)` the small kernel stores `1`, the general kernel leaves `0`. -/
theorem pack_kernels_differ :
    (List.range 4).map (GPUPack1024Kernel 2 2 1 (fun k => (k : Int) + 1) (fun _ => 0)
        1 1 2 1 0 0 1 1) = [1, 3, 2, 4] ∧
    (List.range 4).map (GPUPackKernel (fun k => (k : Int) + 1) (fun _ => 0)
        (2 * 2 * 1) 2 2 1 1 1 2 1 0 0 1 1) = [1, 0, 0, 4] ∧
    GPUPackKernel (fun k => (k : Int) + 1) (fun _ => 0) (2 * 2 * 1) 2 2 1 1 1 2 1 0 0 1 1
      ≠ GPUPack1024Kernel 2 2 1 (fun k => (k : Int) + 1) (fun _ => 0) 1 1 2 1 0 0 1 1 ∧
    GPUPack1024Kernel 66 2 1 (fun _ => (1 : Int)) (fun _ => 0) 1 1 2 1 0 0 1 1
        (0 * 2 * 1 + 1 * 1 + 0) = 1 ∧
    GPUPackKernel (fun _ => (1 : Int)) (fun _ => 0) (66 * 2 * 1) 66 2 1 1 1 2 1 0 0 1 1
        (0 * 2 * 1 + 1 * 1 + 0) = 0 := by
  refine ⟨by decide, by decide, ?_, ?_, ?_⟩
  · intro h
    have h1 := congrFun h 1
    revert h1
    decide
  · rw [GPUPack1024Kernel_at 66 2 1 _ _ 1 1 2 1 0 0 1 1 0 1 0 (by decide) (by decide)
      (by decide)]
    decide
  · exact GPUPackKernel_untouched _ _ _ 66 2 1 1 1 2 1 0 0 1 1 _ (fun index _ => by omega)

/-- C7, counterexample.  `C = 1`, `H = 3`, `W = 1`, a `1 × 1` filter, stride `(2, 1)`, no
padding, so `P = (3 - 1) / 2 + 1 = 2` and `Q = 1`; stride is at least the filter size.  For
`X = [1, 2, 3]` the round trip returns `0` at position `(0, 1, 0)`: row 1 lies between the two
windows. -/
theorem pack_unpack_round_trip_fails_in_gap :
    (1 ≤ 2 ∧ 1 ≤ 1) ∧ ((3 + 2 * 0 - 1) / 2 + 1 = 2 ∧ (1 + 2 * 0 - 1) / 1 + 1 = 1) ∧
    (Pack2DFunc
        (Unpack2DFunc (fun k => (k : Int) + 1) (fun _ => 0) 1 3 1 1 1 2 1 0 0 2 1
          BLITZ_DATA_LAYOUT.BLITZ_BUFFER_NCHW).1
        (fun _ => 0) 1 3 1 1 1 2 1 0 0 2 1 BLITZ_DATA_LAYOUT.BLITZ_PACK_CRSPQ).1
        (0 * 3 * 1 + 1 * 1 + 0)
      ≠ (fun k => (k : Int) + 1) (0 * 3 * 1 + 1 * 1 + 0) := by
  refine ⟨by decide, by decide, ?_⟩
  decide

/-- C7, amended.  Round trip on overlap-free configurations that `Pack2DFunc` runs on the
small kernel (`C ≤ 64`, `H * W ≤ 256`), with stride at least 1, stride at least the filter
size, filter extents within the `int` range and paddings for which the `size_t` sums
`ih + pad` do not wrap (`H + pad_h < 2^64`, `W + pad_w < 2^64`): `Pack2DFunc` applied to the
matrix `Unpack2DFunc` produced from `X` holds `X[c, ih, iw]` at every position covered by a
window (some `oh < P` with `oh * stride_h ≤ ih + pad_h < oh * stride_h + R`, and likewise in
width), and `0` at every position no window covers. -/
theorem pack_unpack_round_trip_overlap_free {α : Type} [AddCommMonoid α]
    (X unpack0 input0 : Nat → α) (C H W R S P Q ph pw sh sw : Nat)
    (l1 l2 : BLITZ_DATA_LAYOUT)
    (hsmall : C ≤ 64 ∧ H * W ≤ 256) (hR : R ≤ 2 ^ 31) (hS : S ≤ 2 ^ 31)
    (hsh : 1 ≤ sh) (hsw : 1 ≤ sw) (hRs : R ≤ sh) (hSs : S ≤ sw)
    (hph : H + ph < 2 ^ 64) (hpw : W + pw < 2 ^ 64)
    (c ih iw : Nat) (hc : c < C) (hih : ih < H) (hiw : iw < W) :
    (((∃ oh, oh < P ∧ oh * sh ≤ ih + ph ∧ ih + ph < oh * sh + R) ∧
      (∃ ow, ow < Q ∧ ow * sw ≤ iw + pw ∧ iw + pw < ow * sw + S)) →
      (Pack2DFunc (Unpack2DFunc X unpack0 C H W R S P Q ph pw sh sw l1).1 input0
          C H W R S P Q ph pw sh sw l2).1 (c * H * W + ih * W + iw)
        = X (c * H * W + ih * W + iw)) ∧
    (¬ ((∃ oh, oh < P ∧ oh * sh ≤ ih + ph ∧ ih + ph < oh * sh + R) ∧
      (∃ ow, ow < Q ∧ ow * sw ≤ iw + pw ∧ iw + pw < ow * sw + S)) →
      (Pack2DFunc (Unpack2DFunc X unpack0 C H W R S P Q ph pw sh sw l1).1 input0
          C H W R S P Q ph pw sh sw l2).1 (c * H * W + ih * W + iw)
        = 0) := by
  have hHW : H ≤ H * W ∧ W ≤ H * W :=
    ⟨Nat.le_mul_of_pos_right H (by omega), Nat.le_mul_of_pos_left W (by omega)⟩
  have hH : H < 2 ^ 31 := by
    have : (256 : Nat) < 2 ^ 31 := by norm_num
    omega
  have hW : W < 2 ^ 31 := by
    have : (256 : Nat) < 2 ^ 31 := by norm_num
    omega
  have hval : (Pack2DFunc (Unpack2DFunc X unpack0 C H W R S P Q ph pw sh sw l1).1 input0
        C H W R S P Q ph pw sh sw l2).1 (c * H * W + ih * W + iw)
      = (pack_end (ih + ph) sh P - pack_start (ih + ph) R sh) •
          ((pack_end (iw + pw) sw Q - pack_start (iw + pw) S sw) •
            X (c * H * W + ih * W + iw)) := by
    have e : c * H * W + ih * W + iw = (c * H + ih) * W + iw := by ring
    rw [show (Pack2DFunc (Unpack2DFunc X unpack0 C H W R S P Q ph pw sh sw l1).1 input0
        C H W R S P Q ph pw sh sw l2).1
        = GPUPack1024Kernel C H W (Unpack2DFunc X unpack0 C H W R S P Q ph pw sh sw l1).1
            input0 R S P Q ph pw sh sw from by unfold Pack2DFunc; rw [if_pos hsmall]]
    rw [GPUPack1024Kernel_at C H W _ input0 R S P Q ph pw sh sw c ih iw hc hih hiw, e]
    exact packSum_of_unpacked X _ C H W R S P Q ph pw sh sw
      (fun k hk => by rw [Unpack2DFunc_spec, if_pos hk]) hH hW hR hS hsh hsw c ih iw hc hih hiw
      (by omega) (by omega)
  obtain ⟨hh1, hh0⟩ := overlap_free_count (ih + ph) R sh P hsh hRs
  obtain ⟨hw1, hw0⟩ := overlap_free_count (iw + pw) S sw Q hsw hSs
  constructor
  · rintro ⟨hch, hcw⟩
    rw [hval, hh1 hch, hw1 hcw, one_nsmul, one_nsmul]
  · intro hnc
    rw [hval]
    by_cases hch : ∃ oh, oh < P ∧ oh * sh ≤ ih + ph ∧ ih + ph < oh * sh + R
    · have hcw : ¬ ∃ ow, ow < Q ∧ ow * sw ≤ iw + pw ∧ iw + pw < ow * sw + S :=
        fun hcw => hnc ⟨hch, hcw⟩
      rw [hw0 hcw, zero_nsmul, nsmul_zero]
    · rw [hh0 hch, zero_nsmul]

/-- Witness for the amended C7: in the configuration of the counterexample (`H = 3`, stride 2,
`1 × 1` filter) row 2 is covered by window `oh = 1` and the round trip returns `X` there. -/
theorem pack_unpack_round_trip_overlap_free_witness :
    (Pack2DFunc
        (Unpack2DFunc (fun k => (k : Int) + 1) (fun _ => 0) 1 3 1 1 1 2 1 0 0 2 1
          BLITZ_DATA_LAYOUT.BLITZ_BUFFER_NCHW).1
        (fun _ => 0) 1 3 1 1 1 2 1 0 0 2 1 BLITZ_DATA_LAYOUT.BLITZ_PACK_CRSPQ).1
        (0 * 3 * 1 + 2 * 1 + 0)
      = (fun k => (k : Int) + 1) (0 * 3 * 1 + 2 * 1 + 0) :=
  (pack_unpack_round_trip_overlap_free (fun k => (k : Int) + 1) (fun _ => 0) (fun _ => 0)
    1 3 1 1 1 2 1 0 0 2 1 BLITZ_DATA_LAYOUT.BLITZ_BUFFER_NCHW
    BLITZ_DATA_LAYOUT.BLITZ_PACK_CRSPQ (by decide) (by norm_num) (by norm_num)
    (by decide) (by decide) (by decide) (by decide) (by norm_num) (by norm_num)
    0 2 0 (by decide) (by decide) (by decide)).1 ⟨⟨1, by decide⟩, ⟨0, by decide⟩⟩


/-! ## Claims about layer set-up and the coprocessor entry points -/

/-- C8, counterexample.  Input `(2, 3, 5, 5)`, filter `(4, 3, 3, 3)`, padding
`(2^64 - 1, 1)`, stride `(1, 1)`, algorithm `BLAS_GEMM`: the hypotheses of the claim hold
(`5 + 2 * (2^64 - 1) ≥ 3`), yet `Conv::InitImpl` builds the output shape `(2, 4, 1, 5)`: in
`size_t` the padded height `5 + 2 * (2^64 - 1)` wraps to 3, so the height is
`(3 - 3) / 1 + 1 = 1`, not `(5 + 2 * (2^64 - 1) - 3) / 1 + 1 = 2^65 + 1`. -/
theorem Conv.InitImpl_output_shape_wraps_at_large_padding :
    3 ≤ 5 + 2 * (2 ^ 64 - 1) ∧
    Conv.InitImpl 1
        { filter_shape_ := ⟨4, 3, 3, 3, BLITZ_DATA_LAYOUT.BLITZ_FILTER_KCRS⟩
          padding_height_ := 2 ^ 64 - 1, padding_width_ := 1
          stride_height_ := 1, stride_width_ := 1
          algorithm_ := BLITZ_ALGORITHM.BLITZ_CONVOLUTION_BLAS_GEMM }
        ⟨2, 3, 5, 5, BLITZ_DATA_LAYOUT.BLITZ_BUFFER_NCHW⟩
      = Except.ok
          { forward_output_ := ⟨2, 4, 1, 5, BLITZ_DATA_LAYOUT.BLITZ_BUFFER_NCHW⟩
            backward_output_ := ⟨2, 3, 5, 5, BLITZ_DATA_LAYOUT.BLITZ_BUFFER_NCHW⟩
            weight_ := ⟨4, 3, 3, 3, BLITZ_DATA_LAYOUT.BLITZ_FILTER_KCRS⟩
            update_ := ⟨4, 3, 3, 3, BLITZ_DATA_LAYOUT.BLITZ_FILTER_KCRS⟩
            workspace_ := some 135 } ∧
    (5 + 2 * (2 ^ 64 - 1) - 3) / 1 + 1 = 2 ^ 65 + 1 ∧ 2 ^ 65 + 1 ≠ 1 := by
  refine ⟨by norm_num, ?_, by norm_num, by norm_num⟩
  rfl

/-- C8, amended.  Shape invariant: for every input shape `(N, C, H, W)`, filter shape
`(K, C, R, S)`, padding and stride at least 1 with `H + 2 * pad_h ≥ R` and
`W + 2 * pad_w ≥ S`, whose padded extents do not overflow `size_t`
(`H + 2 * pad_h < 2^64 - 1` and `W + 2 * pad_w < 2^64 - 1`), and every algorithm other than
the fused-direct one, `Conv::InitImpl` completes and builds the forward-output shape
`(N, K, (H + 2*pad_h - R) / stride_h + 1, (W + 2*pad_w - S) / stride_w + 1)` with truncating
division. -/
theorem Conv.InitImpl_output_shape (BLITZ_NUM_THREADS : Nat) (self : Conv) (input_shape : Shape)
    (halg : self.algorithm_ ≠ BLITZ_ALGORITHM.BLITZ_CONVOLUTION_XSMM_DIRECT)
    (hsh : 1 ≤ self.stride_height_) (hsw : 1 ≤ self.stride_width_)
    (hH : self.filter_shape_.dim2 ≤ input_shape.dim2 + 2 * self.padding_height_)
    (hW : self.filter_shape_.dim3 ≤ input_shape.dim3 + 2 * self.padding_width_)
    (hHno : input_shape.dim2 + 2 * self.padding_height_ < 2 ^ 64 - 1)
    (hWno : input_shape.dim3 + 2 * self.padding_width_ < 2 ^ 64 - 1) :
    ∃ t, Conv.InitImpl BLITZ_NUM_THREADS self input_shape = Except.ok t ∧
      t.forward_output_ =
        { dim0 := input_shape.dim0
          dim1 := self.filter_shape_.dim0
          dim2 := (input_shape.dim2 + 2 * self.padding_height_ - self.filter_shape_.dim2) /
            self.stride_height_ + 1
          dim3 := (input_shape.dim3 + 2 * self.padding_width_ - self.filter_shape_.dim3) /
            self.stride_width_ + 1
          data_layout := BLITZ_DATA_LAYOUT.BLITZ_BUFFER_NCHW } := by
  obtain ⟨t, h1, h2⟩ := Conv.InitImpl_ok_of_not_xsmm BLITZ_NUM_THREADS self input_shape halg
    (Nat.pos_iff_ne_zero.mp hsh) (Nat.pos_iff_ne_zero.mp hsw)
  rw [extent_of_no_overflow _ _ _ _ hH hHno, extent_of_no_overflow _ _ _ _ hW hWno] at h2
  exact ⟨t, h1, h2⟩

/-- Witness for C8: input `(2, 3, 5, 5)`, filter `(4, 3, 3, 3)`, padding `(1, 1)`, stride
`(1, 1)` gives the output shape `(2, 4, 5, 5)`. -/
theorem Conv.InitImpl_output_shape_witness :
    ∃ t, Conv.InitImpl 1
        { filter_shape_ := ⟨4, 3, 3, 3, BLITZ_DATA_LAYOUT.BLITZ_FILTER_KCRS⟩
          padding_height_ := 1, padding_width_ := 1, stride_height_ := 1, stride_width_ := 1
          algorithm_ := BLITZ_ALGORITHM.BLITZ_CONVOLUTION_BLAS_GEMM }
        ⟨2, 3, 5, 5, BLITZ_DATA_LAYOUT.BLITZ_BUFFER_NCHW⟩ = Except.ok t ∧
      t.forward_output_ = ⟨2, 4, 5, 5, BLITZ_DATA_LAYOUT.BLITZ_BUFFER_NCHW⟩ :=
  Conv.InitImpl_output_shape 1
    { filter_shape_ := ⟨4, 3, 3, 3, BLITZ_DATA_LAYOUT.BLITZ_FILTER_KCRS⟩
      padding_height_ := 1, padding_width_ := 1, stride_height_ := 1, stride_width_ := 1
      algorithm_ := BLITZ_ALGORITHM.BLITZ_CONVOLUTION_BLAS_GEMM }
    ⟨2, 3, 5, 5, BLITZ_DATA_LAYOUT.BLITZ_BUFFER_NCHW⟩
    (by decide) (by decide) (by decide) (by decide) (by decide) (by norm_num) (by norm_num)

/-- C9, counterexample.  Input `(1, 1, 5, 5)`, filter `(1, 1, 2, 3)`, no padding, stride
`(2, 1)`, algorithm `BLAS_GEMM`: in height `5 + 2*0 - 2 = 3` is not a multiple of the stride
2, and `Conv::InitImpl` reports no error: it builds the output shape `(1, 1, 2, 3)`, of
height `3 / 2 + 1 = 2`. -/
theorem Conv.InitImpl_does_not_validate_extent :
    (5 + 2 * 0 - 2) % 2 ≠ 0 ∧
    Conv.InitImpl 1
        { filter_shape_ := ⟨1, 1, 2, 3, BLITZ_DATA_LAYOUT.BLITZ_FILTER_KCRS⟩
          padding_height_ := 0, padding_width_ := 0, stride_height_ := 2, stride_width_ := 1
          algorithm_ := BLITZ_ALGORITHM.BLITZ_CONVOLUTION_BLAS_GEMM }
        ⟨1, 1, 5, 5, BLITZ_DATA_LAYOUT.BLITZ_BUFFER_NCHW⟩
      = Except.ok
          { forward_output_ := ⟨1, 1, 2, 3, BLITZ_DATA_LAYOUT.BLITZ_BUFFER_NCHW⟩
            backward_output_ := ⟨1, 1, 5, 5, BLITZ_DATA_LAYOUT.BLITZ_BUFFER_NCHW⟩
            weight_ := ⟨1, 1, 2, 3, BLITZ_DATA_LAYOUT.BLITZ_FILTER_KCRS⟩
            update_ := ⟨1, 1, 2, 3, BLITZ_DATA_LAYOUT.BLITZ_FILTER_KCRS⟩
            workspace_ := some 36 } :=
  ⟨by decide, rfl⟩

/-- C9, amended.  The output-extent formula is computed, not validated: for every
configuration with an algorithm other than the fused-direct one and strides at least 1 (also
when `in + 2*pad - filter` is negative or is not a multiple of the stride) `Conv::InitImpl`
reports no error and builds an output shape whose extents are the `size_t` value of
`(in + 2*pad - filter) / stride + 1`, every operation taken modulo `2^64`. -/
theorem Conv.InitImpl_computes_extent_without_validation (BLITZ_NUM_THREADS : Nat)
    (self : Conv) (input_shape : Shape)
    (halg : self.algorithm_ ≠ BLITZ_ALGORITHM.BLITZ_CONVOLUTION_XSMM_DIRECT)
    (hsh : 1 ≤ self.stride_height_) (hsw : 1 ≤ self.stride_width_) :
    ∃ t, Conv.InitImpl BLITZ_NUM_THREADS self input_shape = Except.ok t ∧
      t.forward_output_.dim2 =
        size_t_add (size_t_sub (size_t_add input_shape.dim2 (size_t_mul 2 self.padding_height_))
          self.filter_shape_.dim2 / self.stride_height_) 1 ∧
      t.forward_output_.dim3 =
        size_t_add (size_t_sub (size_t_add input_shape.dim3 (size_t_mul 2 self.padding_width_))
          self.filter_shape_.dim3 / self.stride_width_) 1 := by
  obtain ⟨t, h1, h2⟩ := Conv.InitImpl_ok_of_not_xsmm BLITZ_NUM_THREADS self input_shape halg
    (Nat.pos_iff_ne_zero.mp hsh) (Nat.pos_iff_ne_zero.mp hsw)
  exact ⟨t, h1, by rw [h2], by rw [h2]⟩

/-- Witness for the amended C9: input `(1, 1, 5, 2)`, filter `(1, 1, 2, 3)`, stride `(2, 1)`;
in height the numerator 3 is not a multiple of the stride, in width the filter (3) is larger
than the input (2). -/
theorem Conv.InitImpl_computes_extent_without_validation_witness :
    ∃ t, Conv.InitImpl 1
        { filter_shape_ := ⟨1, 1, 2, 3, BLITZ_DATA_LAYOUT.BLITZ_FILTER_KCRS⟩
          padding_height_ := 0, padding_width_ := 0, stride_height_ := 2, stride_width_ := 1
          algorithm_ := BLITZ_ALGORITHM.BLITZ_CONVOLUTION_BLAS_GEMM }
        ⟨1, 1, 5, 2, BLITZ_DATA_LAYOUT.BLITZ_BUFFER_NCHW⟩ = Except.ok t ∧
      t.forward_output_.dim2 =
        size_t_add (size_t_sub (size_t_add 5 (size_t_mul 2 0)) 2 / 2) 1 ∧
      t.forward_output_.dim3 =
        size_t_add (size_t_sub (size_t_add 2 (size_t_mul 2 0)) 3 / 1) 1 :=
  Conv.InitImpl_computes_extent_without_validation 1
    { filter_shape_ := ⟨1, 1, 2, 3, BLITZ_DATA_LAYOUT.BLITZ_FILTER_KCRS⟩
      padding_height_ := 0, padding_width_ := 0, stride_height_ := 2, stride_width_ := 1
      algorithm_ := BLITZ_ALGORITHM.BLITZ_CONVOLUTION_BLAS_GEMM }
    ⟨1, 1, 5, 2, BLITZ_DATA_LAYOUT.BLITZ_BUFFER_NCHW⟩ (by decide) (by decide) (by decide)

/-- C10. Each of the three coprocessor entry points fails fatally on a `CHECK_EQ`, with no
prepare or compute step invoked, whenever `input.batch ≠ output.batch`, or
`filter.output-channel ≠ output.channel`, or `filter.input-channel ≠ input.channel`; and when
the three equalities hold the call is exactly the algorithm dispatch (the `switch`) on the
decoded extents. -/
theorem entry_points_check_shapes (env : Env) (input filter output workspace : MICTensor)
    (padding_height padding_width stride_height stride_width : Nat)
    (algorithm : BLITZ_ALGORITHM) :
    (((env.Blitz2DBuffer input.data_layout input.shape).1
          ≠ (env.Blitz2DBuffer output.data_layout output.shape).1 ∨
        (env.Blitz2DFilter filter.data_layout filter.shape).1
          ≠ (env.Blitz2DBuffer output.data_layout output.shape).2.1 ∨
        (env.Blitz2DFilter filter.data_layout filter.shape).2.1
          ≠ (env.Blitz2DBuffer input.data_layout input.shape).2.1) →
      ((Convolution2DForwardFunc env input filter output workspace padding_height
            padding_width stride_height stride_width algorithm).steps = [] ∧
        ∃ lhs rhs a b, (Convolution2DForwardFunc env input filter output workspace
            padding_height padding_width stride_height stride_width algorithm).fatal
          = some (Fatal.check_eq lhs rhs a b)) ∧
      ((Convolution2DBackwardFunc env output filter input workspace padding_height
            padding_width stride_height stride_width algorithm).steps = [] ∧
        ∃ lhs rhs a b, (Convolution2DBackwardFunc env output filter input workspace
            padding_height padding_width stride_height stride_width algorithm).fatal
          = some (Fatal.check_eq lhs rhs a b)) ∧
      ((Convolution2DUpdateFunc env input output filter workspace padding_height
            padding_width stride_height stride_width algorithm).steps = [] ∧
        ∃ lhs rhs a b, (Convolution2DUpdateFunc env input output filter workspace
            padding_height padding_width stride_height stride_width algorithm).fatal
          = some (Fatal.check_eq lhs rhs a b))) ∧
    (((env.Blitz2DBuffer input.data_layout input.shape).1
          = (env.Blitz2DBuffer output.data_layout output.shape).1 ∧
        (env.Blitz2DFilter filter.data_layout filter.shape).1
          = (env.Blitz2DBuffer output.data_layout output.shape).2.1 ∧
        (env.Blitz2DFilter filter.data_layout filter.shape).2.1
          = (env.Blitz2DBuffer input.data_layout input.shape).2.1) →
      Convolution2DForwardFunc env input filter output workspace padding_height
          padding_width stride_height stride_width algorithm
        = dispatch env LIBXSMM_DNN_CONV_KIND.LIBXSMM_DNN_CONV_KIND_FWD
            (List.range env.omp_num_threads)
            (prepareArgs env input filter output padding_height padding_width
              stride_height stride_width) algorithm ∧
      Convolution2DBackwardFunc env output filter input workspace padding_height
          padding_width stride_height stride_width algorithm
        = dispatch env LIBXSMM_DNN_CONV_KIND.LIBXSMM_DNN_CONV_KIND_BWD [0]
            (prepareArgs env input filter output padding_height padding_width
              stride_height stride_width) algorithm ∧
      Convolution2DUpdateFunc env input output filter workspace padding_height
          padding_width stride_height stride_width algorithm
        = dispatch env LIBXSMM_DNN_CONV_KIND.LIBXSMM_DNN_CONV_KIND_UPD
            (List.range env.omp_num_threads)
            (prepareArgs env input filter output padding_height padding_width
              stride_height stride_width) algorithm) := by
  constructor
  · intro h
    exact ⟨checkedDispatch_reject env _ _ input filter output _ _ _ _ algorithm h,
      checkedDispatch_reject env _ _ input filter output _ _ _ _ algorithm h,
      checkedDispatch_reject env _ _ input filter output _ _ _ _ algorithm h⟩
  · rintro ⟨h1, h2, h3⟩
    exact ⟨checkedDispatch_accept env _ _ input filter output _ _ _ _ algorithm h1 h2 h3,
      checkedDispatch_accept env _ _ input filter output _ _ _ _ algorithm h1 h2 h3,
      checkedDispatch_accept env _ _ input filter output _ _ _ _ algorithm h1 h2 h3⟩


/-! ## Claims about the checks of the entry points and of the layer set-up -/

/-- C11, counterexample.  Input `(1, 1, 5, 5)`, filter `(1, 1, 3, 3)`, no padding, stride 1:
the derived output extent is `(5 + 2*0 - 3) / 1 + 1 = 3`.  With an output tensor of extents
`7 × 7` and the fused-direct algorithm none of the three entry points terminates: each invokes
the prepare step and then the compute step. -/
theorem entry_points_accept_wrong_output_extent :
    (5 + 2 * 0 - 3) / 1 + 1 ≠ 7 ∧
    Convolution2DForwardFunc nchwEnv (nchwTensor 1 1 5 5) (kcrsTensor 1 1 3 3)
        (nchwTensor 1 1 7 7) (nchwTensor 1 1 1 1) 0 0 1 1
        BLITZ_ALGORITHM.BLITZ_CONVOLUTION_XSMM_DIRECT
      = { steps :=
            [Step.prepare ⟨BLITZ_DATA_LAYOUT.BLITZ_BUFFER_NCHW,
                BLITZ_DATA_LAYOUT.BLITZ_FILTER_KCRS, 1, 5, 5, 1, 1, 3, 3, 1, 1, 0, 0⟩,
              Step.convolve 0 LIBXSMM_DNN_CONV_KIND.LIBXSMM_DNN_CONV_KIND_FWD 0,
              Step.convolve 0 LIBXSMM_DNN_CONV_KIND.LIBXSMM_DNN_CONV_KIND_FWD 1],
          fatal := none } ∧
    Convolution2DBackwardFunc nchwEnv (nchwTensor 1 1 7 7) (kcrsTensor 1 1 3 3)
        (nchwTensor 1 1 5 5) (nchwTensor 1 1 1 1) 0 0 1 1
        BLITZ_ALGORITHM.BLITZ_CONVOLUTION_XSMM_DIRECT
      = { steps :=
            [Step.prepare ⟨BLITZ_DATA_LAYOUT.BLITZ_BUFFER_NCHW,
                BLITZ_DATA_LAYOUT.BLITZ_FILTER_KCRS, 1, 5, 5, 1, 1, 3, 3, 1, 1, 0, 0⟩,
              Step.convolve 0 LIBXSMM_DNN_CONV_KIND.LIBXSMM_DNN_CONV_KIND_BWD 0],
          fatal := none } ∧
    Convolution2DUpdateFunc nchwEnv (nchwTensor 1 1 5 5) (nchwTensor 1 1 7 7)
        (kcrsTensor 1 1 3 3) (nchwTensor 1 1 1 1) 0 0 1 1
        BLITZ_ALGORITHM.BLITZ_CONVOLUTION_XSMM_DIRECT
      = { steps :=
            [Step.prepare ⟨BLITZ_DATA_LAYOUT.BLITZ_BUFFER_NCHW,
                BLITZ_DATA_LAYOUT.BLITZ_FILTER_KCRS, 1, 5, 5, 1, 1, 3, 3, 1, 1, 0, 0⟩,
              Step.convolve 0 LIBXSMM_DNN_CONV_KIND.LIBXSMM_DNN_CONV_KIND_UPD 0,
              Step.convolve 0 LIBXSMM_DNN_CONV_KIND.LIBXSMM_DNN_CONV_KIND_UPD 1],
          fatal := none } := by
  refine ⟨by decide, ?_, ?_, ?_⟩ <;> rfl

/-- C11, amended.  The output extents are decoded but never checked: the outcome of each of
the three entry points (the steps it invokes and its fatal termination, if any) is the same
for any two output tensors that decode to the same batch and channel, whatever their height
and width. -/
theorem entry_points_ignore_output_extent (env : Env)
    (input filter output output' workspace : MICTensor)
    (padding_height padding_width stride_height stride_width : Nat)
    (algorithm : BLITZ_ALGORITHM)
    (h1 : (env.Blitz2DBuffer output.data_layout output.shape).1
          = (env.Blitz2DBuffer output'.data_layout output'.shape).1)
    (h2 : (env.Blitz2DBuffer output.data_layout output.shape).2.1
          = (env.Blitz2DBuffer output'.data_layout output'.shape).2.1) :
    Convolution2DForwardFunc env input filter output workspace padding_height padding_width
        stride_height stride_width algorithm
      = Convolution2DForwardFunc env input filter output' workspace padding_height
          padding_width stride_height stride_width algorithm ∧
    Convolution2DBackwardFunc env output filter input workspace padding_height padding_width
        stride_height stride_width algorithm
      = Convolution2DBackwardFunc env output' filter input workspace padding_height
          padding_width stride_height stride_width algorithm ∧
    Convolution2DUpdateFunc env input output filter workspace padding_height padding_width
        stride_height stride_width algorithm
      = Convolution2DUpdateFunc env input output' filter workspace padding_height
          padding_width stride_height stride_width algorithm :=
  ⟨checkedDispatch_output_extent_unused env _ _ input filter output output' _ _ _ _
      algorithm h1 h2,
    checkedDispatch_output_extent_unused env _ _ input filter output output' _ _ _ _
      algorithm h1 h2,
    checkedDispatch_output_extent_unused env _ _ input filter output output' _ _ _ _
      algorithm h1 h2⟩

/-- Witness for the amended C11: the derived `3 × 3` output and a `7 × 7` output give the
same outcome. -/
theorem entry_points_ignore_output_extent_witness :
    Convolution2DForwardFunc nchwEnv (nchwTensor 1 1 5 5) (kcrsTensor 1 1 3 3)
        (nchwTensor 1 1 3 3) (nchwTensor 1 1 1 1) 0 0 1 1
        BLITZ_ALGORITHM.BLITZ_CONVOLUTION_XSMM_DIRECT
      = Convolution2DForwardFunc nchwEnv (nchwTensor 1 1 5 5) (kcrsTensor 1 1 3 3)
          (nchwTensor 1 1 7 7) (nchwTensor 1 1 1 1) 0 0 1 1
          BLITZ_ALGORITHM.BLITZ_CONVOLUTION_XSMM_DIRECT ∧
    Convolution2DBackwardFunc nchwEnv (nchwTensor 1 1 3 3) (kcrsTensor 1 1 3 3)
        (nchwTensor 1 1 5 5) (nchwTensor 1 1 1 1) 0 0 1 1
        BLITZ_ALGORITHM.BLITZ_CONVOLUTION_XSMM_DIRECT
      = Convolution2DBackwardFunc nchwEnv (nchwTensor 1 1 7 7) (kcrsTensor 1 1 3 3)
          (nchwTensor 1 1 5 5) (nchwTensor 1 1 1 1) 0 0 1 1
          BLITZ_ALGORITHM.BLITZ_CONVOLUTION_XSMM_DIRECT ∧
    Convolution2DUpdateFunc nchwEnv (nchwTensor 1 1 5 5) (nchwTensor 1 1 3 3)
        (kcrsTensor 1 1 3 3) (nchwTensor 1 1 1 1) 0 0 1 1
        BLITZ_ALGORITHM.BLITZ_CONVOLUTION_XSMM_DIRECT
      = Convolution2DUpdateFunc nchwEnv (nchwTensor 1 1 5 5) (nchwTensor 1 1 7 7)
          (kcrsTensor 1 1 3 3) (nchwTensor 1 1 1 1) 0 0 1 1
          BLITZ_ALGORITHM.BLITZ_CONVOLUTION_XSMM_DIRECT :=
  entry_points_ignore_output_extent nchwEnv (nchwTensor 1 1 5 5) (kcrsTensor 1 1 3 3)
    (nchwTensor 1 1 3 3) (nchwTensor 1 1 7 7) (nchwTensor 1 1 1 1) 0 0 1 1
    BLITZ_ALGORITHM.BLITZ_CONVOLUTION_XSMM_DIRECT rfl rfl

/-- C12. Unsupported algorithm kind is fatal and named: for every algorithm other than the
fused-direct kind and every triple of tensors that passes the three shape checks, each of the
three entry points invokes no step (neither prepare nor compute) and terminates fatally with
the diagnostic of the `default` case, which carries that algorithm value. -/
theorem entry_points_unsupported_algorithm (env : Env)
    (input filter output workspace : MICTensor)
    (padding_height padding_width stride_height stride_width : Nat)
    (algorithm : BLITZ_ALGORITHM)
    (halg : algorithm ≠ BLITZ_ALGORITHM.BLITZ_CONVOLUTION_XSMM_DIRECT)
    (h1 : (env.Blitz2DBuffer input.data_layout input.shape).1
          = (env.Blitz2DBuffer output.data_layout output.shape).1)
    (h2 : (env.Blitz2DFilter filter.data_layout filter.shape).1
          = (env.Blitz2DBuffer output.data_layout output.shape).2.1)
    (h3 : (env.Blitz2DFilter filter.data_layout filter.shape).2.1
          = (env.Blitz2DBuffer input.data_layout input.shape).2.1) :
    Convolution2DForwardFunc env input filter output workspace padding_height padding_width
        stride_height stride_width algorithm
      = { steps := [], fatal := some (Fatal.unsupported_algorithm algorithm) } ∧
    Convolution2DBackwardFunc env output filter input workspace padding_height padding_width
        stride_height stride_width algorithm
      = { steps := [], fatal := some (Fatal.unsupported_algorithm algorithm) } ∧
    Convolution2DUpdateFunc env input output filter workspace padding_height padding_width
        stride_height stride_width algorithm
      = { steps := [], fatal := some (Fatal.unsupported_algorithm algorithm) } := by
  refine ⟨?_, ?_, ?_⟩
  · unfold Convolution2DForwardFunc
    rw [checkedDispatch_accept env _ _ input filter output _ _ _ _ algorithm h1 h2 h3,
      dispatch_unsupported env _ _ _ algorithm halg]
  · unfold Convolution2DBackwardFunc
    rw [checkedDispatch_accept env _ _ input filter output _ _ _ _ algorithm h1 h2 h3,
      dispatch_unsupported env _ _ _ algorithm halg]
  · unfold Convolution2DUpdateFunc
    rw [checkedDispatch_accept env _ _ input filter output _ _ _ _ algorithm h1 h2 h3,
      dispatch_unsupported env _ _ _ algorithm halg]

/-- Witness for C12: the algorithm `BLAS_GEMM` on matching tensors. -/
theorem entry_points_unsupported_algorithm_witness :
    Convolution2DForwardFunc nchwEnv (nchwTensor 2 3 5 5) (kcrsTensor 4 3 3 3)
        (nchwTensor 2 4 5 5) (nchwTensor 1 1 1 1) 1 1 1 1
        BLITZ_ALGORITHM.BLITZ_CONVOLUTION_BLAS_GEMM
      = { steps := [],
          fatal := some (Fatal.unsupported_algorithm
            BLITZ_ALGORITHM.BLITZ_CONVOLUTION_BLAS_GEMM) } ∧
    Convolution2DBackwardFunc nchwEnv (nchwTensor 2 4 5 5) (kcrsTensor 4 3 3 3)
        (nchwTensor 2 3 5 5) (nchwTensor 1 1 1 1) 1 1 1 1
        BLITZ_ALGORITHM.BLITZ_CONVOLUTION_BLAS_GEMM
      = { steps := [],
          fatal := some (Fatal.unsupported_algorithm
            BLITZ_ALGORITHM.BLITZ_CONVOLUTION_BLAS_GEMM) } ∧
    Convolution2DUpdateFunc nchwEnv (nchwTensor 2 3 5 5) (nchwTensor 2 4 5 5)
        (kcrsTensor 4 3 3 3) (nchwTensor 1 1 1 1) 1 1 1 1
        BLITZ_ALGORITHM.BLITZ_CONVOLUTION_BLAS_GEMM
      = { steps := [],
          fatal := some (Fatal.unsupported_algorithm
            BLITZ_ALGORITHM.BLITZ_CONVOLUTION_BLAS_GEMM) } :=
  entry_points_unsupported_algorithm nchwEnv (nchwTensor 2 3 5 5) (kcrsTensor 4 3 3 3)
    (nchwTensor 2 4 5 5) (nchwTensor 1 1 1 1) 1 1 1 1
    BLITZ_ALGORITHM.BLITZ_CONVOLUTION_BLAS_GEMM (by decide) rfl rfl rfl

/-- C13. Layer set-up rejects padding for the fused-direct strategy.  With the algorithm
`XSMM_DIRECT`, `Conv::InitImpl` ends in its `LOG(FATAL)` if and only if `padding_height ≠ 0`
or `padding_width ≠ 0`, the outcome is then the logged message alone (no tensor is built),
and for strides at least 1 it fails in any way if and only if a padding is nonzero.  With any
other algorithm it never ends in `LOG(FATAL)` and for strides at least 1 it completes,
whatever the padding.  The only other failure, for any algorithm, is the division by a zero
stride, which the fused-direct path reaches only with zero padding. -/
theorem Conv.InitImpl_rejects_padding_iff_xsmm (BLITZ_NUM_THREADS : Nat) (self : Conv)
    (input_shape : Shape) :
    (self.algorithm_ = BLITZ_ALGORITHM.BLITZ_CONVOLUTION_XSMM_DIRECT →
      ((∃ msg, Conv.InitImpl BLITZ_NUM_THREADS self input_shape
          = Except.error (InitFailure.fatal msg)) ↔
        (self.padding_height_ ≠ 0 ∨ self.padding_width_ ≠ 0)) ∧
      ((self.padding_height_ ≠ 0 ∨ self.padding_width_ ≠ 0) →
        Conv.InitImpl BLITZ_NUM_THREADS self input_shape = Except.error
          (InitFailure.fatal "xsmm kernel do not support backward phase for padding > 0")) ∧
      (1 ≤ self.stride_height_ → 1 ≤ self.stride_width_ →
        ((∃ failure, Conv.InitImpl BLITZ_NUM_THREADS self input_shape
            = Except.error failure) ↔
          (self.padding_height_ ≠ 0 ∨ self.padding_width_ ≠ 0)))) ∧
    (self.algorithm_ ≠ BLITZ_ALGORITHM.BLITZ_CONVOLUTION_XSMM_DIRECT →
      (∀ msg, Conv.InitImpl BLITZ_NUM_THREADS self input_shape
          ≠ Except.error (InitFailure.fatal msg)) ∧
      (1 ≤ self.stride_height_ → 1 ≤ self.stride_width_ →
        ∃ t, Conv.InitImpl BLITZ_NUM_THREADS self input_shape = Except.ok t)) ∧
    (Conv.InitImpl BLITZ_NUM_THREADS self input_shape
        = Except.error InitFailure.division_by_zero ↔
      (self.stride_height_ = 0 ∨ self.stride_width_ = 0) ∧
        ¬ (self.algorithm_ = BLITZ_ALGORITHM.BLITZ_CONVOLUTION_XSMM_DIRECT ∧
          (self.padding_height_ ≠ 0 ∨ self.padding_width_ ≠ 0))) := by
  have hstride : (self.stride_height_ = 0 ∨ self.stride_width_ = 0) ∨
      (self.stride_height_ ≠ 0 ∧ self.stride_width_ ≠ 0) := by
    by_cases h : self.stride_height_ = 0
    · exact Or.inl (Or.inl h)
    · by_cases h' : self.stride_width_ = 0
      · exact Or.inl (Or.inr h')
      · exact Or.inr ⟨h, h'⟩
  refine ⟨fun halg => ?_, fun halg => ?_, ?_⟩
  · by_cases hp : self.padding_height_ ≠ 0 ∨ self.padding_width_ ≠ 0
    · have hfatal := Conv.InitImpl_fatal_of_xsmm BLITZ_NUM_THREADS self input_shape halg hp
      exact ⟨⟨fun _ => hp, fun _ => ⟨_, hfatal⟩⟩, fun _ => hfatal,
        fun _ _ => ⟨fun _ => hp, fun _ => ⟨_, hfatal⟩⟩⟩
    · refine ⟨⟨fun ⟨msg, h⟩ => ?_, fun h => absurd h hp⟩, fun h => absurd h hp,
        fun hsh hsw => ⟨fun ⟨failure, h⟩ => ?_, fun h => absurd h hp⟩⟩
      · rcases hstride with h0 | ⟨hsh, hsw⟩
        · rw [Conv.InitImpl_div_of_xsmm BLITZ_NUM_THREADS self input_shape halg hp h0] at h
          cases h
        · obtain ⟨t, ht, _⟩ :=
            Conv.InitImpl_ok_of_xsmm BLITZ_NUM_THREADS self input_shape halg hp hsh hsw
          rw [ht] at h
          cases h
      · obtain ⟨t, ht, _⟩ :=
          Conv.InitImpl_ok_of_xsmm BLITZ_NUM_THREADS self input_shape halg hp
            (Nat.pos_iff_ne_zero.mp hsh) (Nat.pos_iff_ne_zero.mp hsw)
        rw [ht] at h
        cases h
  · refine ⟨fun msg h => ?_, fun hsh hsw => ?_⟩
    · rcases hstride with h0 | ⟨hsh, hsw⟩
      · rw [Conv.InitImpl_div_of_not_xsmm BLITZ_NUM_THREADS self input_shape halg h0] at h
        cases h
      · obtain ⟨t, ht, _⟩ :=
          Conv.InitImpl_ok_of_not_xsmm BLITZ_NUM_THREADS self input_shape halg hsh hsw
        rw [ht] at h
        cases h
    · obtain ⟨t, ht, _⟩ :=
        Conv.InitImpl_ok_of_not_xsmm BLITZ_NUM_THREADS self input_shape halg
          (Nat.pos_iff_ne_zero.mp hsh) (Nat.pos_iff_ne_zero.mp hsw)
      exact ⟨t, ht⟩
  · constructor
    · intro h
      by_cases halg : self.algorithm_ = BLITZ_ALGORITHM.BLITZ_CONVOLUTION_XSMM_DIRECT
      · by_cases hp : self.padding_height_ ≠ 0 ∨ self.padding_width_ ≠ 0
        · rw [Conv.InitImpl_fatal_of_xsmm BLITZ_NUM_THREADS self input_shape halg hp] at h
          cases h
        · rcases hstride with h0 | ⟨hsh, hsw⟩
          · exact ⟨h0, fun hc => hp hc.2⟩
          · obtain ⟨t, ht, _⟩ :=
              Conv.InitImpl_ok_of_xsmm BLITZ_NUM_THREADS self input_shape halg hp hsh hsw
            rw [ht] at h
            cases h
      · rcases hstride with h0 | ⟨hsh, hsw⟩
        · exact ⟨h0, fun hc => halg hc.1⟩
        · obtain ⟨t, ht, _⟩ :=
            Conv.InitImpl_ok_of_not_xsmm BLITZ_NUM_THREADS self input_shape halg hsh hsw
          rw [ht] at h
          cases h
    · rintro ⟨h0, hnot⟩
      by_cases halg : self.algorithm_ = BLITZ_ALGORITHM.BLITZ_CONVOLUTION_XSMM_DIRECT
      · exact Conv.InitImpl_div_of_xsmm BLITZ_NUM_THREADS self input_shape halg
          (fun hp => hnot ⟨halg, hp⟩) h0
      · exact Conv.InitImpl_div_of_not_xsmm BLITZ_NUM_THREADS self input_shape halg h0


/-- C15, counterexample.  Input `(2, 3, 5, 5)`, filter `(4, 3, 3, 3)`, padding
`(1, 2^63)`, stride `(1, 1)`, algorithm `SASS_GEMM`: the filter fits the padded input and
`Conv::InitImpl` completes, but in `size_t` the padded width `5 + 2 * 2^63` wraps to 5, so the
width it builds is `(5 - 3) / 1 + 1 = 3`, not the value `2^64 + 3` of the standard
formula. -/
theorem Conv.InitImpl_extent_wraps_at_large_padding :
    3 ≤ 5 + 2 * 2 ^ 63 ∧
    Conv.InitImpl 1
        { filter_shape_ := ⟨4, 3, 3, 3, BLITZ_DATA_LAYOUT.BLITZ_FILTER_KCRS⟩
          padding_height_ := 1, padding_width_ := 2 ^ 63
          stride_height_ := 1, stride_width_ := 1
          algorithm_ := BLITZ_ALGORITHM.BLITZ_CONVOLUTION_SASS_GEMM }
        ⟨2, 3, 5, 5, BLITZ_DATA_LAYOUT.BLITZ_BUFFER_NCHW⟩
      = Except.ok
          { forward_output_ := ⟨2, 4, 5, 3, BLITZ_DATA_LAYOUT.BLITZ_BUFFER_NCHW⟩
            backward_output_ := ⟨2, 3, 5, 5, BLITZ_DATA_LAYOUT.BLITZ_BUFFER_NCHW⟩
            weight_ := ⟨4, 3, 3, 3, BLITZ_DATA_LAYOUT.BLITZ_FILTER_KCRS⟩
            update_ := ⟨4, 3, 3, 3, BLITZ_DATA_LAYOUT.BLITZ_FILTER_KCRS⟩
            workspace_ := some 405 } ∧
    (5 + 2 * 2 ^ 63 - 3) / 1 + 1 = 2 ^ 64 + 3 ∧ 2 ^ 64 + 3 ≠ 3 := by
  refine ⟨by norm_num, ?_, by norm_num, by norm_num⟩
  rfl

/-- C15, amended.  Fused-direct output extent: whenever `Conv::InitImpl` completes on a
configuration with stride at least 1 whose filter fits the padded input and whose padded
extents do not overflow `size_t` (`in + 2*pad < 2^64 - 1`), the output extents satisfy the
standard formula `(in + 2*pad - filter) / stride + 1`, for any algorithm; with the algorithm
`XSMM_DIRECT` they are also `(in - filter) / stride + 1 + 2*pad`, the output-padding
variant. -/
theorem Conv.InitImpl_extent_formulas (BLITZ_NUM_THREADS : Nat) (self : Conv)
    (input_shape : Shape) (t : ConvTensors)
    (hok : Conv.InitImpl BLITZ_NUM_THREADS self input_shape = Except.ok t)
    (hsh : 1 ≤ self.stride_height_) (hsw : 1 ≤ self.stride_width_)
    (hH : self.filter_shape_.dim2 ≤ input_shape.dim2 + 2 * self.padding_height_)
    (hW : self.filter_shape_.dim3 ≤ input_shape.dim3 + 2 * self.padding_width_)
    (hHno : input_shape.dim2 + 2 * self.padding_height_ < 2 ^ 64 - 1)
    (hWno : input_shape.dim3 + 2 * self.padding_width_ < 2 ^ 64 - 1) :
    (t.forward_output_.dim2 =
        (input_shape.dim2 + 2 * self.padding_height_ - self.filter_shape_.dim2) /
          self.stride_height_ + 1 ∧
      t.forward_output_.dim3 =
        (input_shape.dim3 + 2 * self.padding_width_ - self.filter_shape_.dim3) /
          self.stride_width_ + 1) ∧
    (self.algorithm_ = BLITZ_ALGORITHM.BLITZ_CONVOLUTION_XSMM_DIRECT →
      t.forward_output_.dim2 =
        (input_shape.dim2 - self.filter_shape_.dim2) / self.stride_height_ + 1 +
          2 * self.padding_height_ ∧
      t.forward_output_.dim3 =
        (input_shape.dim3 - self.filter_shape_.dim3) / self.stride_width_ + 1 +
          2 * self.padding_width_) := by
  by_cases halg : self.algorithm_ = BLITZ_ALGORITHM.BLITZ_CONVOLUTION_XSMM_DIRECT
  · obtain ⟨hp1, hp2, hshape⟩ :=
      Conv.InitImpl_xsmm_ok BLITZ_NUM_THREADS self input_shape t halg hok
    rw [hp1] at hH hHno
    rw [hp2] at hW hWno
    have e1 := extent_of_no_overflow input_shape.dim2 0 self.filter_shape_.dim2
      self.stride_height_ hH hHno
    have e2 := extent_of_no_overflow input_shape.dim3 0 self.filter_shape_.dim3
      self.stride_width_ hW hWno
    have z : size_t_mul 2 0 = 0 := rfl
    have a0 : ∀ a, a < 2 ^ 64 → size_t_add a 0 = a := fun a ha =>
      size_t_add_of_lt a 0 (by omega)
    simp only [Nat.mul_zero, Nat.add_zero] at e1 e2 hH hW hHno hWno
    rw [z, a0 _ (by omega)] at e1
    rw [z, a0 _ (by omega)] at e2
    have q1 : (input_shape.dim2 - self.filter_shape_.dim2) / self.stride_height_
        ≤ input_shape.dim2 - self.filter_shape_.dim2 := Nat.div_le_self _ _
    have q2 : (input_shape.dim3 - self.filter_shape_.dim3) / self.stride_width_
        ≤ input_shape.dim3 - self.filter_shape_.dim3 := Nat.div_le_self _ _
    rw [hp1, hp2, z, a0 _ (by rw [e1]; omega), a0 _ (by rw [e2]; omega), e1, e2] at hshape
    rw [hshape, hp1, hp2]
    exact ⟨⟨rfl, rfl⟩, fun _ => ⟨rfl, rfl⟩⟩
  · obtain ⟨t', h1, h2⟩ :=
      Conv.InitImpl_ok_of_not_xsmm BLITZ_NUM_THREADS self input_shape halg
        (Nat.pos_iff_ne_zero.mp hsh) (Nat.pos_iff_ne_zero.mp hsw)
    rw [hok] at h1
    cases h1
    rw [extent_of_no_overflow _ _ _ _ hH hHno, extent_of_no_overflow _ _ _ _ hW hWno] at h2
    rw [h2]
    exact ⟨⟨rfl, rfl⟩, fun h => absurd h halg⟩

/-- Witness for C15: fused-direct, input `(2, 3, 6, 5)`, filter `(4, 3, 3, 3)`, no padding,
stride `(2, 1)` gives the output extents `(6 - 3) / 2 + 1 = 2` and `(5 - 3) / 1 + 1 = 3`. -/
theorem Conv.InitImpl_extent_formulas_witness :
    Conv.InitImpl 4
        { filter_shape_ := ⟨4, 3, 3, 3, BLITZ_DATA_LAYOUT.BLITZ_FILTER_KCRS⟩
          padding_height_ := 0, padding_width_ := 0, stride_height_ := 2, stride_width_ := 1
          algorithm_ := BLITZ_ALGORITHM.BLITZ_CONVOLUTION_XSMM_DIRECT }
        ⟨2, 3, 6, 5, BLITZ_DATA_LAYOUT.BLITZ_BUFFER_NCHW⟩
      = Except.ok
          { forward_output_ := ⟨2, 4, 2, 3, BLITZ_DATA_LAYOUT.BLITZ_BUFFER_NCHW⟩
            backward_output_ := ⟨2, 3, 6, 5, BLITZ_DATA_LAYOUT.BLITZ_BUFFER_NCHW⟩
            weight_ := ⟨4, 3, 3, 3, BLITZ_DATA_LAYOUT.BLITZ_FILTER_KCRS⟩
            update_ := ⟨4, 3, 3, 3, BLITZ_DATA_LAYOUT.BLITZ_FILTER_KCRS⟩
            workspace_ := some 1080 } ∧
    ((2 : Nat) = (6 + 2 * 0 - 3) / 2 + 1 ∧ (3 : Nat) = (5 + 2 * 0 - 3) / 1 + 1) ∧
    (BLITZ_ALGORITHM.BLITZ_CONVOLUTION_XSMM_DIRECT
        = BLITZ_ALGORITHM.BLITZ_CONVOLUTION_XSMM_DIRECT →
      (2 : Nat) = (6 - 3) / 2 + 1 + 2 * 0 ∧ (3 : Nat) = (5 - 3) / 1 + 1 + 2 * 0) :=
  ⟨rfl, Conv.InitImpl_extent_formulas 4
    { filter_shape_ := ⟨4, 3, 3, 3, BLITZ_DATA_LAYOUT.BLITZ_FILTER_KCRS⟩
      padding_height_ := 0, padding_width_ := 0, stride_height_ := 2, stride_width_ := 1
      algorithm_ := BLITZ_ALGORITHM.BLITZ_CONVOLUTION_XSMM_DIRECT }
    ⟨2, 3, 6, 5, BLITZ_DATA_LAYOUT.BLITZ_BUFFER_NCHW⟩
    { forward_output_ := ⟨2, 4, 2, 3, BLITZ_DATA_LAYOUT.BLITZ_BUFFER_NCHW⟩
      backward_output_ := ⟨2, 3, 6, 5, BLITZ_DATA_LAYOUT.BLITZ_BUFFER_NCHW⟩
      weight_ := ⟨4, 3, 3, 3, BLITZ_DATA_LAYOUT.BLITZ_FILTER_KCRS⟩
      update_ := ⟨4, 3, 3, 3, BLITZ_DATA_LAYOUT.BLITZ_FILTER_KCRS⟩
      workspace_ := some 1080 }
    rfl (by decide) (by decide) (by decide) (by decide) (by norm_num) (by norm_num)⟩


/-! ## The write log of the unpack kernels -/

theorem forLoop_log_row (n : Nat) (l : List Nat) (p : Nat) :
    forLoop 0 n (fun _ (st : List Nat × Nat) => (st.1 ++ [st.2], st.2 + 1)) (l, p)
      = (l ++ List.range' p n, p + n) := by
  induction n with
  | zero => rw [forLoop_empty 0 0 (Nat.le_refl 0)]; simp
  | succ n ih =>
    rw [forLoop_succ_right 0 n (Nat.zero_le n), ih, List.range'_1_concat]
    simp [List.append_assoc, Nat.add_assoc]

theorem forLoop_log_rows (m n : Nat) (l : List Nat) (p : Nat) :
    forLoop 0 n (fun _ (st : List Nat × Nat) =>
        forLoop 0 m (fun _ (st : List Nat × Nat) => (st.1 ++ [st.2], st.2 + 1)) st) (l, p)
      = (l ++ List.range' p (n * m), p + n * m) := by
  induction n with
  | zero => rw [forLoop_empty 0 0 (Nat.le_refl 0)]; simp
  | succ n ih =>
    have e : List.range' p ((n + 1) * m)
        = List.range' p (n * m) ++ List.range' (p + n * m) m := by
      rw [List.range'_append_1, Nat.succ_mul, Nat.add_comm]
    rw [forLoop_succ_right 0 n (Nat.zero_le n), ih, forLoop_log_row, e, List.append_assoc,
      Nat.succ_mul, Nat.add_assoc]

/-- An unpack thread stores to the `R * S` consecutive indices that start at its base. -/
theorem unpackThreadWrites_eq (C H W R S Q ph pw sh sw c oh ow : Nat) :
    unpackThreadWrites C H W R S Q ph pw sh sw c oh ow
      = List.range' (((oh * Q + ow) * C + c) * (R * S)) (R * S) := by
  unfold unpackThreadWrites
  simp only [ite_self]
  rw [forLoop_log_rows, List.nil_append]
  have e : (oh * Q + ow) * R * S * C + c * R * S = ((oh * Q + ow) * C + c) * (R * S) := by
    ring
  rw [e]

theorem mem_block_iff (a L k : Nat) :
    k ∈ List.range' (a * L) L ↔ (k / L = a ∧ 0 < L) := by
  rw [List.mem_range'_1]
  constructor
  · rintro ⟨h1, h2⟩
    obtain ⟨e, _⟩ := div_mod_of_block L a (k - a * L) (by omega)
    have hk : a * L + (k - a * L) = k := by omega
    rw [hk] at e
    exact ⟨e, by omega⟩
  · rintro ⟨h1, h2⟩
    obtain ⟨a1, a2, _⟩ := block_of_div_mod L k h2
    rw [h1] at a1 a2
    exact ⟨a1, a2⟩

theorem wid_injective (C Q c oh ow c' oh' ow' : Nat) (hc : c < C) (hc' : c' < C)
    (how : ow < Q) (how' : ow' < Q)
    (h : (oh * Q + ow) * C + c = (oh' * Q + ow') * C + c') :
    c = c' ∧ oh = oh' ∧ ow = ow' := by
  obtain ⟨e1, e2⟩ := div_mod_of_block C (oh * Q + ow) c hc
  obtain ⟨e3, e4⟩ := div_mod_of_block C (oh' * Q + ow') c' hc'
  obtain ⟨e5, e6⟩ := div_mod_of_block Q oh ow how
  obtain ⟨e7, e8⟩ := div_mod_of_block Q oh' ow' how'
  have hq : oh * Q + ow = oh' * Q + ow' := by rw [← e1, ← e3, h]
  exact ⟨by rw [← e2, ← e4, h], by rw [← e5, ← e7, hq], by rw [← e6, ← e8, hq]⟩

/-- Two threads of the grid with different coordinates store to disjoint index sets. -/
theorem unpackThreadWrites_disjoint (C H W R S Q ph pw sh sw : Nat)
    (c oh ow c' oh' ow' : Nat) (hc : c < C) (hc' : c' < C) (how : ow < Q) (how' : ow' < Q)
    (hne : (c, oh, ow) ≠ (c', oh', ow')) (k : Nat)
    (hk : k ∈ unpackThreadWrites C H W R S Q ph pw sh sw c oh ow) :
    k ∉ unpackThreadWrites C H W R S Q ph pw sh sw c' oh' ow' := by
  rw [unpackThreadWrites_eq, mem_block_iff] at hk ⊢
  rintro ⟨h', _⟩
  obtain ⟨e1, e2, e3⟩ := wid_injective C Q c oh ow c' oh' ow' hc hc' how how'
    (hk.1.symm.trans h')
  exact hne (by rw [e1, e2, e3])

/-- The write log of any duplicate-free list of threads whose coordinates are distinct, stay
inside the `C × P × Q` grid and reach every point of it is a rearrangement of
`0, 1, ..., P*Q*C*(R*S) - 1`. -/
theorem unpack_writes_perm {ι : Type} (ws : List ι) (coord : ι → Nat × Nat × Nat)
    (C P Q : Nat) (hnodup : ws.Nodup)
    (hinj : ∀ w ∈ ws, ∀ w' ∈ ws, coord w = coord w' → w = w')
    (hin : ∀ w ∈ ws, (coord w).1 < C ∧ (coord w).2.1 < P ∧ (coord w).2.2 < Q)
    (hall : ∀ c oh ow, c < C → oh < P → ow < Q → ∃ w ∈ ws, coord w = (c, oh, ow))
    (H W R S ph pw sh sw : Nat) :
    (ws.flatMap fun w => unpackThreadWrites C H W R S Q ph pw sh sw
        (coord w).1 (coord w).2.1 (coord w).2.2).Perm (List.range (P * Q * C * (R * S))) := by
  apply (List.perm_ext_iff_of_nodup ?_ (List.nodup_range _)).mpr
  · intro k
    rw [List.mem_flatMap, List.mem_range]
    constructor
    · rintro ⟨w, hw, hk⟩
      obtain ⟨h1, h2, h3⟩ := hin w hw
      rw [unpackThreadWrites_eq, mem_block_iff] at hk
      have ht : k / (R * S) < P * Q * C := by
        rw [hk.1]
        exact digits_lt _ _ _ _ (digits_lt _ _ _ _ h2 h3) h1
      exact (Nat.div_lt_iff_lt_mul hk.2).mp ht
    · intro hk
      have hL : 0 < R * S := by
        rcases Nat.eq_zero_or_pos (R * S) with h0 | h0
        · rw [h0] at hk; simp at hk
        · exact h0
      have ht : k / (R * S) < P * Q * C := (Nat.div_lt_iff_lt_mul hL).mpr hk
      have hC : 0 < C := by
        rcases Nat.eq_zero_or_pos C with h0 | h0
        · rw [h0] at ht; simp at ht
        · exact h0
      have hq : k / (R * S) / C < P * Q := (Nat.div_lt_iff_lt_mul hC).mpr ht
      have hQ : 0 < Q := by
        rcases Nat.eq_zero_or_pos Q with h0 | h0
        · rw [h0] at hq; simp at hq
        · exact h0
      have hoh : k / (R * S) / C / Q < P := (Nat.div_lt_iff_lt_mul hQ).mpr hq
      obtain ⟨w, hw, hcw⟩ := hall (k / (R * S) % C) (k / (R * S) / C / Q)
        (k / (R * S) / C % Q) (Nat.mod_lt _ hC) hoh (Nat.mod_lt _ hQ)
      refine ⟨w, hw, ?_⟩
      rw [unpackThreadWrites_eq, mem_block_iff, hcw]
      refine ⟨?_, hL⟩
      have e1 := Nat.div_add_mod (k / (R * S)) C
      have e2 := Nat.div_add_mod (k / (R * S) / C) Q
      rw [Nat.mul_comm] at e1 e2
      simp only
      rw [e2, e1]
  · rw [List.nodup_flatMap]
    refine ⟨fun w _ => ?_, ?_⟩
    · rw [unpackThreadWrites_eq]
      exact List.nodup_range' _ _
    · apply hnodup.pairwise_of_forall_ne
      intro w hw w' hw' hne
      obtain ⟨h1, _, h3⟩ := hin w hw
      obtain ⟨h1', _, h3'⟩ := hin w' hw'
      intro k hk hk'
      exact unpackThreadWrites_disjoint C H W R S Q ph pw sh sw _ _ _ _ _ _ h1 h1' h3 h3'
        (fun e => hne (hinj w hw w' hw' e)) k hk hk'

theorem nodup_launchThreads (gx bx b_y : Nat) : (launchThreads gx bx b_y).Nodup := by
  unfold launchThreads
  rw [List.nodup_flatMap]
  refine ⟨fun c _ => ?_, ?_⟩
  · rw [List.nodup_flatMap]
    refine ⟨fun x _ => ?_, ?_⟩
    · exact (List.nodup_range _).map (fun y y' h => by simpa using h)
    · apply (List.nodup_range _).pairwise_of_forall_ne
      intro x _ x' _ hne t ht ht'
      rw [List.mem_map] at ht ht'
      obtain ⟨y, _, rfl⟩ := ht
      obtain ⟨y', _, h⟩ := ht'
      simp only [Prod.mk.injEq] at h
      exact hne h.2.1.symm
  · apply (List.nodup_range _).pairwise_of_forall_ne
    intro c _ c' _ hne t ht ht'
    rw [List.mem_flatMap] at ht ht'
    obtain ⟨x, _, ht⟩ := ht
    obtain ⟨x', _, ht'⟩ := ht'
    rw [List.mem_map] at ht ht'
    obtain ⟨y, _, rfl⟩ := ht
    obtain ⟨y', _, h⟩ := ht'
    simp only [Prod.mk.injEq] at h
    exact hne h.1.symm

theorem GPUUnpack1024KernelWrites_perm (C P Q H W R S ph pw sh sw : Nat) :
    (GPUUnpack1024KernelWrites C P Q H W R S ph pw sh sw).Perm
      (List.range (P * Q * C * (R * S))) := by
  unfold GPUUnpack1024KernelWrites
  exact unpack_writes_perm (launchThreads C P Q) (fun t => t) C P Q
    (nodup_launchThreads C P Q) (fun _ _ _ _ h => h)
    (fun w hw => (mem_launchThreads C P Q w).mp hw)
    (fun c oh ow hc hoh how => ⟨(c, oh, ow), (mem_launchThreads C P Q _).mpr ⟨hc, hoh, how⟩, rfl⟩)
    H W R S ph pw sh sw

theorem decode_range (C P Q index : Nat) (hlt : index < C * P * Q) :
    index / Q / P < C ∧ index / Q % P < P ∧ index % Q < Q := by
  have hQ : 0 < Q := by
    rcases Nat.eq_zero_or_pos Q with h0 | h0
    · rw [h0] at hlt; simp at hlt
    · exact h0
  have h1 : index / Q < C * P := (Nat.div_lt_iff_lt_mul hQ).mpr hlt
  have hP : 0 < P := by
    rcases Nat.eq_zero_or_pos P with h0 | h0
    · rw [h0] at h1; simp at h1
    · exact h0
  exact ⟨(Nat.div_lt_iff_lt_mul hP).mpr h1, Nat.mod_lt _ hP, Nat.mod_lt _ hQ⟩

theorem decode_injective (P Q index index' : Nat)
    (h : (index / Q / P, index / Q % P, index % Q)
      = (index' / Q / P, index' / Q % P, index' % Q)) : index = index' := by
  simp only [Prod.mk.injEq] at h
  obtain ⟨h1, h2, h3⟩ := h
  have a1 := Nat.div_add_mod index Q
  have a2 := Nat.div_add_mod (index / Q) P
  have b1 := Nat.div_add_mod index' Q
  have b2 := Nat.div_add_mod (index' / Q) P
  rw [h1, h2] at a2
  have hq : index / Q = index' / Q := a2.symm.trans b2
  rw [hq, h3] at a1
  exact a1.symm.trans b1

theorem GPUUnpackKernelWrites_perm (C P Q H W R S ph pw sh sw : Nat) :
    (GPUUnpackKernelWrites (C * P * Q) C H W R S P Q ph pw sh sw).Perm
      (List.range (P * Q * C * (R * S))) := by
  unfold GPUUnpackKernelWrites
  refine unpack_writes_perm (List.range (C * P * Q))
    (fun index => (index / Q / P, index / Q % P, index % Q)) C P Q
    (List.nodup_range _) (fun w _ w' _ h => decode_injective P Q w w' h)
    (fun index hidx => decode_range C P Q index (List.mem_range.mp hidx)) ?_
    H W R S ph pw sh sw
  intro c oh ow hc hoh how
  refine ⟨(c * P + oh) * Q + ow, List.mem_range.mpr ?_, ?_⟩
  · exact digits_lt _ _ _ _ (digits_lt _ _ _ _ hc hoh) how
  · obtain ⟨e1, e2⟩ := div_mod_of_block Q (c * P + oh) ow how
    obtain ⟨e3, e4⟩ := div_mod_of_block P c oh hoh
    simp only [e1, e2, e3, e4]

theorem Unpack2DFuncWrites_perm (C H W R S P Q ph pw sh sw : Nat) :
    (Unpack2DFuncWrites C H W R S P Q ph pw sh sw).Perm
      (List.range (P * Q * C * (R * S))) := by
  unfold Unpack2DFuncWrites
  split
  · exact GPUUnpack1024KernelWrites_perm C P Q H W R S ph pw sh sw
  · exact GPUUnpackKernelWrites_perm C P Q H W R S ph pw sh sw


/-! ## Claims about the destination writes and the workspace -/

/-- C17. Unpack workers write disjoint regions that tile the destination: in one unpack
invocation two workers of the grid with different `(c, oh, ow)` never store to the same
destination index, and the indices stored to by all workers of a launch (small kernel, general
kernel, or the kernel `Unpack2DFunc` selects) are a rearrangement of `0, ..., P*Q*C*R*S - 1`,
so every index of that range is written exactly once and no other index is written. -/
theorem unpack_workers_tile_destination (C H W R S P Q ph pw sh sw : Nat) :
    (∀ c oh ow c' oh' ow', c < C → c' < C → oh < P → oh' < P → ow < Q → ow' < Q →
      (c, oh, ow) ≠ (c', oh', ow') →
      ∀ k, k ∈ unpackThreadWrites C H W R S Q ph pw sh sw c oh ow →
        k ∉ unpackThreadWrites C H W R S Q ph pw sh sw c' oh' ow') ∧
    (GPUUnpack1024KernelWrites C P Q H W R S ph pw sh sw).Perm
      (List.range (P * Q * C * R * S)) ∧
    (GPUUnpackKernelWrites (C * P * Q) C H W R S P Q ph pw sh sw).Perm
      (List.range (P * Q * C * R * S)) ∧
    (Unpack2DFuncWrites C H W R S P Q ph pw sh sw).Perm
      (List.range (P * Q * C * R * S)) := by
  rw [Nat.mul_assoc (P * Q * C) R S]
  exact ⟨fun c oh ow c' oh' ow' hc hc' _ _ how how' hne k hk =>
      unpackThreadWrites_disjoint C H W R S Q ph pw sh sw c oh ow c' oh' ow' hc hc' how how'
        hne k hk,
    GPUUnpack1024KernelWrites_perm C P Q H W R S ph pw sh sw,
    GPUUnpackKernelWrites_perm C P Q H W R S ph pw sh sw,
    Unpack2DFuncWrites_perm C H W R S P Q ph pw sh sw⟩

/-- C18, counterexample.  Input `(1, 16, 1, 1)`, filter `(1, 16, 1, 1)`, padding
`(2^29, 2^29)`, stride `(1, 1)`, algorithm `BLAS_GEMM`: the output extents are
`P = Q = 2^30 + 1` and `C*R*S*P*Q = 2^64 + 2^35 + 16`, which is the number of elements one
`Unpack2DFunc` call writes; the workspace `Conv::InitImpl` sizes has only `2^35 + 16`
elements, the product wrapped in `size_t`, and the index `2^35 + 16` is written. -/
theorem Conv.InitImpl_workspace_size_wraps :
    Conv.InitImpl 1
        { filter_shape_ := ⟨1, 16, 1, 1, BLITZ_DATA_LAYOUT.BLITZ_FILTER_KCRS⟩
          padding_height_ := 2 ^ 29, padding_width_ := 2 ^ 29
          stride_height_ := 1, stride_width_ := 1
          algorithm_ := BLITZ_ALGORITHM.BLITZ_CONVOLUTION_BLAS_GEMM }
        ⟨1, 16, 1, 1, BLITZ_DATA_LAYOUT.BLITZ_BUFFER_NCHW⟩
      = Except.ok
          { forward_output_ := ⟨1, 1, 2 ^ 30 + 1, 2 ^ 30 + 1,
              BLITZ_DATA_LAYOUT.BLITZ_BUFFER_NCHW⟩
            backward_output_ := ⟨1, 16, 1, 1, BLITZ_DATA_LAYOUT.BLITZ_BUFFER_NCHW⟩
            weight_ := ⟨1, 16, 1, 1, BLITZ_DATA_LAYOUT.BLITZ_FILTER_KCRS⟩
            update_ := ⟨1, 16, 1, 1, BLITZ_DATA_LAYOUT.BLITZ_FILTER_KCRS⟩
            workspace_ := some (2 ^ 35 + 16) } ∧
    16 * 1 * 1 * (2 ^ 30 + 1) * (2 ^ 30 + 1) = 2 ^ 64 + 2 ^ 35 + 16 ∧
    (Unpack2DFuncWrites 16 1 1 1 1 (2 ^ 30 + 1) (2 ^ 30 + 1) (2 ^ 29) (2 ^ 29) 1 1).length
      = 2 ^ 64 + 2 ^ 35 + 16 ∧
    2 ^ 35 + 16 ∈
      Unpack2DFuncWrites 16 1 1 1 1 (2 ^ 30 + 1) (2 ^ 30 + 1) (2 ^ 29) (2 ^ 29) 1 1 := by
  have hperm := Unpack2DFuncWrites_perm 16 1 1 1 1 (2 ^ 30 + 1) (2 ^ 30 + 1)
    (2 ^ 29) (2 ^ 29) 1 1
  refine ⟨rfl, by norm_num, ?_, ?_⟩
  · rw [hperm.length_eq, List.length_range]
    norm_num
  · rw [hperm.mem_iff, List.mem_range]
    norm_num

/-- C18, amended.  The workspace `Conv::InitImpl` sizes, with `P`, `Q` the output extents it
computes, holds the element count of the claim taken modulo `2^64`, and the count itself when
this does not overflow `size_t`: for `SASS_GEMM` and `BLAS_GEMM` with `C*R*S*P*Q < 2^64` it
has `C*R*S*P*Q` elements, which is the number of elements one `Unpack2DFunc` call writes,
every written index being below it; for `BLAS_GEMM_BATCH` and `XSMM_DIRECT` with
`BLITZ_NUM_THREADS * (C*R*S*P*Q + K*C*R*S) < 2^64` it has that many elements; for
`SASS_DIRECT` with `input.size + output.size + weight.size < 2^64` it has that many
elements. -/
theorem Conv.InitImpl_workspace_size (BLITZ_NUM_THREADS : Nat) (self : Conv)
    (input_shape : Shape) (t : ConvTensors)
    (hok : Conv.InitImpl BLITZ_NUM_THREADS self input_shape = Except.ok t) :
    ((self.algorithm_ = BLITZ_ALGORITHM.BLITZ_CONVOLUTION_SASS_GEMM ∨
        self.algorithm_ = BLITZ_ALGORITHM.BLITZ_CONVOLUTION_BLAS_GEMM) →
      t.workspace_ = some ((input_shape.dim1 * self.filter_shape_.dim2 *
        self.filter_shape_.dim3 * t.forward_output_.dim2 * t.forward_output_.dim3)
          % 2 ^ 64) ∧
      (input_shape.dim1 * self.filter_shape_.dim2 * self.filter_shape_.dim3 *
          t.forward_output_.dim2 * t.forward_output_.dim3 < 2 ^ 64 →
        t.workspace_ = some (input_shape.dim1 * self.filter_shape_.dim2 *
          self.filter_shape_.dim3 * t.forward_output_.dim2 * t.forward_output_.dim3) ∧
        (Unpack2DFuncWrites input_shape.dim1 input_shape.dim2 input_shape.dim3
            self.filter_shape_.dim2 self.filter_shape_.dim3
            t.forward_output_.dim2 t.forward_output_.dim3
            self.padding_height_ self.padding_width_
            self.stride_height_ self.stride_width_).length
          = input_shape.dim1 * self.filter_shape_.dim2 * self.filter_shape_.dim3 *
              t.forward_output_.dim2 * t.forward_output_.dim3 ∧
        ∀ k, k ∈ Unpack2DFuncWrites input_shape.dim1 input_shape.dim2 input_shape.dim3
            self.filter_shape_.dim2 self.filter_shape_.dim3
            t.forward_output_.dim2 t.forward_output_.dim3
            self.padding_height_ self.padding_width_
            self.stride_height_ self.stride_width_ →
          k < input_shape.dim1 * self.filter_shape_.dim2 * self.filter_shape_.dim3 *
              t.forward_output_.dim2 * t.forward_output_.dim3)) ∧
    ((self.algorithm_ = BLITZ_ALGORITHM.BLITZ_CONVOLUTION_BLAS_GEMM_BATCH ∨
        self.algorithm_ = BLITZ_ALGORITHM.BLITZ_CONVOLUTION_XSMM_DIRECT) →
      t.workspace_ = some ((BLITZ_NUM_THREADS *
        (input_shape.dim1 * self.filter_shape_.dim2 * self.filter_shape_.dim3 *
            t.forward_output_.dim2 * t.forward_output_.dim3 +
          self.filter_shape_.dim0 * input_shape.dim1 * self.filter_shape_.dim2 *
            self.filter_shape_.dim3)) % 2 ^ 64) ∧
      (BLITZ_NUM_THREADS *
          (input_shape.dim1 * self.filter_shape_.dim2 * self.filter_shape_.dim3 *
              t.forward_output_.dim2 * t.forward_output_.dim3 +
            self.filter_shape_.dim0 * input_shape.dim1 * self.filter_shape_.dim2 *
              self.filter_shape_.dim3) < 2 ^ 64 →
        t.workspace_ = some (BLITZ_NUM_THREADS *
          (input_shape.dim1 * self.filter_shape_.dim2 * self.filter_shape_.dim3 *
              t.forward_output_.dim2 * t.forward_output_.dim3 +
            self.filter_shape_.dim0 * input_shape.dim1 * self.filter_shape_.dim2 *
              self.filter_shape_.dim3)))) ∧
    (self.algorithm_ = BLITZ_ALGORITHM.BLITZ_CONVOLUTION_SASS_DIRECT →
      t.workspace_ = some ((input_shape.size + t.forward_output_.size + t.weight_.size)
        % 2 ^ 64) ∧
      (input_shape.size + t.forward_output_.size + t.weight_.size < 2 ^ 64 →
        t.workspace_
          = some (input_shape.size + t.forward_output_.size + t.weight_.size))) := by
  obtain ⟨_, _, _, _, _, _, hws⟩ :=
    Conv.InitImpl_ok_tensors BLITZ_NUM_THREADS self input_shape t hok
  refine ⟨fun halg => ?_, fun halg => ?_, fun halg => ?_⟩
  · have hperm := Unpack2DFuncWrites_perm input_shape.dim1 input_shape.dim2 input_shape.dim3
      self.filter_shape_.dim2 self.filter_shape_.dim3
      t.forward_output_.dim2 t.forward_output_.dim3
      self.padding_height_ self.padding_width_ self.stride_height_ self.stride_width_
    have hsize : t.forward_output_.dim2 * t.forward_output_.dim3 * input_shape.dim1 *
        (self.filter_shape_.dim2 * self.filter_shape_.dim3)
        = input_shape.dim1 * self.filter_shape_.dim2 * self.filter_shape_.dim3 *
            t.forward_output_.dim2 * t.forward_output_.dim3 := by ring
    rw [hsize] at hperm
    have hmod : t.workspace_ = some ((input_shape.dim1 * self.filter_shape_.dim2 *
        self.filter_shape_.dim3 * t.forward_output_.dim2 * t.forward_output_.dim3)
          % 2 ^ 64) := by
      rw [hws, if_pos halg, size_t_mul5]
    refine ⟨hmod, fun hno => ⟨?_, ?_, fun k hk => ?_⟩⟩
    · rw [hmod, Nat.mod_eq_of_lt hno]
    · rw [hperm.length_eq, List.length_range]
    · exact List.mem_range.mp (hperm.mem_iff.mp hk)
  · have hne : ¬ (self.algorithm_ = BLITZ_ALGORITHM.BLITZ_CONVOLUTION_SASS_GEMM ∨
        self.algorithm_ = BLITZ_ALGORITHM.BLITZ_CONVOLUTION_BLAS_GEMM) := by
      rintro (h | h) <;> rcases halg with h' | h' <;> rw [h] at h' <;> cases h'
    have hmod : t.workspace_ = some ((BLITZ_NUM_THREADS *
        (input_shape.dim1 * self.filter_shape_.dim2 * self.filter_shape_.dim3 *
            t.forward_output_.dim2 * t.forward_output_.dim3 +
          self.filter_shape_.dim0 * input_shape.dim1 * self.filter_shape_.dim2 *
            self.filter_shape_.dim3)) % 2 ^ 64) := by
      rw [hws, if_neg hne, if_pos halg, size_t_mul6, size_t_mul5, size_t_add_mod]
      congr 2
      ring
    exact ⟨hmod, fun hno => by rw [hmod, Nat.mod_eq_of_lt hno]⟩
  · have hne1 : ¬ (self.algorithm_ = BLITZ_ALGORITHM.BLITZ_CONVOLUTION_SASS_GEMM ∨
        self.algorithm_ = BLITZ_ALGORITHM.BLITZ_CONVOLUTION_BLAS_GEMM) := by
      rintro (h | h) <;> rw [h] at halg <;> cases halg
    have hne2 : ¬ (self.algorithm_ = BLITZ_ALGORITHM.BLITZ_CONVOLUTION_BLAS_GEMM_BATCH ∨
        self.algorithm_ = BLITZ_ALGORITHM.BLITZ_CONVOLUTION_XSMM_DIRECT) := by
      rintro (h | h) <;> rw [h] at halg <;> cases halg
    have hmod : t.workspace_ = some
        ((input_shape.size + t.forward_output_.size + t.weight_.size) % 2 ^ 64) := by
      rw [hws, if_neg hne1, if_neg hne2, if_pos halg]
      unfold size_t_add
      rw [Nat.mod_add_mod]
    exact ⟨hmod, fun hno => by rw [hmod, Nat.mod_eq_of_lt hno]⟩

/-- Witness for C18: `BLAS_GEMM` on input `(2, 3, 5, 5)`, filter `(4, 3, 3, 3)`, padding 1,
stride 1: the output extents are `5 × 5` and the workspace has `3*3*3*5*5 = 675` elements. -/
theorem Conv.InitImpl_workspace_size_witness :
    Conv.InitImpl 4
        { filter_shape_ := ⟨4, 3, 3, 3, BLITZ_DATA_LAYOUT.BLITZ_FILTER_KCRS⟩
          padding_height_ := 1, padding_width_ := 1, stride_height_ := 1, stride_width_ := 1
          algorithm_ := BLITZ_ALGORITHM.BLITZ_CONVOLUTION_BLAS_GEMM }
        ⟨2, 3, 5, 5, BLITZ_DATA_LAYOUT.BLITZ_BUFFER_NCHW⟩
      = Except.ok
          { forward_output_ := ⟨2, 4, 5, 5, BLITZ_DATA_LAYOUT.BLITZ_BUFFER_NCHW⟩
            backward_output_ := ⟨2, 3, 5, 5, BLITZ_DATA_LAYOUT.BLITZ_BUFFER_NCHW⟩
            weight_ := ⟨4, 3, 3, 3, BLITZ_DATA_LAYOUT.BLITZ_FILTER_KCRS⟩
            update_ := ⟨4, 3, 3, 3, BLITZ_DATA_LAYOUT.BLITZ_FILTER_KCRS⟩
            workspace_ := some 675 } ∧
    (some 675 = some (3 * 3 * 3 * 5 * 5) ∧
      (Unpack2DFuncWrites 3 5 5 3 3 5 5 1 1 1 1).length = 3 * 3 * 3 * 5 * 5 ∧
      ∀ k, k ∈ Unpack2DFuncWrites 3 5 5 3 3 5 5 1 1 1 1 → k < 3 * 3 * 3 * 5 * 5) :=
  ⟨rfl, ((Conv.InitImpl_workspace_size 4
    { filter_shape_ := ⟨4, 3, 3, 3, BLITZ_DATA_LAYOUT.BLITZ_FILTER_KCRS⟩
      padding_height_ := 1, padding_width_ := 1, stride_height_ := 1, stride_width_ := 1
      algorithm_ := BLITZ_ALGORITHM.BLITZ_CONVOLUTION_BLAS_GEMM }
    ⟨2, 3, 5, 5, BLITZ_DATA_LAYOUT.BLITZ_BUFFER_NCHW⟩
    { forward_output_ := ⟨2, 4, 5, 5, BLITZ_DATA_LAYOUT.BLITZ_BUFFER_NCHW⟩
      backward_output_ := ⟨2, 3, 5, 5, BLITZ_DATA_LAYOUT.BLITZ_BUFFER_NCHW⟩
      weight_ := ⟨4, 3, 3, 3, BLITZ_DATA_LAYOUT.BLITZ_FILTER_KCRS⟩
      update_ := ⟨4, 3, 3, 3, BLITZ_DATA_LAYOUT.BLITZ_FILTER_KCRS⟩
      workspace_ := some 675 } rfl).1 (Or.inr rfl)).2 (by norm_num)⟩


/-! ## Bounds-checked reads: the out-of-range branch is never taken -/

theorem to_int_bounds (x : Int) : -2 ^ 31 ≤ to_int x ∧ to_int x < 2 ^ 31 := by
  unfold to_int
  omega

theorem to_int_add_of_nonneg (a : Int) (i : Nat) (ha1 : -2 ^ 31 ≤ a) (ha2 : a < 2 ^ 31)
    (hi : i ≤ 2 ^ 31) (h0 : 0 ≤ to_int (a + i)) : to_int (a + i) = a + i := by
  unfold to_int at h0 ⊢
  omega

/-- A cell that passes the two range tests of the unpack thread is read at a flat index inside
the input buffer: with `ih`, `iw` the coordinates the thread tested, the index is
`(c * H + ih) * W + iw` with `0 ≤ ih < H`, `0 ≤ iw < W`. -/
theorem unpack_read_in_range (C H W c : Nat) (ho wo : Int) (i j : Nat)
    (hc : c < C) (hH : H < 2 ^ 31) (hW : W < 2 ^ 31) (hi : i ≤ 2 ^ 31) (hj : j ≤ 2 ^ 31)
    (hho1 : -2 ^ 31 ≤ ho) (hho2 : ho < 2 ^ 31) (hwo1 : -2 ^ 31 ≤ wo) (hwo2 : wo < 2 ^ 31)
    (hrow : ¬ (to_int (ho + i) < 0 ∨ to_int (ho + i) ≥ to_int H))
    (hcol : ¬ (to_int (wo + j) < 0 ∨ to_int (wo + j) ≥ to_int W)) :
    (0 ≤ to_int (ho + i) ∧ to_int (ho + i) < H) ∧ (0 ≤ to_int (wo + j) ∧ to_int (wo + j) < W) ∧
    ((c * H : Nat) + ho) * W + wo + ((i * W + j : Nat) : Int)
      = (((c * H : Nat) : Int) + to_int (ho + i)) * W + to_int (wo + j) ∧
    0 ≤ ((c * H : Nat) + ho) * W + wo + ((i * W + j : Nat) : Int) ∧
    ((c * H : Nat) + ho) * W + wo + ((i * W + j : Nat) : Int) < ((C * H * W : Nat) : Int) := by
  have eH : to_int (H : Int) = H := to_int_of_range _ (by omega) (by omega)
  have eW : to_int (W : Int) = W := to_int_of_range _ (by omega) (by omega)
  rw [eH] at hrow
  rw [eW] at hcol
  have r0 : 0 ≤ to_int (ho + i) := by
    by_contra h; exact hrow (Or.inl (not_le.mp h))
  have r1 : to_int (ho + i) < H := by
    by_contra h; exact hrow (Or.inr (not_lt.mp h))
  have c0 : 0 ≤ to_int (wo + j) := by
    by_contra h; exact hcol (Or.inl (not_le.mp h))
  have c1 : to_int (wo + j) < W := by
    by_contra h; exact hcol (Or.inr (not_lt.mp h))
  have er : to_int (ho + i) = ho + i := to_int_add_of_nonneg ho i hho1 hho2 hi r0
  have ec : to_int (wo + j) = wo + j := to_int_add_of_nonneg wo j hwo1 hwo2 hj c0
  rw [er] at r0 r1 ⊢
  rw [ec] at c0 c1 ⊢
  clear er ec eH eW hrow hcol
  have hidx : ((c * H : Nat) + ho) * W + wo + ((i * W + j : Nat) : Int)
      = (((c * H : Nat) : Int) + (ho + i)) * W + (wo + j) := by
    push_cast; ring
  obtain ⟨a, ea⟩ : ∃ a : Nat, ho + i = a := ⟨(ho + i).toNat, (Int.toNat_of_nonneg r0).symm⟩
  obtain ⟨b, eb⟩ : ∃ b : Nat, wo + j = b := ⟨(wo + j).toNat, (Int.toNat_of_nonneg c0).symm⟩
  refine ⟨⟨r0, r1⟩, ⟨c0, c1⟩, hidx, ?_, ?_⟩
  · rw [hidx, ea, eb]
    positivity
  · rw [hidx, ea, eb]
    rw [ea] at r1
    rw [eb] at c1
    have ha : a < H := by exact_mod_cast r1
    have hb : b < W := by exact_mod_cast c1
    have hlt : (c * H + a) * W + b < C * H * W :=
      digits_lt _ _ _ _ (digits_lt _ _ _ _ hc ha) hb
    have : (((c * H : Nat) : Int) + (a : Int)) * (W : Int) + (b : Int)
        = (((c * H + a) * W + b : Nat) : Int) := by push_cast; ring
    rw [this]
    exact_mod_cast hlt

theorem forLoop_some {σ : Type} (lo hi : Nat) (bodyC : Nat → Option σ → Option σ)
    (body : Nat → σ → σ)
    (h : ∀ i, lo ≤ i → i < hi → ∀ s, bodyC i (some s) = some (body i s)) (s : σ) :
    forLoop lo hi bodyC (some s) = some (forLoop lo hi body s) := by
  induction hi with
  | zero => rw [forLoop_empty lo 0 (Nat.zero_le _), forLoop_empty lo 0 (Nat.zero_le _)]
  | succ hi ih =>
    by_cases hle : lo ≤ hi
    · rw [forLoop_succ_right lo hi hle, forLoop_succ_right lo hi hle,
        ih (fun i h1 h2 => h i h1 (Nat.lt_succ_of_lt h2)), h hi hle (Nat.lt_succ_self hi)]
    · rw [forLoop_empty lo (hi + 1) (by omega), forLoop_empty lo (hi + 1) (by omega)]

theorem foldl_some {ι σ : Type} (ws : List ι) (stepC : σ → ι → Option σ) (step : σ → ι → σ)
    (h : ∀ w ∈ ws, ∀ s, stepC s w = some (step s w)) (s : σ) :
    ws.foldl (fun os w => os.bind fun s => stepC s w) (some s) = some (ws.foldl step s) := by
  induction ws generalizing s with
  | nil => rfl
  | cons w ws ih =>
    rw [List.foldl_cons, List.foldl_cons, Option.some_bind, h w (List.mem_cons_self _ _)]
    exact ih (fun w' hw' => h w' (List.mem_cons_of_mem _ hw')) _

theorem readChecked_of_range {α : Type} (input : Nat → α) (size : Nat) (idx : Int)
    (h0 : 0 ≤ idx) (h1 : idx < (size : Int)) :
    readChecked input size idx = some (input idx.toNat) := by
  unfold readChecked
  rw [if_pos ⟨h0, h1⟩]

section
variable {α : Type} [Zero α]

/-- With input extents below `2^31` and filter extents at most `2^31`, a thread of channel
`c < C` never reads outside an input buffer of `C * H * W` elements. -/
theorem unpackThreadChecked_eq (input u : Nat → α) (C H W R S Q ph pw sh sw c oh ow : Nat)
    (hc : c < C) (hH : H < 2 ^ 31) (hW : W < 2 ^ 31) (hR : R ≤ 2 ^ 31) (hS : S ≤ 2 ^ 31) :
    unpackThreadChecked input (C * H * W) u C H W R S Q ph pw sh sw c oh ow
      = some (unpackThread input u C H W R S Q ph pw sh sw c oh ow) := by
  obtain ⟨hho1, hho2⟩ := to_int_bounds (((oh * sh : Nat) : Int) - (ph : Int))
  obtain ⟨hwo1, hwo2⟩ := to_int_bounds (((ow * sw : Nat) : Int) - (pw : Int))
  unfold unpackThreadChecked unpackThread
  simp only
  rw [forLoop_some 0 R _ (fun i st =>
    if to_int (to_int (((oh * sh : Nat) : Int) - (ph : Int)) + i) < 0 ∨
        to_int (to_int (((oh * sh : Nat) : Int) - (ph : Int)) + i) ≥ to_int H then
      forLoop 0 S (fun _ st => (store st.1 st.2 (0 : α), st.2 + 1)) st
    else
      forLoop 0 S (fun j st =>
        if to_int (to_int (((ow * sw : Nat) : Int) - (pw : Int)) + j) < 0 ∨
            to_int (to_int (((ow * sw : Nat) : Int) - (pw : Int)) + j) ≥ to_int W then
          (store st.1 st.2 (0 : α), st.2 + 1)
        else
          (store st.1 st.2 (input ((((c * H : Nat) : Int)
              + to_int (((oh * sh : Nat) : Int) - (ph : Int))) * W
            + to_int (((ow * sw : Nat) : Int) - (pw : Int))
            + ((i * W + j : Nat) : Int)).toNat), st.2 + 1)) st)]
  · rfl
  · intro i _ hiR st
    rw [Option.some_bind]
    by_cases hrow : to_int (to_int (((oh * sh : Nat) : Int) - (ph : Int)) + i) < 0 ∨
        to_int (to_int (((oh * sh : Nat) : Int) - (ph : Int)) + i) ≥ to_int H
    · rw [if_pos hrow, if_pos hrow]
    · rw [if_neg hrow, if_neg hrow]
      apply forLoop_some
      intro j _ hjS st'
      rw [Option.some_bind]
      by_cases hcol : to_int (to_int (((ow * sw : Nat) : Int) - (pw : Int)) + j) < 0 ∨
          to_int (to_int (((ow * sw : Nat) : Int) - (pw : Int)) + j) ≥ to_int W
      · rw [if_pos hcol, if_pos hcol]
      · rw [if_neg hcol, if_neg hcol]
        obtain ⟨_, _, _, h0, h1⟩ := unpack_read_in_range C H W c _ _ i j hc hH hW
          (Nat.le_trans (Nat.le_of_lt hiR) hR) (Nat.le_trans (Nat.le_of_lt hjS) hS)
          hho1 hho2 hwo1 hwo2 hrow hcol
        rw [readChecked_of_range input (C * H * W) _ h0 h1]
        rfl

theorem GPUUnpack1024KernelChecked_eq (C P Q : Nat) (input u : Nat → α)
    (H W R S ph pw sh sw : Nat)
    (hH : H < 2 ^ 31) (hW : W < 2 ^ 31) (hR : R ≤ 2 ^ 31) (hS : S ≤ 2 ^ 31) :
    GPUUnpack1024KernelChecked C P Q input (C * H * W) u H W R S ph pw sh sw
      = some (GPUUnpack1024Kernel C P Q input u H W R S ph pw sh sw) := by
  unfold GPUUnpack1024KernelChecked GPUUnpack1024Kernel
  exact foldl_some (launchThreads C P Q)
    (fun unpack t => unpackThreadChecked input (C * H * W) unpack C H W R S Q ph pw sh sw
      t.1 t.2.1 t.2.2)
    (fun unpack t => unpackThread input unpack C H W R S Q ph pw sh sw t.1 t.2.1 t.2.2)
    (fun t ht s => unpackThreadChecked_eq input s C H W R S Q ph pw sh sw _ _ _
      ((mem_launchThreads C P Q t).mp ht).1 hH hW hR hS) u

theorem GPUUnpackKernelChecked_eq (C P Q : Nat) (input u : Nat → α)
    (H W R S ph pw sh sw : Nat)
    (hH : H < 2 ^ 31) (hW : W < 2 ^ 31) (hR : R ≤ 2 ^ 31) (hS : S ≤ 2 ^ 31) :
    GPUUnpackKernelChecked input (C * H * W) u (C * P * Q) C H W R S P Q ph pw sh sw
      = some (GPUUnpackKernel input u (C * P * Q) C H W R S P Q ph pw sh sw) := by
  unfold GPUUnpackKernelChecked GPUUnpackKernel BLITZ_CUDA_LOOP
  exact foldl_some (List.range (C * P * Q))
    (fun unpack index => unpackThreadChecked input (C * H * W) unpack C H W R S Q ph pw sh sw
      (index / Q / P) (index / Q % P) (index % Q))
    (fun unpack index => unpackThread input unpack C H W R S Q ph pw sh sw
      (index / Q / P) (index / Q % P) (index % Q))
    (fun index hidx s => unpackThreadChecked_eq input s C H W R S Q ph pw sh sw _ _ _
      (decode_range C P Q index (List.mem_range.mp hidx)).1 hH hW hR hS) u

end

/-! ## Claims about the reads of the unpack kernels -/

/-- C16. Unpack never reads the input out of bounds: with input extents below `2^31` and
filter extents at most `2^31` (padding and stride arbitrary), both unpack kernels run with
bounds-checked reads of an input buffer of `C * H * W` elements never take the out-of-range
branch and return the buffer the unchecked kernels return; and for every thread `c < C` and
window cell `i < R`, `j < S` that passes the two range tests, the tested coordinates satisfy
`0 ≤ ih < H`, `0 ≤ iw < W` and the flat index read is `(c * H + ih) * W + iw`, which is at
least `0` and below `C * H * W`. -/
theorem unpack_reads_in_bounds {α : Type} [Zero α] (input unpack : Nat → α)
    (C H W R S P Q ph pw sh sw : Nat)
    (hH : H < 2 ^ 31) (hW : W < 2 ^ 31) (hR : R ≤ 2 ^ 31) (hS : S ≤ 2 ^ 31) :
    GPUUnpack1024KernelChecked C P Q input (C * H * W) unpack H W R S ph pw sh sw
      = some (GPUUnpack1024Kernel C P Q input unpack H W R S ph pw sh sw) ∧
    GPUUnpackKernelChecked input (C * H * W) unpack (C * P * Q) C H W R S P Q ph pw sh sw
      = some (GPUUnpackKernel input unpack (C * P * Q) C H W R S P Q ph pw sh sw) ∧
    (∀ c oh ow i j, c < C → i < R → j < S →
      ¬ (to_int (to_int ((oh * sh : Nat) - (ph : Int)) + i) < 0 ∨
          to_int (to_int ((oh * sh : Nat) - (ph : Int)) + i) ≥ to_int H) →
      ¬ (to_int (to_int ((ow * sw : Nat) - (pw : Int)) + j) < 0 ∨
          to_int (to_int ((ow * sw : Nat) - (pw : Int)) + j) ≥ to_int W) →
      (0 ≤ to_int (to_int ((oh * sh : Nat) - (ph : Int)) + i) ∧
        to_int (to_int ((oh * sh : Nat) - (ph : Int)) + i) < H) ∧
      (0 ≤ to_int (to_int ((ow * sw : Nat) - (pw : Int)) + j) ∧
        to_int (to_int ((ow * sw : Nat) - (pw : Int)) + j) < W) ∧
      ((c * H : Nat) + to_int ((oh * sh : Nat) - (ph : Int))) * W
          + to_int ((ow * sw : Nat) - (pw : Int)) + ((i * W + j : Nat) : Int)
        = (((c * H : Nat) : Int) + to_int (to_int ((oh * sh : Nat) - (ph : Int)) + i)) * W
            + to_int (to_int ((ow * sw : Nat) - (pw : Int)) + j) ∧
      0 ≤ ((c * H : Nat) + to_int ((oh * sh : Nat) - (ph : Int))) * W
          + to_int ((ow * sw : Nat) - (pw : Int)) + ((i * W + j : Nat) : Int) ∧
      ((c * H : Nat) + to_int ((oh * sh : Nat) - (ph : Int))) * W
          + to_int ((ow * sw : Nat) - (pw : Int)) + ((i * W + j : Nat) : Int)
        < ((C * H * W : Nat) : Int)) := by
  refine ⟨GPUUnpack1024KernelChecked_eq C P Q input unpack H W R S ph pw sh sw hH hW hR hS,
    GPUUnpackKernelChecked_eq C P Q input unpack H W R S ph pw sh sw hH hW hR hS, ?_⟩
  intro c oh ow i j hc hi hj hrow hcol
  obtain ⟨hho1, hho2⟩ := to_int_bounds (((oh * sh : Nat) : Int) - (ph : Int))
  obtain ⟨hwo1, hwo2⟩ := to_int_bounds (((ow * sw : Nat) : Int) - (pw : Int))
  exact unpack_read_in_range C H W c _ _ i j hc hH hW
    (Nat.le_trans (Nat.le_of_lt hi) hR) (Nat.le_trans (Nat.le_of_lt hj) hS)
    hho1 hho2 hwo1 hwo2 hrow hcol

/-- Witness for C16: a `2 × 3 × 3` input of 18 elements, `2 × 2` filter, `4 × 4` outputs,
padding 1, stride 1: the checked small kernel returns the buffer of the unchecked one. -/
theorem unpack_reads_in_bounds_witness :
    GPUUnpack1024KernelChecked 2 4 4 (fun k => (k : Int)) (2 * 3 * 3) (fun _ => 0)
        3 3 2 2 1 1 1 1
      = some (GPUUnpack1024Kernel 2 4 4 (fun k => (k : Int)) (fun _ => 0) 3 3 2 2 1 1 1 1) :=
  (unpack_reads_in_bounds (fun k => (k : Int)) (fun _ => 0) 2 3 3 2 2 4 4 1 1 1 1
    (by norm_num) (by norm_num) (by norm_num) (by norm_num)).1


/-! ## Row sums of the unpacked all-ones input -/

theorem sum_range_mul {α : Type} [AddCommMonoid α] (n m : Nat) (f : Nat → α) :
    ∑ t in Finset.range (n * m), f t
      = ∑ a in Finset.range n, ∑ b in Finset.range m, f (a * m + b) := by
  induction n with
  | zero => simp
  | succ n ih =>
    rw [Nat.succ_mul, Finset.sum_range_add, ih, Finset.sum_range_succ]

theorem sum_indicator {α : Type} [Semiring α] (p : Nat → Prop) [DecidablePred p] (n : Nat)
    (x : α) :
    ∑ i in Finset.range n, (if p i then x else 0)
      = (((List.range n).filter fun i => decide (p i)).length : α) * x := by
  induction n with
  | zero => simp
  | succ n ih =>
    rw [Finset.sum_range_succ, ih, List.range_succ, List.filter_append, List.length_append]
    by_cases h : p n
    · simp [h, add_mul]
    · simp [h]

theorem windowCount_le (filter extent o pad stride : Nat) :
    windowCount filter extent o pad stride ≤ filter := by
  unfold windowCount
  exact (List.length_filter_le _ _).trans (by rw [List.length_range])

theorem windowCount_eq_of_all (filter extent o pad stride : Nat)
    (h : ∀ i, i < filter → pad ≤ o * stride + i ∧ o * stride + i < pad + extent) :
    windowCount filter extent o pad stride = filter := by
  unfold windowCount
  have := (List.filter_length_eq_length (l := List.range filter)
    (p := fun i => decide (pad ≤ o * stride + i ∧ o * stride + i < pad + extent))).mpr
    (fun i hi => decide_eq_true (h i (List.mem_range.mp hi)))
  rw [this, List.length_range]

theorem windowCount_lt_of_exists (filter extent o pad stride : Nat) (i : Nat)
    (hi : i < filter) (h : ¬ (pad ≤ o * stride + i ∧ o * stride + i < pad + extent)) :
    windowCount filter extent o pad stride < filter := by
  unfold windowCount
  have := (List.length_filter_lt_length_iff_exists (l := List.range filter)
    (p := fun i => decide (pad ≤ o * stride + i ∧ o * stride + i < pad + extent))).mpr
    ⟨i, List.mem_range.mpr hi, by simpa using h⟩
  rwa [List.length_range] at this

section
variable {α : Type} [Semiring α]

/-- Within the `int` range a window cell of the all-ones input is `1` when its source
coordinate lies in the input and `0` otherwise. -/
theorem unpackCell_ones (H W R S P Q ph pw sh sw : Nat) (c oh ow i j : Nat)
    (hfit : FitsInt H W R S P Q ph pw sh sw)
    (hoh : oh < P) (how : ow < Q) (hi : i < R) (hj : j < S) :
    unpackCell (fun _ => (1 : α)) H W ph pw sh sw c oh ow i j
      = if (ph ≤ oh * sh + i ∧ oh * sh + i < ph + H) ∧
          (pw ≤ ow * sw + j ∧ ow * sw + j < pw + W) then 1 else 0 := by
  by_cases hin : (ph ≤ oh * sh + i ∧ oh * sh + i < ph + H) ∧
      (pw ≤ ow * sw + j ∧ ow * sw + j < pw + W)
  · rw [if_pos hin]
    obtain ⟨hH, hW, _, _, hP, hQ⟩ := hfit
    exact unpackCell_in_bounds (fun _ => (1 : α)) H W ph pw sh sw c oh ow i j
      (oh * sh + i - ph) (ow * sw + j - pw) hH hW (by omega) (by omega)
      (by omega) (by omega) (by omega) (by omega)
  · rw [if_neg hin]
    apply unpackCell_out_of_bounds (fun _ => (1 : α)) H W R S P Q ph pw sh sw c oh ow i j hfit
      hoh how hi hj
    have e1 : ((oh * sh : Nat) : Int) - (ph : Int) + (i : Int)
        = ((oh * sh + i : Nat) : Int) - (ph : Int) := by push_cast; ring
    have e2 : ((ow * sw : Nat) : Int) - (pw : Int) + (j : Int)
        = ((ow * sw + j : Nat) : Int) - (pw : Int) := by push_cast; ring
    rw [e1, e2]
    clear hfit e1 e2
    by_cases h1 : ph ≤ oh * sh + i
    · by_cases h2 : oh * sh + i < ph + H
      · by_cases h3 : pw ≤ ow * sw + j
        · have h4 : ¬ ow * sw + j < pw + W := fun h4 => hin ⟨⟨h1, h2⟩, ⟨h3, h4⟩⟩
          right; right; right; omega
        · right; right; left; omega
      · right; left; omega
    · left; omega

/-- Row sum of the unpacked all-ones input, for any destination buffer that holds
`unpackSpec` on the unpacked range. -/
theorem rowSum_ones (U : Nat → α) (C H W R S P Q ph pw sh sw : Nat)
    (hU : ∀ k, k < P * Q * C * (R * S) →
      U k = unpackSpec (fun _ => (1 : α)) C H W R S Q ph pw sh sw k)
    (hfit : FitsInt H W R S P Q ph pw sh sw) (oh ow : Nat) (hoh : oh < P) (how : ow < Q) :
    rowSum U C R S Q oh ow
      = ((C * windowCount R H oh ph sh * windowCount S W ow pw sw : Nat) : α) := by
  unfold rowSum
  rw [list_range_sum, Nat.mul_assoc C R S, sum_range_mul C (R * S)]
  simp only [sum_range_mul R S]
  have hterm : ∀ c, c ∈ Finset.range C → ∀ i, i ∈ Finset.range R → ∀ j, j ∈ Finset.range S →
      U ((oh * Q + ow) * (C * (R * S)) + (c * (R * S) + (i * S + j)))
        = if ph ≤ oh * sh + i ∧ oh * sh + i < ph + H then
            (if pw ≤ ow * sw + j ∧ ow * sw + j < pw + W then (1 : α) else 0)
          else 0 := by
    intro c hc i hi j hj
    have hc' := Finset.mem_range.mp hc
    have hi' := Finset.mem_range.mp hi
    have hj' := Finset.mem_range.mp hj
    have hidx : (oh * Q + ow) * (C * (R * S)) + (c * (R * S) + (i * S + j))
        = (oh * Q + ow) * (C * R * S) + c * R * S + i * S + j := by ring
    rw [hidx, hU _ (unpack_index_lt C R S P Q c oh ow i j hc' hoh how hi' hj'),
      unpackSpec_at _ C H W R S Q ph pw sh sw c oh ow i j hc' how hi' hj',
      unpackCell_ones H W R S P Q ph pw sh sw c oh ow i j hfit hoh how hi' hj']
    by_cases hA : ph ≤ oh * sh + i ∧ oh * sh + i < ph + H
    · by_cases hB : pw ≤ ow * sw + j ∧ ow * sw + j < pw + W
      · rw [if_pos ⟨hA, hB⟩, if_pos hA, if_pos hB]
      · rw [if_neg (fun h => hB h.2), if_pos hA, if_neg hB]
    · rw [if_neg (fun h => hA h.1), if_neg hA]
  have hrow : ∀ c, c ∈ Finset.range C →
      (∑ x in Finset.range R, ∑ b in Finset.range S,
        U ((oh * Q + ow) * (C * (R * S)) + (c * (R * S) + (x * S + b))))
        = ((windowCount R H oh ph sh * windowCount S W ow pw sw : Nat) : α) := by
    intro c hc
    have h1 : ∀ i, i ∈ Finset.range R →
        (∑ b in Finset.range S,
          U ((oh * Q + ow) * (C * (R * S)) + (c * (R * S) + (i * S + b))))
          = if ph ≤ oh * sh + i ∧ oh * sh + i < ph + H then
              ((windowCount S W ow pw sw : Nat) : α) else 0 := by
      intro i hi
      rw [Finset.sum_congr rfl (fun j hj => hterm c hc i hi j hj)]
      by_cases hA : ph ≤ oh * sh + i ∧ oh * sh + i < ph + H
      · simp only [if_pos hA]
        rw [sum_indicator (fun j => pw ≤ ow * sw + j ∧ ow * sw + j < pw + W) S (1 : α),
          mul_one]
        rfl
      · simp only [if_neg hA]
        exact Finset.sum_const_zero
    rw [Finset.sum_congr rfl h1,
      sum_indicator (fun i => ph ≤ oh * sh + i ∧ oh * sh + i < ph + H) R
        ((windowCount S W ow pw sw : Nat) : α)]
    rw [Nat.cast_mul]
    rfl
  rw [Finset.sum_congr rfl hrow, Finset.sum_const, Finset.card_range, nsmul_eq_mul,
    Nat.mul_assoc]
  push_cast
  rfl

end

/-! ## Claims about the all-ones scenario -/

/-- C19, counterexample.  With `padding_height = 2^32` the `int` offset wraps to `0`: for
`C = H = W = R = S = P = Q = 1`, stride 1 and an all-ones input, the row of output position
`(0, 0)` sums to `1`, while the single window cell has source coordinate `0 - 2^32 < 0`, so
the count formula gives `1 * 0 * 1 = 0`. -/
theorem unpack_all_ones_row_sum_fails_on_int_wrap :
    rowSum (Unpack2DFunc (fun _ => (1 : Int)) (fun _ => 0) 1 1 1 1 1 1 1 (2 ^ 32) 0 1 1
        BLITZ_DATA_LAYOUT.BLITZ_BUFFER_NCHW).1 1 1 1 1 0 0 = 1 ∧
    ((1 * windowCount 1 1 0 (2 ^ 32) 1 * windowCount 1 1 0 0 1 : Nat) : Int) = 0 := by
  constructor <;> decide

/-- C19, amended.  All-ones scenario within the `int` range (`FitsInt`): for an input of all
ones and every output position `(oh, ow)`, the sum of the `C*R*S` elements of the row
`Unpack2DFunc` writes for that position is `C * nh * nw`, where `nh` counts the `i < R` with
`0 ≤ oh*stride_h - pad_h + i < H` and `nw` the `j < S` with `0 ≤ ow*stride_w - pad_w + j < W`;
this is `C*R*S` when the window lies inside the input and, for `C ≥ 1`, strictly less when
some window cell lies outside. -/
theorem unpack_all_ones_row_sum {α : Type} [Semiring α] (unpack0 : Nat → α)
    (C H W R S P Q ph pw sh sw : Nat) (layout : BLITZ_DATA_LAYOUT)
    (hfit : FitsInt H W R S P Q ph pw sh sw) (oh ow : Nat) (hoh : oh < P) (how : ow < Q) :
    rowSum (Unpack2DFunc (fun _ => (1 : α)) unpack0 C H W R S P Q ph pw sh sw layout).1
        C R S Q oh ow
      = ((C * windowCount R H oh ph sh * windowCount S W ow pw sw : Nat) : α) ∧
    ((∀ i, i < R → ph ≤ oh * sh + i ∧ oh * sh + i < ph + H) →
      (∀ j, j < S → pw ≤ ow * sw + j ∧ ow * sw + j < pw + W) →
      C * windowCount R H oh ph sh * windowCount S W ow pw sw = C * R * S) ∧
    ((∃ i j, i < R ∧ j < S ∧
        ¬ ((ph ≤ oh * sh + i ∧ oh * sh + i < ph + H) ∧
          (pw ≤ ow * sw + j ∧ ow * sw + j < pw + W))) →
      1 ≤ C →
      C * windowCount R H oh ph sh * windowCount S W ow pw sw < C * R * S) := by
  refine ⟨?_, ?_, ?_⟩
  · exact rowSum_ones _ C H W R S P Q ph pw sh sw
      (fun k hk => by rw [Unpack2DFunc_spec, if_pos hk]) hfit oh ow hoh how
  · intro hh hw
    rw [windowCount_eq_of_all R H oh ph sh hh, windowCount_eq_of_all S W ow pw sw hw]
  · rintro ⟨i, j, hi, hj, hout⟩ hC
    have hlt : windowCount R H oh ph sh * windowCount S W ow pw sw < R * S := by
      by_cases hA : ph ≤ oh * sh + i ∧ oh * sh + i < ph + H
      · have hB : ¬ (pw ≤ ow * sw + j ∧ ow * sw + j < pw + W) := fun hB => hout ⟨hA, hB⟩
        exact Nat.mul_lt_mul_of_le_of_lt (windowCount_le R H oh ph sh)
          (windowCount_lt_of_exists S W ow pw sw j hj hB) (by omega)
      · exact Nat.mul_lt_mul_of_lt_of_le (windowCount_lt_of_exists R H oh ph sh i hi hA)
          (windowCount_le S W ow pw sw) (by omega)
    rw [Nat.mul_assoc, Nat.mul_assoc]
    exact Nat.mul_lt_mul_of_le_of_lt (Nat.le_refl C) hlt hC

/-- Witness for the amended C19: `C = 3`, `H = W = 5`, `R = S = 3`, padding 1, stride 1, so
`P = Q = 5`: the row sums are `27` at the interior position `(2, 2)`, `18` at the edge
position `(0, 2)` and `12` at the corner `(0, 0)`. -/
theorem unpack_all_ones_row_sum_witness :
    rowSum (Unpack2DFunc (fun _ => (1 : Int)) (fun _ => 0) 3 5 5 3 3 5 5 1 1 1 1
        BLITZ_DATA_LAYOUT.BLITZ_BUFFER_NCHW).1 3 3 3 5 2 2 = 27 ∧
    rowSum (Unpack2DFunc (fun _ => (1 : Int)) (fun _ => 0) 3 5 5 3 3 5 5 1 1 1 1
        BLITZ_DATA_LAYOUT.BLITZ_BUFFER_NCHW).1 3 3 3 5 0 2 = 18 ∧
    rowSum (Unpack2DFunc (fun _ => (1 : Int)) (fun _ => 0) 3 5 5 3 3 5 5 1 1 1 1
        BLITZ_DATA_LAYOUT.BLITZ_BUFFER_NCHW).1 3 3 3 5 0 0 = 12 :=
  ⟨(unpack_all_ones_row_sum (fun _ => (0 : Int)) 3 5 5 3 3 5 5 1 1 1 1
      BLITZ_DATA_LAYOUT.BLITZ_BUFFER_NCHW (by unfold FitsInt; norm_num) 2 2
      (by decide) (by decide)).1.trans (by decide),
    (unpack_all_ones_row_sum (fun _ => (0 : Int)) 3 5 5 3 3 5 5 1 1 1 1
      BLITZ_DATA_LAYOUT.BLITZ_BUFFER_NCHW (by unfold FitsInt; norm_num) 0 2
      (by decide) (by decide)).1.trans (by decide),
    (unpack_all_ones_row_sum (fun _ => (0 : Int)) 3 5 5 3 3 5 5 1 1 1 1
      BLITZ_DATA_LAYOUT.BLITZ_BUFFER_NCHW (by unfold FitsInt; norm_num) 0 0
      (by decide) (by decide)).1.trans (by decide)⟩


/-! ## The layer's calls pass the shape checks -/

theorem dispatch_fatal_ne_check_eq (env : Env) (kind : LIBXSMM_DNN_CONV_KIND)
    (tids : List Nat) (args : XsmmArgs) (algorithm : BLITZ_ALGORITHM)
    (lhs rhs : String) (a b : Nat) :
    (dispatch env kind tids args algorithm).fatal ≠ some (Fatal.check_eq lhs rhs a b) := by
  unfold dispatch
  split
  · split <;> simp
  · simp

/-- The three checked equalities on the tensors of a layer whose input is in `NCHW` layout,
for decoders that read `NCHW` buffers and `KCRS` filters in storage order. -/
theorem layer_tensors_decode (env : Env) (nt : Nat) (self : Conv) (input_shape : Shape)
    (t : ConvTensors) (hok : Conv.InitImpl nt self input_shape = Except.ok t)
    (hbuf : ∀ s, env.Blitz2DBuffer BLITZ_DATA_LAYOUT.BLITZ_BUFFER_NCHW s
      = (s.dim0, s.dim1, s.dim2, s.dim3))
    (hfil : ∀ s, env.Blitz2DFilter BLITZ_DATA_LAYOUT.BLITZ_FILTER_KCRS s
      = (s.dim0, s.dim1, s.dim2, s.dim3))
    (hlayout : input_shape.data_layout = BLITZ_DATA_LAYOUT.BLITZ_BUFFER_NCHW)
    (input output filter : MICTensor)
    (hin : input = MICTensor.ofShape input_shape)
    (hout : output = MICTensor.ofShape t.forward_output_)
    (hf : filter = MICTensor.ofShape t.weight_) :
    (env.Blitz2DBuffer input.data_layout input.shape).1
        = (env.Blitz2DBuffer output.data_layout output.shape).1 ∧
    (env.Blitz2DFilter filter.data_layout filter.shape).1
        = (env.Blitz2DBuffer output.data_layout output.shape).2.1 ∧
    (env.Blitz2DFilter filter.data_layout filter.shape).2.1
        = (env.Blitz2DBuffer input.data_layout input.shape).2.1 := by
  obtain ⟨_, hw, _, h0, h1, hl, _⟩ := Conv.InitImpl_ok_tensors nt self input_shape t hok
  subst hin hout hf
  simp only [MICTensor.ofShape, hlayout, hl, hbuf, hw, hfil, h0, h1, and_self]


/-! ## Workers that store one value each -/

/-- A list of workers, each storing a value that does not depend on the buffer: an index
that some worker stores to holds the same value whatever the initial buffer was. -/
theorem foldl_store_agree {ι β : Type} (pos : ι → Nat) (val : ι → β) (ws : List ι) (k : Nat)
    (hex : ∃ w ∈ ws, pos w = k) (b b' : Nat → β) :
    ws.foldl (fun u w => store u (pos w) (val w)) b k
      = ws.foldl (fun u w => store u (pos w) (val w)) b' k := by
  induction ws generalizing b b' with
  | nil => obtain ⟨w, hw, _⟩ := hex; cases hw
  | cons w ws ih =>
    rw [List.foldl_cons, List.foldl_cons]
    by_cases h : ∃ w' ∈ ws, pos w' = k
    · exact ih h _ _
    · have hframe : ∀ w' ∈ ws, ∀ u : Nat → β,
          (fun w u => store u (pos w) (val w)) w' u k = u k := by
        intro w' hw' u
        have hne : k ≠ pos w' := fun e => h ⟨w', hw', e.symm⟩
        simp only [store, if_neg hne]
      have e1 := foldl_workers_frame (fun w u => store u (pos w) (val w)) k ws hframe
        (store b (pos w) (val w))
      have e2 := foldl_workers_frame (fun w u => store u (pos w) (val w)) k ws hframe
        (store b' (pos w) (val w))
      rw [e1, e2]
      obtain ⟨w0, hw0, hpos⟩ := hex
      rcases List.mem_cons.mp hw0 with rfl | hmem
      · simp only [store, hpos, if_true]
      · exact absurd ⟨w0, hmem, hpos⟩ h

/-- An index no worker stores to keeps its content. -/
theorem foldl_store_frame {ι β : Type} (pos : ι → Nat) (val : ι → β) (ws : List ι) (k : Nat)
    (hno : ∀ w ∈ ws, pos w ≠ k) (b : Nat → β) :
    ws.foldl (fun u w => store u (pos w) (val w)) b k = b k := by
  refine foldl_workers_frame (fun w u => store u (pos w) (val w)) k ws ?_ b
  intro w hw u
  have hne : k ≠ pos w := fun e => hno w hw e.symm
  simp only [store, if_neg hne]

section
variable {α : Type} [AddCommMonoid α]

theorem GPUPack1024Kernel_eq_foldl (C H W : Nat) (pack input : Nat → α)
    (R S P Q ph pw sh sw : Nat) :
    GPUPack1024Kernel C H W pack input R S P Q ph pw sh sw
      = (launchThreads C H W).foldl (fun u t =>
          store u (t.1 * H * W + t.2.1 * W + t.2.2)
            (packSum pack C R S P Q ph pw sh sw t.1 t.2.1 t.2.2)) input :=
  rfl

theorem GPUPackKernel_eq_foldl (pack input : Nat → α)
    (size C H W R S P Q ph pw sh sw : Nat) :
    GPUPackKernel pack input size C H W R S P Q ph pw sh sw
      = (List.range size).foldl (fun u index =>
          store u (index / W % C * H * W + index / W % H * W + index % W)
            (packSum pack C R S P Q ph pw sh sw (index / W % C) (index / W % H) (index % W)))
          input :=
  rfl

end

/-! ## The pack accesses stay in range -/

theorem subChecked_of_le (a b : Nat) (h : b ≤ a) : subChecked a b = some (a - b) := by
  unfold subChecked
  rw [if_pos h]

theorem pack_startChecked_eq (x R stride : Nat) :
    pack_startChecked x R stride = some (pack_start x R stride) := by
  unfold pack_startChecked pack_start
  by_cases h : x < R
  · rw [if_pos h, if_pos h]
  · rw [if_neg h, if_neg h, subChecked_of_le _ _ (Nat.le_of_not_lt h)]
    rfl

/-- Inside the loop ranges the window index leaves a filter coordinate in `[0, R)`. -/
theorem pack_filter_index (x R stride P i : Nat) (hs : 1 ≤ stride)
    (h1 : pack_start x R stride ≤ i) (h2 : i < pack_end x stride P) :
    i < P ∧ i * stride ≤ x ∧ x - i * stride < R := by
  obtain ⟨a, b, c⟩ := (pack_range_iff x R stride P i hs).mp ⟨h1, h2⟩
  exact ⟨a, b, by omega⟩

theorem pack_position_lt (C H W c ih iw : Nat) (hc : c < C) (hih : ih < H) (hiw : iw < W) :
    c * H * W + ih * W + iw < C * H * W := by
  have e : c * H * W + ih * W + iw = (c * H + ih) * W + iw := by ring
  rw [e]
  exact digits_lt _ _ _ _ (digits_lt _ _ _ _ hc hih) hiw

theorem pack_read_lt (C R S P Q c i j fh fw : Nat) (hc : c < C) (hi : i < P) (hj : j < Q)
    (hfh : fh < R) (hfw : fw < S) :
    S * R * c + ((i * Q + j) * (R * S * C) + fh * S + fw) < P * Q * C * (R * S) := by
  have e : S * R * c + ((i * Q + j) * (R * S * C) + fh * S + fw)
      = (i * Q + j) * (C * R * S) + c * R * S + fh * S + fw := by ring
  rw [e]
  exact unpack_index_lt C R S P Q c i j fh fw hc hi hj hfh hfw

section
variable {α : Type} [AddCommMonoid α]

theorem packThreadChecked_eq (pack input : Nat → α) (C H W R S P Q ph pw sh sw c ih iw : Nat)
    (hsh : 1 ≤ sh) (hsw : 1 ≤ sw) (hc : c < C) (hih : ih < H) (hiw : iw < W) :
    packThreadChecked pack (P * Q * C * (R * S)) input (C * H * W)
        C H W R S P Q ph pw sh sw c ih iw
      = some (packThread pack input C H W R S P Q ph pw sh sw c ih iw) := by
  unfold packThreadChecked packThread
  simp only [pack_startChecked_eq, Option.some_bind]
  rw [forLoop_some _ _ _ (fun i sum =>
    forLoop (pack_start (size_t_add iw pw) S sw) (pack_end (size_t_add iw pw) sw Q) (fun j sum =>
      sum + pack (S * R * c + ((i * Q + j) * (R * S * C) + (size_t_add ih ph - i * sh) * S
        + (size_t_add iw pw - j * sw)))) sum)]
  · rw [Option.some_bind, if_pos (pack_position_lt C H W c ih iw hc hih hiw)]
  · intro i hi1 hi2 s
    apply forLoop_some
    intro j hj1 hj2 s'
    obtain ⟨hiP, hile, hfh⟩ := pack_filter_index (size_t_add ih ph) R sh P i hsh hi1 hi2
    obtain ⟨hjQ, hjle, hfw⟩ := pack_filter_index (size_t_add iw pw) S sw Q j hsw hj1 hj2
    rw [Option.some_bind, subChecked_of_le _ _ hile, Option.some_bind,
      subChecked_of_le _ _ hjle, Option.some_bind,
      readChecked_of_range pack _ _ (Int.natCast_nonneg _)
        (Int.ofNat_lt.mpr (pack_read_lt C R S P Q c i j _ _ hc hiP hjQ hfh hfw)),
      Int.toNat_ofNat]
    rfl

theorem GPUPack1024KernelChecked_eq (C H W : Nat) (pack input : Nat → α)
    (R S P Q ph pw sh sw : Nat) (hsh : 1 ≤ sh) (hsw : 1 ≤ sw) :
    GPUPack1024KernelChecked C H W pack (P * Q * C * (R * S)) input (C * H * W)
        R S P Q ph pw sh sw
      = some (GPUPack1024Kernel C H W pack input R S P Q ph pw sh sw) := by
  unfold GPUPack1024KernelChecked GPUPack1024Kernel
  exact foldl_some (launchThreads C H W)
    (fun input t => packThreadChecked pack (P * Q * C * (R * S)) input (C * H * W)
      C H W R S P Q ph pw sh sw t.1 t.2.1 t.2.2)
    (fun input t => packThread pack input C H W R S P Q ph pw sh sw t.1 t.2.1 t.2.2)
    (fun t ht s => by
      obtain ⟨h1, h2, h3⟩ := (mem_launchThreads C H W t).mp ht
      exact packThreadChecked_eq pack s C H W R S P Q ph pw sh sw _ _ _ hsh hsw h1 h2 h3)
    input

/-- Every flat index below `C * H * W` decodes to a position of the grid. -/
theorem packDecode_range (C H W index : Nat) (hlt : index < C * H * W) :
    index / W % C < C ∧ index / W % H < H ∧ index % W < W := by
  have hW : 0 < W := by
    rcases Nat.eq_zero_or_pos W with h0 | h0
    · rw [h0] at hlt; simp at hlt
    · exact h0
  have hH : 0 < H := by
    rcases Nat.eq_zero_or_pos H with h0 | h0
    · rw [h0] at hlt; simp at hlt
    · exact h0
  have hC : 0 < C := by
    rcases Nat.eq_zero_or_pos C with h0 | h0
    · rw [h0] at hlt; simp at hlt
    · exact h0
  exact ⟨Nat.mod_lt _ hC, Nat.mod_lt _ hH, Nat.mod_lt _ hW⟩

theorem GPUPackKernelChecked_eq (C H W : Nat) (pack input : Nat → α)
    (R S P Q ph pw sh sw : Nat) (hsh : 1 ≤ sh) (hsw : 1 ≤ sw) :
    GPUPackKernelChecked pack (P * Q * C * (R * S)) input (C * H * W) (C * H * W)
        C H W R S P Q ph pw sh sw
      = some (GPUPackKernel pack input (C * H * W) C H W R S P Q ph pw sh sw) := by
  unfold GPUPackKernelChecked GPUPackKernel BLITZ_CUDA_LOOP
  exact foldl_some (List.range (C * H * W))
    (fun input index => packThreadChecked pack (P * Q * C * (R * S)) input (C * H * W)
      C H W R S P Q ph pw sh sw (index / W % C) (index / W % H) (index % W))
    (fun input index => packThread pack input C H W R S P Q ph pw sh sw
      (index / W % C) (index / W % H) (index % W))
    (fun index hidx s => by
      obtain ⟨h1, h2, h3⟩ := packDecode_range C H W index (List.mem_range.mp hidx)
      exact packThreadChecked_eq pack s C H W R S P Q ph pw sh sw _ _ _ hsh hsw h1 h2 h3)
    input

end

/-! ## The index decoding of the general pack kernel -/

/-- Two residues determine a number below `C * H` when `C` and `H` are coprime. -/
theorem residues_injective (C H a b : Nat) (hco : Nat.Coprime C H)
    (ha : a < C * H) (hb : b < C * H) (h1 : a % C = b % C) (h2 : a % H = b % H) : a = b :=
  ((Nat.modEq_and_modEq_iff_modEq_mul hco).mp ⟨h1, h2⟩).eq_of_lt_of_lt ha hb

/-- Every pair of residues is reached below `C * H` when `C` and `H` are coprime. -/
theorem residues_surjective (C H c ih : Nat) (hco : Nat.Coprime C H)
    (hc : c < C) (hih : ih < H) : ∃ a, a < C * H ∧ a % C = c ∧ a % H = ih := by
  refine ⟨(Nat.chineseRemainder hco c ih : Nat),
    Nat.chineseRemainder_lt_mul hco c ih (by omega) (by omega), ?_, ?_⟩
  · exact Nat.mod_eq_of_modEq (Nat.chineseRemainder hco c ih).2.1 hc
  · exact Nat.mod_eq_of_modEq (Nat.chineseRemainder hco c ih).2.2 hih

/-- With a common divisor above 1 the residue pair `(0, 1)` is never reached. -/
theorem residues_miss (C H a : Nat) (hg : 1 < Nat.gcd C H) : ¬ (a % C = 0 ∧ a % H = 1) := by
  rintro ⟨h1, h2⟩
  have e1 : a % C % Nat.gcd C H = a % Nat.gcd C H :=
    Nat.mod_mod_of_dvd a (Nat.gcd_dvd_left C H)
  have e2 : a % H % Nat.gcd C H = a % Nat.gcd C H :=
    Nat.mod_mod_of_dvd a (Nat.gcd_dvd_right C H)
  rw [h1, Nat.zero_mod] at e1
  rw [h2, Nat.mod_eq_of_lt hg, ← e1] at e2
  exact absurd e2 (by decide)

/-- With a common divisor above 1 the least common multiple is a second number below `C * H`
with the residue pair `(0, 0)`. -/
theorem residues_collide (C H : Nat) (hC : 0 < C) (hH : 0 < H) (hg : 1 < Nat.gcd C H) :
    0 < Nat.lcm C H ∧ Nat.lcm C H < C * H ∧ Nat.lcm C H % C = 0 ∧ Nat.lcm C H % H = 0 := by
  have hpos : 0 < Nat.lcm C H := Nat.lcm_pos hC hH
  refine ⟨hpos, ?_, Nat.mod_eq_zero_of_dvd (Nat.dvd_lcm_left C H),
    Nat.mod_eq_zero_of_dvd (Nat.dvd_lcm_right C H)⟩
  have e := Nat.gcd_mul_lcm C H
  have h2 : 2 * Nat.lcm C H ≤ Nat.gcd C H * Nat.lcm C H := Nat.mul_le_mul_right _ hg
  omega

/-- The flat position `c*H*W + ih*W + iw` determines `(c, ih, iw)` inside the grid. -/
theorem position_injective (H W c ih iw c' ih' iw' : Nat)
    (hih : ih < H) (hiw : iw < W) (hih' : ih' < H) (hiw' : iw' < W)
    (hp : c * H * W + ih * W + iw = c' * H * W + ih' * W + iw') :
    c = c' ∧ ih = ih' ∧ iw = iw' := by
  have e1 : c * H * W + ih * W + iw = (c * H + ih) * W + iw := by ring
  have e2 : c' * H * W + ih' * W + iw' = (c' * H + ih') * W + iw' := by ring
  rw [e1, e2] at hp
  obtain ⟨a1, a2⟩ := div_mod_of_block W (c * H + ih) iw hiw
  obtain ⟨a3, a4⟩ := div_mod_of_block W (c' * H + ih') iw' hiw'
  obtain ⟨a5, a6⟩ := div_mod_of_block H c ih hih
  obtain ⟨a7, a8⟩ := div_mod_of_block H c' ih' hih'
  have hq : c * H + ih = c' * H + ih' := by rw [← a1, ← a3, hp]
  exact ⟨by rw [← a5, ← a7, hq], by rw [← a6, ← a8, hq], by rw [← a2, ← a4, hp]⟩

theorem packDecode_eq (C H W index : Nat) :
    packDecode C H W index = (index / W % C, index / W % H, index % W) := rfl

/-- For coprime `C` and `H` the decoding is injective below `C * H * W`. -/
theorem packDecode_injective (C H W index index' : Nat) (hco : Nat.Coprime C H)
    (h1 : index < C * H * W) (h2 : index' < C * H * W)
    (he : packDecode C H W index = packDecode C H W index') : index = index' := by
  have hW : 0 < W := by
    rcases Nat.eq_zero_or_pos W with h0 | h0
    · rw [h0] at h1; simp at h1
    · exact h0
  rw [packDecode_eq, packDecode_eq] at he
  obtain ⟨ec, eh, ew⟩ := Prod.mk.inj he |>.imp id Prod.mk.inj
  have hq : index / W = index' / W :=
    residues_injective C H _ _ hco ((Nat.div_lt_iff_lt_mul hW).mpr h1)
      ((Nat.div_lt_iff_lt_mul hW).mpr h2) ec eh
  have d1 := Nat.div_add_mod index W
  have d2 := Nat.div_add_mod index' W
  rw [hq, ew] at d1
  omega

/-- For coprime `C` and `H` every position of the grid is decoded from some flat index. -/
theorem packDecode_surjective (C H W c ih iw : Nat) (hco : Nat.Coprime C H)
    (hc : c < C) (hih : ih < H) (hiw : iw < W) :
    ∃ index, index < C * H * W ∧ packDecode C H W index = (c, ih, iw) := by
  obtain ⟨a, ha, e1, e2⟩ := residues_surjective C H c ih hco hc hih
  obtain ⟨d1, d2⟩ := div_mod_of_block W a iw hiw
  refine ⟨a * W + iw, ?_, ?_⟩
  · have h3 : (a + 1) * W ≤ C * H * W := Nat.mul_le_mul_right W ha
    rw [Nat.succ_mul] at h3
    omega
  · rw [packDecode_eq, d1, d2, e1, e2]

/-- With a common divisor above 1 no flat index decodes to the position `(0, 1, 0)`. -/
theorem packDecode_misses (C H W index : Nat) (hg : 1 < Nat.gcd C H) :
    packDecode C H W index ≠ (0, 1, 0) := by
  intro he
  rw [packDecode_eq] at he
  obtain ⟨ec, eh, _⟩ := Prod.mk.inj he |>.imp id Prod.mk.inj
  exact residues_miss C H (index / W) hg ⟨ec, eh⟩

/-- With a common divisor above 1 the flat indices `0` and `lcm C H * W` both decode to the
position `(0, 0, 0)`. -/
theorem packDecode_collides (C H W : Nat) (hC : 0 < C) (hH : 0 < H) (hW : 0 < W)
    (hg : 1 < Nat.gcd C H) :
    Nat.lcm C H * W < C * H * W ∧ 0 < C * H * W ∧ 0 ≠ Nat.lcm C H * W ∧
    packDecode C H W 0 = (0, 0, 0) ∧ packDecode C H W (Nat.lcm C H * W) = (0, 0, 0) := by
  obtain ⟨hpos, hlt, e1, e2⟩ := residues_collide C H hC hH hg
  refine ⟨Nat.mul_lt_mul_of_pos_right hlt hW, ?_, ?_, ?_, ?_⟩
  · exact Nat.mul_pos (Nat.mul_pos hC hH) hW
  · exact Nat.ne_of_lt (Nat.mul_pos hpos hW)
  · rw [packDecode_eq]
    simp
  · rw [packDecode_eq, Nat.mul_div_cancel _ hW, Nat.mul_mod_left, e1, e2]

/-- The write log of the general pack kernel is the list of the decoded positions. -/
theorem GPUPackKernelWrites_eq (size C H W : Nat) :
    GPUPackKernelWrites size C H W
      = (List.range size).map fun index =>
          index / W % C * H * W + index / W % H * W + index % W := by
  unfold GPUPackKernelWrites BLITZ_CUDA_LOOP
  induction size with
  | zero => rfl
  | succ n ih =>
    rw [List.range_succ, List.foldl_append, ih, List.map_append]
    rfl

/-- For coprime `C` and `H` the general pack kernel stores to every index below `C * H * W`
exactly once. -/
theorem GPUPackKernelWrites_perm (C H W : Nat) (hco : Nat.Coprime C H) :
    (GPUPackKernelWrites (C * H * W) C H W).Perm (List.range (C * H * W)) := by
  rw [GPUPackKernelWrites_eq]
  apply List.Subperm.perm_of_length_le
  · apply List.subperm_of_subset
    · apply List.Nodup.map_on _ (List.nodup_range _)
      intro x hx y hy hxy
      have hx' := List.mem_range.mp hx
      have hy' := List.mem_range.mp hy
      obtain ⟨_, a2, a3⟩ := packDecode_range C H W x hx'
      obtain ⟨_, b2, b3⟩ := packDecode_range C H W y hy'
      obtain ⟨k1, k2, k3⟩ := position_injective H W _ _ _ _ _ _ a2 a3 b2 b3 hxy
      apply packDecode_injective C H W x y hco hx' hy'
      rw [packDecode_eq, packDecode_eq, k1, k2, k3]
    · intro p hp
      obtain ⟨index, hidx, rfl⟩ := List.mem_map.mp hp
      obtain ⟨a1, a2, a3⟩ := packDecode_range C H W index (List.mem_range.mp hidx)
      exact List.mem_range.mpr (pack_position_lt C H W _ _ _ a1 a2 a3)
  · rw [List.length_map]


/-! ## Pack is the transpose of unpack -/

section
variable {α : Type} [AddCommMonoid α]

theorem sum_flat3 (C H W : Nat) (g : Nat → α) :
    ∑ m in Finset.range (C * H * W), g m
      = ∑ c in Finset.range C, ∑ ih in Finset.range H, ∑ iw in Finset.range W,
          g (c * H * W + ih * W + iw) := by
  rw [sum_range_mul (C * H) W g,
    sum_range_mul C H (fun a => ∑ b in Finset.range W, g (a * W + b))]
  refine Finset.sum_congr rfl (fun c _ => Finset.sum_congr rfl (fun ih _ =>
    Finset.sum_congr rfl (fun iw _ => ?_)))
  have e : (c * H + ih) * W + iw = c * H * W + ih * W + iw := by ring
  rw [e]

theorem sum_flat5 (P Q C R S : Nat) (f : Nat → α) :
    ∑ k in Finset.range (P * Q * C * (R * S)), f k
      = ∑ oh in Finset.range P, ∑ ow in Finset.range Q, ∑ c in Finset.range C,
          ∑ i in Finset.range R, ∑ j in Finset.range S,
            f ((oh * Q + ow) * (C * R * S) + c * R * S + i * S + j) := by
  rw [sum_range_mul (P * Q * C) (R * S) f,
    sum_range_mul (P * Q) C (fun a => ∑ b in Finset.range (R * S), f (a * (R * S) + b)),
    sum_range_mul P Q (fun a' => ∑ c in Finset.range C,
      ∑ b in Finset.range (R * S), f ((a' * C + c) * (R * S) + b))]
  refine Finset.sum_congr rfl (fun oh _ => Finset.sum_congr rfl (fun ow _ =>
    Finset.sum_congr rfl (fun c _ => ?_)))
  rw [sum_range_mul R S (fun b => f (((oh * Q + ow) * C + c) * (R * S) + b))]
  refine Finset.sum_congr rfl (fun i _ => Finset.sum_congr rfl (fun j _ => ?_))
  have e : ((oh * Q + ow) * C + c) * (R * S) + (i * S + j)
      = (oh * Q + ow) * (C * R * S) + c * R * S + i * S + j := by ring
  rw [e]

theorem sum_rot3 {ι₁ ι₂ ι₃ : Type} (s₁ : Finset ι₁) (s₂ : Finset ι₂) (s₃ : Finset ι₃)
    (f : ι₁ → ι₂ → ι₃ → α) :
    ∑ a in s₁, ∑ b in s₂, ∑ c in s₃, f a b c = ∑ c in s₃, ∑ a in s₁, ∑ b in s₂, f a b c := by
  rw [Finset.sum_congr rfl (fun a _ => Finset.sum_comm)]
  exact Finset.sum_comm

theorem sum_rot4 {ι₁ ι₂ ι₃ ι₄ : Type} (s₁ : Finset ι₁) (s₂ : Finset ι₂) (s₃ : Finset ι₃)
    (s₄ : Finset ι₄) (f : ι₁ → ι₂ → ι₃ → ι₄ → α) :
    ∑ a in s₁, ∑ b in s₂, ∑ c in s₃, ∑ d in s₄, f a b c d
      = ∑ d in s₄, ∑ a in s₁, ∑ b in s₂, ∑ c in s₃, f a b c d := by
  rw [Finset.sum_congr rfl (fun a _ => sum_rot3 s₂ s₃ s₄ (f a))]
  exact Finset.sum_comm

theorem sum_rot5 {ι₁ ι₂ ι₃ ι₄ ι₅ : Type} (s₁ : Finset ι₁) (s₂ : Finset ι₂) (s₃ : Finset ι₃)
    (s₄ : Finset ι₄) (s₅ : Finset ι₅) (f : ι₁ → ι₂ → ι₃ → ι₄ → ι₅ → α) :
    ∑ a in s₁, ∑ b in s₂, ∑ c in s₃, ∑ d in s₄, ∑ e in s₅, f a b c d e
      = ∑ e in s₅, ∑ a in s₁, ∑ b in s₂, ∑ c in s₃, ∑ d in s₄, f a b c d e := by
  rw [Finset.sum_congr rfl (fun a _ => sum_rot4 s₂ s₃ s₄ s₅ (f a))]
  exact Finset.sum_comm

theorem sum_rot6 {ι₁ ι₂ ι₃ ι₄ ι₅ ι₆ : Type} (s₁ : Finset ι₁) (s₂ : Finset ι₂)
    (s₃ : Finset ι₃) (s₄ : Finset ι₄) (s₅ : Finset ι₅) (s₆ : Finset ι₆)
    (f : ι₁ → ι₂ → ι₃ → ι₄ → ι₅ → ι₆ → α) :
    ∑ a in s₁, ∑ b in s₂, ∑ c in s₃, ∑ d in s₄, ∑ e in s₅, ∑ g in s₆, f a b c d e g
      = ∑ g in s₆, ∑ a in s₁, ∑ b in s₂, ∑ c in s₃, ∑ d in s₄, ∑ e in s₅, f a b c d e g := by
  rw [Finset.sum_congr rfl (fun a _ => sum_rot5 s₂ s₃ s₄ s₅ s₆ (f a))]
  exact Finset.sum_comm

theorem sum_rot7 {ι₁ ι₂ ι₃ ι₄ ι₅ ι₆ ι₇ : Type} (s₁ : Finset ι₁) (s₂ : Finset ι₂)
    (s₃ : Finset ι₃) (s₄ : Finset ι₄) (s₅ : Finset ι₅) (s₆ : Finset ι₆) (s₇ : Finset ι₇)
    (f : ι₁ → ι₂ → ι₃ → ι₄ → ι₅ → ι₆ → ι₇ → α) :
    ∑ a in s₁, ∑ b in s₂, ∑ c in s₃, ∑ d in s₄, ∑ e in s₅, ∑ g in s₆, ∑ h in s₇,
        f a b c d e g h
      = ∑ h in s₇, ∑ a in s₁, ∑ b in s₂, ∑ c in s₃, ∑ d in s₄, ∑ e in s₅, ∑ g in s₆,
          f a b c d e g h := by
  rw [Finset.sum_congr rfl (fun a _ => sum_rot6 s₂ s₃ s₄ s₅ s₆ s₇ (f a))]
  exact Finset.sum_comm

/-- Reordering of the sum over windows, channels, window cells and input positions. -/
theorem sum_reorder7 (sP sQ sC sR sS sH sW : Finset Nat)
    (F : Nat → Nat → Nat → Nat → Nat → Nat → Nat → α) :
    ∑ oh in sP, ∑ ow in sQ, ∑ c in sC, ∑ i in sR, ∑ j in sS, ∑ ih in sH, ∑ iw in sW,
        F oh ow c i j ih iw
      = ∑ c in sC, ∑ ih in sH, ∑ iw in sW, ∑ oh in sP, ∑ ow in sQ, ∑ i in sR, ∑ j in sS,
          F oh ow c i j ih iw := by
  rw [sum_rot7 sP sQ sC sR sS sH sW F,
    Finset.sum_congr rfl (fun iw _ =>
      sum_rot6 sP sQ sC sR sS sH (fun oh ow c i j ih => F oh ow c i j ih iw)),
    Finset.sum_congr rfl (fun iw _ => Finset.sum_congr rfl (fun ih _ =>
      sum_rot3 sP sQ sC (fun oh ow c => ∑ i in sR, ∑ j in sS, F oh ow c i j ih iw))),
    sum_rot3 sW sH sC (fun iw ih c =>
      ∑ oh in sP, ∑ ow in sQ, ∑ i in sR, ∑ j in sS, F oh ow c i j ih iw)]
  exact Finset.sum_congr rfl (fun c _ => Finset.sum_comm)

theorem col2im_eq_sum (pack : Nat → α) (C R S P Q ph pw sh sw c ih iw : Nat) :
    col2im pack C R S P Q ph pw sh sw c ih iw
      = ∑ oh in Finset.range P, ∑ ow in Finset.range Q, ∑ fh in Finset.range R,
          ∑ fw in Finset.range S,
            if oh * sh + fh = ih + ph ∧ ow * sw + fw = iw + pw then
              pack ((oh * Q + ow) * (C * R * S) + c * R * S + fh * S + fw)
            else 0 := by
  unfold col2im
  simp only [list_range_sum]

/-- Within the `int` range a window cell holds the sum of the input elements whose position
it covers (one element or none). -/
theorem unpackCell_eq_sum (X : Nat → α) (H W R S P Q ph pw sh sw : Nat)
    (hfit : FitsInt H W R S P Q ph pw sh sw) (c oh ow i j : Nat)
    (hoh : oh < P) (how : ow < Q) (hi : i < R) (hj : j < S) :
    unpackCell X H W ph pw sh sw c oh ow i j
      = ∑ ih in Finset.range H, ∑ iw in Finset.range W,
          if oh * sh + i = ih + ph ∧ ow * sw + j = iw + pw then
            X (c * H * W + ih * W + iw)
          else 0 := by
  have hfit' := hfit
  obtain ⟨hH, hW, _, _, hP, hQ⟩ := hfit'
  by_cases hin : (ph ≤ oh * sh + i ∧ oh * sh + i < ph + H) ∧
      (pw ≤ ow * sw + j ∧ ow * sw + j < pw + W)
  · obtain ⟨⟨a1, a2⟩, ⟨b1, b2⟩⟩ := hin
    have e : (c * H + (oh * sh + i - ph)) * W + (ow * sw + j - pw)
        = c * H * W + (oh * sh + i - ph) * W + (ow * sw + j - pw) := by ring
    rw [unpackCell_in_bounds X H W ph pw sh sw c oh ow i j (oh * sh + i - ph)
      (ow * sw + j - pw) hH hW (by omega) (by omega) (by omega) (by omega) (by omega)
      (by omega), e,
      Finset.sum_eq_single (oh * sh + i - ph), Finset.sum_eq_single (ow * sw + j - pw),
      if_pos ⟨by omega, by omega⟩]
    · intro iw _ hne
      rw [if_neg (fun h => hne (by omega))]
    · intro hnot
      exact absurd (Finset.mem_range.mpr (by omega)) hnot
    · intro ih _ hne
      apply Finset.sum_eq_zero
      intro iw _
      rw [if_neg (fun h => hne (by omega))]
    · intro hnot
      exact absurd (Finset.mem_range.mpr (by omega)) hnot
  · have hout : ((oh * sh : Nat) : Int) - ph + i < 0 ∨
        (H : Int) ≤ ((oh * sh : Nat) : Int) - ph + i ∨
        ((ow * sw : Nat) : Int) - pw + j < 0 ∨
        (W : Int) ≤ ((ow * sw : Nat) : Int) - pw + j := by
      by_contra hc
      apply hin
      omega
    rw [unpackCell_out_of_bounds X H W R S P Q ph pw sh sw c oh ow i j hfit hoh how hi hj hout]
    symm
    apply Finset.sum_eq_zero
    intro ih hih
    apply Finset.sum_eq_zero
    intro iw hiw
    have := Finset.mem_range.mp hih
    have := Finset.mem_range.mp hiw
    rw [if_neg (fun h => hin (by omega))]

end

section
variable {α : Type} [Semiring α]

/-- Transpose identity for any buffer `U` that holds the unpacked `X` and any buffer `Pk`
that holds the col2im sums of `Y`. -/
theorem unpack_pack_adjoint_sum (X Y U Pk : Nat → α) (C H W R S P Q ph pw sh sw : Nat)
    (hfit : FitsInt H W R S P Q ph pw sh sw)
    (hU : ∀ k, k < P * Q * C * (R * S) → U k = unpackSpec X C H W R S Q ph pw sh sw k)
    (hPk : ∀ c ih iw, c < C → ih < H → iw < W →
      Pk (c * H * W + ih * W + iw) = col2im Y C R S P Q ph pw sh sw c ih iw) :
    ∑ k in Finset.range (P * Q * C * (R * S)), U k * Y k
      = ∑ m in Finset.range (C * H * W), X m * Pk m := by
  rw [sum_flat5 P Q C R S (fun k => U k * Y k), sum_flat3 C H W (fun m => X m * Pk m)]
  have hL : ∀ oh ∈ Finset.range P, ∀ ow ∈ Finset.range Q, ∀ c ∈ Finset.range C,
      ∀ i ∈ Finset.range R, ∀ j ∈ Finset.range S,
      U ((oh * Q + ow) * (C * R * S) + c * R * S + i * S + j) *
          Y ((oh * Q + ow) * (C * R * S) + c * R * S + i * S + j)
        = ∑ ih in Finset.range H, ∑ iw in Finset.range W,
            if oh * sh + i = ih + ph ∧ ow * sw + j = iw + pw then
              X (c * H * W + ih * W + iw) *
                Y ((oh * Q + ow) * (C * R * S) + c * R * S + i * S + j)
            else 0 := by
    intro oh hoh ow how c hc i hi j hj
    have hoh' := Finset.mem_range.mp hoh
    have how' := Finset.mem_range.mp how
    have hc' := Finset.mem_range.mp hc
    have hi' := Finset.mem_range.mp hi
    have hj' := Finset.mem_range.mp hj
    rw [hU _ (unpack_index_lt C R S P Q c oh ow i j hc' hoh' how' hi' hj'),
      unpackSpec_at X C H W R S Q ph pw sh sw c oh ow i j hc' how' hi' hj',
      unpackCell_eq_sum X H W R S P Q ph pw sh sw hfit c oh ow i j hoh' how' hi' hj']
    simp only [Finset.sum_mul, ite_mul, zero_mul]
  have hR : ∀ c ∈ Finset.range C, ∀ ih ∈ Finset.range H, ∀ iw ∈ Finset.range W,
      X (c * H * W + ih * W + iw) * Pk (c * H * W + ih * W + iw)
        = ∑ oh in Finset.range P, ∑ ow in Finset.range Q, ∑ i in Finset.range R,
            ∑ j in Finset.range S,
              if oh * sh + i = ih + ph ∧ ow * sw + j = iw + pw then
                X (c * H * W + ih * W + iw) *
                  Y ((oh * Q + ow) * (C * R * S) + c * R * S + i * S + j)
              else 0 := by
    intro c hc ih hih iw hiw
    rw [hPk c ih iw (Finset.mem_range.mp hc) (Finset.mem_range.mp hih)
      (Finset.mem_range.mp hiw), col2im_eq_sum]
    simp only [Finset.mul_sum, mul_ite, mul_zero]
  rw [Finset.sum_congr rfl (fun oh hoh => Finset.sum_congr rfl (fun ow how =>
      Finset.sum_congr rfl (fun c hc => Finset.sum_congr rfl (fun i hi =>
        Finset.sum_congr rfl (fun j hj => hL oh hoh ow how c hc i hi j hj))))),
    Finset.sum_congr rfl (fun c hc => Finset.sum_congr rfl (fun ih hih =>
      Finset.sum_congr rfl (fun iw hiw => hR c hc ih hih iw hiw)))]
  exact sum_reorder7 _ _ _ _ _ _ _ (fun oh ow c i j ih iw =>
    if oh * sh + i = ih + ph ∧ ow * sw + j = iw + pw then
      X (c * H * W + ih * W + iw) * Y ((oh * Q + ow) * (C * R * S) + c * R * S + i * S + j)
    else 0)

end

/-! ## Claim about the declared layout -/

/-- C21. Layout declaration: for every argument list, `Unpack2DFunc` returns the layout tag
`BLITZ_PACK_CRSPQ`, whatever `input_data_layout` is passed; this holds in the small-kernel
branch (`channel ≤ 64` and `output_height * output_width ≤ 256`), where the buffer returned is
the one `GPUUnpack1024Kernel` leaves, and in the general-kernel branch, where it is the one
`GPUUnpackKernel` leaves. -/
theorem Unpack2DFunc_declares_layout {α : Type} [Zero α] (input unpack : Nat → α)
    (channel input_height input_width filter_height filter_width output_height output_width
      padding_height padding_width stride_height stride_width : Nat)
    (input_data_layout : BLITZ_DATA_LAYOUT) :
    (Unpack2DFunc input unpack channel input_height input_width filter_height filter_width
        output_height output_width padding_height padding_width stride_height stride_width
        input_data_layout).2 = BLITZ_DATA_LAYOUT.BLITZ_PACK_CRSPQ ∧
    (channel ≤ 64 ∧ output_height * output_width ≤ 256 →
      Unpack2DFunc input unpack channel input_height input_width filter_height filter_width
          output_height output_width padding_height padding_width stride_height stride_width
          input_data_layout
        = (GPUUnpack1024Kernel channel output_height output_width input unpack
            input_height input_width filter_height filter_width
            padding_height padding_width stride_height stride_width,
          BLITZ_DATA_LAYOUT.BLITZ_PACK_CRSPQ)) ∧
    (¬ (channel ≤ 64 ∧ output_height * output_width ≤ 256) →
      Unpack2DFunc input unpack channel input_height input_width filter_height filter_width
          output_height output_width padding_height padding_width stride_height stride_width
          input_data_layout
        = (GPUUnpackKernel input unpack (channel * output_height * output_width) channel
            input_height input_width filter_height filter_width output_height output_width
            padding_height padding_width stride_height stride_width,
          BLITZ_DATA_LAYOUT.BLITZ_PACK_CRSPQ)) := by
  refine ⟨?_, fun h => ?_, fun h => ?_⟩
  · unfold Unpack2DFunc
    split <;> rfl
  · unfold Unpack2DFunc
    rw [if_pos h]
  · unfold Unpack2DFunc
    rw [if_neg h]


/-! ## Claim about the shapes the layer hands to the backend -/

/-- C27. Shapes built by the layer satisfy the backend's cross-tensor checks: whenever
`Conv::InitImpl` completes on an input shape `(N, C, H, W)`, the forward-output shape has batch
`N`, the weight (and update) shape is `(K, C, R, S)` with `K` the channel of the output shape
and `C` the channel of the input, and the backward-output shape is the input shape.  Hence,
for decoders that read `NCHW` buffers and `KCRS` filters in storage order and an input in
`NCHW` layout, the calls `ForwardPropImpl` and `BackwardPropImpl` make on the layer's tensors
pass the three `CHECK_EQ` lines (batch, output channel, input channel): the forward call is
the algorithm switch itself and no call ends in a failed check. -/
theorem Conv.InitImpl_shapes_pass_backend_checks (BLITZ_NUM_THREADS : Nat) (self : Conv)
    (input_shape : Shape) (t : ConvTensors)
    (hok : Conv.InitImpl BLITZ_NUM_THREADS self input_shape = Except.ok t) :
    (t.forward_output_.dim0 = input_shape.dim0 ∧
      t.weight_ = { dim0 := self.filter_shape_.dim0, dim1 := input_shape.dim1,
                    dim2 := self.filter_shape_.dim2, dim3 := self.filter_shape_.dim3,
                    data_layout := BLITZ_DATA_LAYOUT.BLITZ_FILTER_KCRS } ∧
      t.weight_.dim0 = t.forward_output_.dim1 ∧
      t.weight_.dim1 = input_shape.dim1 ∧
      t.update_ = t.weight_ ∧
      t.backward_output_ = input_shape) ∧
    (∀ env : Env,
      (∀ s, env.Blitz2DBuffer BLITZ_DATA_LAYOUT.BLITZ_BUFFER_NCHW s
        = (s.dim0, s.dim1, s.dim2, s.dim3)) →
      (∀ s, env.Blitz2DFilter BLITZ_DATA_LAYOUT.BLITZ_FILTER_KCRS s
        = (s.dim0, s.dim1, s.dim2, s.dim3)) →
      input_shape.data_layout = BLITZ_DATA_LAYOUT.BLITZ_BUFFER_NCHW →
      ∀ (workspace_ : MICTensor) (backward_prop_ : Bool),
        Conv.ForwardPropImpl env self t workspace_ (MICTensor.ofShape input_shape)
          = dispatch env LIBXSMM_DNN_CONV_KIND.LIBXSMM_DNN_CONV_KIND_FWD
              (List.range env.omp_num_threads)
              (prepareArgs env (MICTensor.ofShape input_shape) (MICTensor.ofShape t.weight_)
                (MICTensor.ofShape t.forward_output_) self.padding_height_
                self.padding_width_ self.stride_height_ self.stride_width_)
              self.algorithm_ ∧
        (∀ lhs rhs a b,
          (Conv.ForwardPropImpl env self t workspace_ (MICTensor.ofShape input_shape)).fatal
            ≠ some (Fatal.check_eq lhs rhs a b)) ∧
        (∀ lhs rhs a b,
          (Conv.BackwardPropImpl env self t workspace_ backward_prop_
              (MICTensor.ofShape input_shape) (MICTensor.ofShape t.forward_output_)).fatal
            ≠ some (Fatal.check_eq lhs rhs a b))) := by
  obtain ⟨hb, hw, hu, h0, h1, _, _⟩ :=
    Conv.InitImpl_ok_tensors BLITZ_NUM_THREADS self input_shape t hok
  refine ⟨⟨h0, hw, ?_, ?_, hu, hb⟩, ?_⟩
  · rw [hw, h1]
  · rw [hw]
  intro env hbuf hfil hlayout workspace_ backward_prop_
  obtain ⟨e1, e2, e3⟩ := layer_tensors_decode env BLITZ_NUM_THREADS self input_shape t hok
    hbuf hfil hlayout _ _ _ rfl rfl rfl
  have hfwd : Conv.ForwardPropImpl env self t workspace_ (MICTensor.ofShape input_shape)
      = dispatch env LIBXSMM_DNN_CONV_KIND.LIBXSMM_DNN_CONV_KIND_FWD
          (List.range env.omp_num_threads)
          (prepareArgs env (MICTensor.ofShape input_shape) (MICTensor.ofShape t.weight_)
            (MICTensor.ofShape t.forward_output_) self.padding_height_
            self.padding_width_ self.stride_height_ self.stride_width_)
          self.algorithm_ := by
    unfold Conv.ForwardPropImpl Convolution2DForwardFunc
    exact checkedDispatch_accept env _ _ _ _ _ _ _ _ _ _ e1 e2 e3
  refine ⟨hfwd, fun lhs rhs a b => ?_, fun lhs rhs a b => ?_⟩
  · rw [hfwd]
    exact dispatch_fatal_ne_check_eq env _ _ _ _ lhs rhs a b
  · have hbwd : Convolution2DBackwardFunc env (MICTensor.ofShape t.forward_output_)
        (MICTensor.ofShape t.weight_) (MICTensor.ofShape t.backward_output_) workspace_
        self.padding_height_ self.padding_width_ self.stride_height_ self.stride_width_
        self.algorithm_
        = dispatch env LIBXSMM_DNN_CONV_KIND.LIBXSMM_DNN_CONV_KIND_BWD [0]
            (prepareArgs env (MICTensor.ofShape input_shape) (MICTensor.ofShape t.weight_)
              (MICTensor.ofShape t.forward_output_) self.padding_height_
              self.padding_width_ self.stride_height_ self.stride_width_)
            self.algorithm_ := by
      unfold Convolution2DBackwardFunc
      rw [hb]
      exact checkedDispatch_accept env _ _ _ _ _ _ _ _ _ _ e1 e2 e3
    have hupd : Convolution2DUpdateFunc env (MICTensor.ofShape input_shape)
        (MICTensor.ofShape t.forward_output_) (MICTensor.ofShape t.update_) workspace_
        self.padding_height_ self.padding_width_ self.stride_height_ self.stride_width_
        self.algorithm_
        = dispatch env LIBXSMM_DNN_CONV_KIND.LIBXSMM_DNN_CONV_KIND_UPD
            (List.range env.omp_num_threads)
            (prepareArgs env (MICTensor.ofShape input_shape) (MICTensor.ofShape t.weight_)
              (MICTensor.ofShape t.forward_output_) self.padding_height_
              self.padding_width_ self.stride_height_ self.stride_width_)
            self.algorithm_ := by
      unfold Convolution2DUpdateFunc
      rw [hu]
      exact checkedDispatch_accept env _ _ _ _ _ _ _ _ _ _ e1 e2 e3
    unfold Conv.BackwardPropImpl
    simp only [hbwd, hupd]
    split
    · rename_i f hf
      rw [hf]
      intro hcontra
      cases backward_prop_
      · simp at hf
      · simp only [if_true] at hf
        rw [Option.some.injEq] at hcontra
        rw [hcontra] at hf
        exact dispatch_fatal_ne_check_eq env _ _ _ _ lhs rhs a b hf
    · exact dispatch_fatal_ne_check_eq env _ _ _ _ lhs rhs a b

/-- Witness for C27: the fused-direct algorithm on input
`(2, 3, 6, 5)`, filter `(4, 3, 3, 3)`, no padding, stride `(2, 1)`: the shapes built are
`(2, 4, 2, 3)`, `(4, 3, 3, 3)` and `(2, 3, 6, 5)`, and the forward and backward calls of the
layer run the prepare step and the compute steps. -/
theorem Conv.InitImpl_shapes_pass_backend_checks_witness :
    Conv.InitImpl 4
        { filter_shape_ := ⟨4, 3, 3, 3, BLITZ_DATA_LAYOUT.BLITZ_FILTER_KCRS⟩
          padding_height_ := 0, padding_width_ := 0, stride_height_ := 2, stride_width_ := 1
          algorithm_ := BLITZ_ALGORITHM.BLITZ_CONVOLUTION_XSMM_DIRECT }
        ⟨2, 3, 6, 5, BLITZ_DATA_LAYOUT.BLITZ_BUFFER_NCHW⟩
      = Except.ok
          { forward_output_ := ⟨2, 4, 2, 3, BLITZ_DATA_LAYOUT.BLITZ_BUFFER_NCHW⟩
            backward_output_ := ⟨2, 3, 6, 5, BLITZ_DATA_LAYOUT.BLITZ_BUFFER_NCHW⟩
            weight_ := ⟨4, 3, 3, 3, BLITZ_DATA_LAYOUT.BLITZ_FILTER_KCRS⟩
            update_ := ⟨4, 3, 3, 3, BLITZ_DATA_LAYOUT.BLITZ_FILTER_KCRS⟩
            workspace_ := some 1080 } ∧
    (∀ lhs rhs a b,
      (Conv.BackwardPropImpl nchwEnv
          { filter_shape_ := ⟨4, 3, 3, 3, BLITZ_DATA_LAYOUT.BLITZ_FILTER_KCRS⟩
            padding_height_ := 0, padding_width_ := 0, stride_height_ := 2, stride_width_ := 1
            algorithm_ := BLITZ_ALGORITHM.BLITZ_CONVOLUTION_XSMM_DIRECT }
          { forward_output_ := ⟨2, 4, 2, 3, BLITZ_DATA_LAYOUT.BLITZ_BUFFER_NCHW⟩
            backward_output_ := ⟨2, 3, 6, 5, BLITZ_DATA_LAYOUT.BLITZ_BUFFER_NCHW⟩
            weight_ := ⟨4, 3, 3, 3, BLITZ_DATA_LAYOUT.BLITZ_FILTER_KCRS⟩
            update_ := ⟨4, 3, 3, 3, BLITZ_DATA_LAYOUT.BLITZ_FILTER_KCRS⟩
            workspace_ := some 1080 }
          (nchwTensor 1080 1 1 1) true
          (MICTensor.ofShape ⟨2, 3, 6, 5, BLITZ_DATA_LAYOUT.BLITZ_BUFFER_NCHW⟩)
          (MICTensor.ofShape ⟨2, 4, 2, 3, BLITZ_DATA_LAYOUT.BLITZ_BUFFER_NCHW⟩)).fatal
        ≠ some (Fatal.check_eq lhs rhs a b)) :=
  ⟨rfl, ((Conv.InitImpl_shapes_pass_backend_checks 4
    { filter_shape_ := ⟨4, 3, 3, 3, BLITZ_DATA_LAYOUT.BLITZ_FILTER_KCRS⟩
      padding_height_ := 0, padding_width_ := 0, stride_height_ := 2, stride_width_ := 1
      algorithm_ := BLITZ_ALGORITHM.BLITZ_CONVOLUTION_XSMM_DIRECT }
    ⟨2, 3, 6, 5, BLITZ_DATA_LAYOUT.BLITZ_BUFFER_NCHW⟩
    { forward_output_ := ⟨2, 4, 2, 3, BLITZ_DATA_LAYOUT.BLITZ_BUFFER_NCHW⟩
      backward_output_ := ⟨2, 3, 6, 5, BLITZ_DATA_LAYOUT.BLITZ_BUFFER_NCHW⟩
      weight_ := ⟨4, 3, 3, 3, BLITZ_DATA_LAYOUT.BLITZ_FILTER_KCRS⟩
      update_ := ⟨4, 3, 3, 3, BLITZ_DATA_LAYOUT.BLITZ_FILTER_KCRS⟩
      workspace_ := some 1080 } rfl).2 nchwEnv (fun _ => rfl) (fun _ => rfl) rfl
      (nchwTensor 1080 1 1 1) true).2.2⟩


/-! ## Claim about the store of the pack kernels -/

/-- C26. Pack overwrites rather than accumulates.  In both pack kernels the thread of position
`(c, ih, iw)` performs the single store `input[c*H*W + ih*W + iw] = sum`, where `sum` is
computed from the pack buffer alone.  So for every pack buffer and any two initial contents
`input`, `input'` of the destination, every index some thread of the launch stores to holds
the same value afterwards, and every index no thread stores to keeps its previous content;
this holds for the small kernel on its grid and for the general kernel on any `size`. -/
theorem pack_overwrites {α : Type} [AddCommMonoid α] (pack input input' : Nat → α)
    (C H W R S P Q ph pw sh sw : Nat) :
    (∀ c ih iw, packThread pack input C H W R S P Q ph pw sh sw c ih iw
      = store input (c * H * W + ih * W + iw) (packSum pack C R S P Q ph pw sh sw c ih iw)) ∧
    (∀ k, (∃ c ih iw, c < C ∧ ih < H ∧ iw < W ∧ k = c * H * W + ih * W + iw) →
      GPUPack1024Kernel C H W pack input R S P Q ph pw sh sw k
        = GPUPack1024Kernel C H W pack input' R S P Q ph pw sh sw k) ∧
    (∀ k, (¬ ∃ c ih iw, c < C ∧ ih < H ∧ iw < W ∧ k = c * H * W + ih * W + iw) →
      GPUPack1024Kernel C H W pack input R S P Q ph pw sh sw k = input k) ∧
    (∀ size k,
      (∃ index, index < size ∧ k = index / W % C * H * W + index / W % H * W + index % W) →
      GPUPackKernel pack input size C H W R S P Q ph pw sh sw k
        = GPUPackKernel pack input' size C H W R S P Q ph pw sh sw k) ∧
    (∀ size k,
      (¬ ∃ index, index < size ∧
        k = index / W % C * H * W + index / W % H * W + index % W) →
      GPUPackKernel pack input size C H W R S P Q ph pw sh sw k = input k) := by
  refine ⟨fun c ih iw => rfl, fun k hk => ?_, fun k hk => ?_, fun size k hk => ?_,
    fun size k hk => ?_⟩
  · obtain ⟨c, ih, iw, hc, hih, hiw, rfl⟩ := hk
    rw [GPUPack1024Kernel_eq_foldl, GPUPack1024Kernel_eq_foldl]
    exact foldl_store_agree (fun t : Nat × Nat × Nat => t.1 * H * W + t.2.1 * W + t.2.2)
      (fun t => packSum pack C R S P Q ph pw sh sw t.1 t.2.1 t.2.2) _ _
      ⟨(c, ih, iw), (mem_launchThreads C H W _).mpr ⟨hc, hih, hiw⟩, rfl⟩ _ _
  · rw [GPUPack1024Kernel_eq_foldl]
    refine foldl_store_frame (fun t : Nat × Nat × Nat => t.1 * H * W + t.2.1 * W + t.2.2)
      (fun t => packSum pack C R S P Q ph pw sh sw t.1 t.2.1 t.2.2) _ _ ?_ _
    intro t ht e
    obtain ⟨h1, h2, h3⟩ := (mem_launchThreads C H W t).mp ht
    exact hk ⟨t.1, t.2.1, t.2.2, h1, h2, h3, e.symm⟩
  · obtain ⟨index, hidx, rfl⟩ := hk
    rw [GPUPackKernel_eq_foldl, GPUPackKernel_eq_foldl]
    exact foldl_store_agree
      (fun index => index / W % C * H * W + index / W % H * W + index % W)
      (fun index => packSum pack C R S P Q ph pw sh sw
        (index / W % C) (index / W % H) (index % W)) _ _
      ⟨index, List.mem_range.mpr hidx, rfl⟩ _ _
  · rw [GPUPackKernel_eq_foldl]
    refine foldl_store_frame
      (fun index => index / W % C * H * W + index / W % H * W + index % W)
      (fun index => packSum pack C R S P Q ph pw sh sw
        (index / W % C) (index / W % H) (index % W)) _ _ ?_ _
    intro index hidx e
    exact hk ⟨index, List.mem_range.mp hidx, e.symm⟩


/-! ## Claim about the accesses of the pack kernels -/

/-- C22. Pack never indexes out of range: for every configuration with stride at least 1,
both pack kernels (the small one on its `C × H × W` grid, the general one on `size = C*H*W`),
run with every subtraction checked for a borrow, every read bounds-checked against a pack
buffer of `P*Q*C*R*S` elements and every store bounds-checked against an input buffer of
`C*H*W` elements, never take a failing branch and return the buffer the unchecked kernels
return.  Explicitly, for every thread `c < C`, `ih < H`, `iw < W` (and every flat index below
`C*H*W` decodes to such a thread) the index stored to is below `C*H*W`, and for all padded
coordinates `x`, `y` (in particular the `size_t` sums `ih + pad_h`, `iw + pad_w` the thread
computes, wrapped or not) and every `i`, `j` of the loop ranges, `i * stride_h ≤ x`,
`j * stride_w ≤ y` and the index read is below `P*Q*C*R*S`. -/
theorem pack_accesses_in_range {α : Type} [AddCommMonoid α] (pack input : Nat → α)
    (C H W R S P Q ph pw sh sw : Nat) (hsh : 1 ≤ sh) (hsw : 1 ≤ sw) :
    GPUPack1024KernelChecked C H W pack (P * Q * C * R * S) input (C * H * W)
        R S P Q ph pw sh sw
      = some (GPUPack1024Kernel C H W pack input R S P Q ph pw sh sw) ∧
    GPUPackKernelChecked pack (P * Q * C * R * S) input (C * H * W) (C * H * W)
        C H W R S P Q ph pw sh sw
      = some (GPUPackKernel pack input (C * H * W) C H W R S P Q ph pw sh sw) ∧
    (∀ index, index < C * H * W →
      (packDecode C H W index).1 < C ∧ (packDecode C H W index).2.1 < H ∧
        (packDecode C H W index).2.2 < W) ∧
    (∀ c ih iw, c < C → ih < H → iw < W →
      c * H * W + ih * W + iw < C * H * W ∧
      ∀ x y, (¬ x < R → R ≤ x) ∧ (¬ y < S → S ≤ y) ∧
        ∀ i j, pack_start x R sh ≤ i → i < pack_end x sh P →
          pack_start y S sw ≤ j → j < pack_end y sw Q →
          i * sh ≤ x ∧ j * sw ≤ y ∧
          S * R * c + ((i * Q + j) * (R * S * C) + (x - i * sh) * S + (y - j * sw))
            < P * Q * C * R * S) := by
  rw [Nat.mul_assoc (P * Q * C) R S]
  refine ⟨GPUPack1024KernelChecked_eq C H W pack input R S P Q ph pw sh sw hsh hsw,
    GPUPackKernelChecked_eq C H W pack input R S P Q ph pw sh sw hsh hsw,
    fun index hidx => packDecode_range C H W index hidx, ?_⟩
  intro c ih iw hc hih hiw
  refine ⟨pack_position_lt C H W c ih iw hc hih hiw, fun x y =>
    ⟨Nat.le_of_not_lt, Nat.le_of_not_lt, ?_⟩⟩
  intro i j hi1 hi2 hj1 hj2
  obtain ⟨hiP, hile, hfh⟩ := pack_filter_index x R sh P i hsh hi1 hi2
  obtain ⟨hjQ, hjle, hfw⟩ := pack_filter_index y S sw Q j hsw hj1 hj2
  exact ⟨hile, hjle, pack_read_lt C R S P Q c i j _ _ hc hiP hjQ hfh hfw⟩

/-- Witness for C22: a `2 × 3 × 3` input, `2 × 2` filter, `2 × 2` outputs, padding 1,
stride 2, pack buffer of 32 elements: the checked small kernel returns the buffer of the
unchecked one. -/
theorem pack_accesses_in_range_witness :
    GPUPack1024KernelChecked 2 3 3 (fun k => (k : Int)) (2 * 2 * 2 * 2 * 2) (fun _ => 0)
        (2 * 3 * 3) 2 2 2 2 1 1 2 2
      = some (GPUPack1024Kernel 2 3 3 (fun k => (k : Int)) (fun _ => 0) 2 2 2 2 1 1 2 2) :=
  (pack_accesses_in_range (fun k => (k : Int)) (fun _ => 0) 2 3 3 2 2 2 2 1 1 2 2
    (by decide) (by decide)).1


/-! ## Claim about the index decoding of the general pack kernel -/

/-- C23, counterexample.  `Pack2DFunc` with `C = 65`, `H = 2`, `W = 1` (`gcd(65, 2) = 1`,
general kernel since `C > 64`), a `1 × 1` filter, one output position, stride 1,
`padding_height = 2^64 - 1`, a pack buffer of all ones and a zeroed destination.  No window
covers position `(0, 1, 0)` (`oh + fh = 1 + (2^64 - 1)` has no solution with `oh < 1`,
`fh < 1`), so its col2im sum is `0`.  The thread of that position (flat index 65) computes
`ih + pad` in `size_t`, where it is `0`: its range is `[0, 1)` and it stores `pack[0] = 1`. -/
theorem general_pack_kernel_sum_wraps_at_large_padding :
    Nat.gcd 65 2 = 1 ∧ ¬ (65 ≤ 64 ∧ 2 * 1 ≤ 256) ∧
    col2im (fun _ => (1 : Int)) 65 1 1 1 1 (2 ^ 64 - 1) 0 1 1 0 1 0 = 0 ∧
    (Pack2DFunc (fun _ => (1 : Int)) (fun _ => 0) 65 2 1 1 1 1 1 (2 ^ 64 - 1) 0 1 1
        BLITZ_DATA_LAYOUT.BLITZ_PACK_CRSPQ).1 (0 * 2 * 1 + 1 * 1 + 0) = 1 := by
  refine ⟨by decide, by decide, by decide, ?_⟩
  have hgen : (Pack2DFunc (fun _ => (1 : Int)) (fun _ => 0) 65 2 1 1 1 1 1 (2 ^ 64 - 1) 0 1 1
      BLITZ_DATA_LAYOUT.BLITZ_PACK_CRSPQ).1
      = GPUPackKernel (fun _ => (1 : Int)) (fun _ => 0) (65 * 2 * 1) 65 2 1 1 1 1 1
          (2 ^ 64 - 1) 0 1 1 := by
    unfold Pack2DFunc
    rw [if_neg (by decide)]
  have hval : GPUPackKernel (fun _ => (1 : Int)) (fun _ => 0) (65 * 2 * 1) 65 2 1 1 1 1 1
      (2 ^ 64 - 1) 0 1 1 (0 * 2 * 1 + 1 * 1 + 0)
      = packSum (fun _ => (1 : Int)) 65 1 1 1 1 (2 ^ 64 - 1) 0 1 1 0 1 0 := by
    unfold GPUPackKernel BLITZ_CUDA_LOOP
    exact pack_workers_at (List.range (65 * 2 * 1))
      (fun index => (index / 1 % 65, index / 1 % 2, index % 1)) 65 2 1
      (fun index hidx => (packDecode_range 65 2 1 index (List.mem_range.mp hidx)).2)
      _ _ 1 1 1 1 (2 ^ 64 - 1) 0 1 1 0 1 0 (by decide) (by decide)
      ⟨65, List.mem_range.mpr (by decide), by decide⟩
  rw [hgen, hval]
  decide

/-- C23, amended.  On a shape with at least one position (`C, H, W ≥ 1`) the index decoding
of the general pack kernel, `c = (index / W) % C`, `ih = (index / W) % H`, `iw = index % W`,
is a bijection from `[0, C*H*W)` onto the positions `(c, ih, iw)` with `c < C`, `ih < H`,
`iw < W` if and only if `gcd(C, H) = 1`.  When `gcd(C, H) = 1` the kernel stores to every
position exactly once and leaves there the sum the pack thread of that position computes,
which is the col2im sum when the strides are at least 1 and the sums `ih + pad` do not wrap
in `size_t` (`H + pad_h < 2^64`, `W + pad_w < 2^64`).  When `gcd(C, H) > 1` two different
flat indices decode to the same position and some position is decoded from no index, so the
kernel stores to it never and it keeps its previous content. -/
theorem general_pack_decode_bijective_iff_coprime (α : Type) [AddCommMonoid α]
    (C H W : Nat) (hC : 1 ≤ C) (hH : 1 ≤ H) (hW : 1 ≤ W) :
    (((∀ index, index < C * H * W →
          (packDecode C H W index).1 < C ∧ (packDecode C H W index).2.1 < H ∧
            (packDecode C H W index).2.2 < W) ∧
        (∀ c ih iw, c < C → ih < H → iw < W →
          ∃! index, index < C * H * W ∧ packDecode C H W index = (c, ih, iw))) ↔
      Nat.gcd C H = 1) ∧
    (Nat.gcd C H = 1 →
      (GPUPackKernelWrites (C * H * W) C H W).Perm (List.range (C * H * W)) ∧
      ∀ (pack input : Nat → α) (R S P Q ph pw sh sw c ih iw : Nat),
        c < C → ih < H → iw < W →
        GPUPackKernel pack input (C * H * W) C H W R S P Q ph pw sh sw
            (c * H * W + ih * W + iw)
          = packSum pack C R S P Q ph pw sh sw c ih iw ∧
        (1 ≤ sh → 1 ≤ sw → H + ph < 2 ^ 64 → W + pw < 2 ^ 64 →
          GPUPackKernel pack input (C * H * W) C H W R S P Q ph pw sh sw
              (c * H * W + ih * W + iw)
            = col2im pack C R S P Q ph pw sh sw c ih iw)) ∧
    (1 < Nat.gcd C H →
      (∃ index index', index < C * H * W ∧ index' < C * H * W ∧ index ≠ index' ∧
        packDecode C H W index = packDecode C H W index') ∧
      (∃ c ih iw, c < C ∧ ih < H ∧ iw < W ∧
        (∀ index, index < C * H * W → packDecode C H W index ≠ (c, ih, iw)) ∧
        ∀ (pack input : Nat → α) (R S P Q ph pw sh sw : Nat),
          GPUPackKernel pack input (C * H * W) C H W R S P Q ph pw sh sw
              (c * H * W + ih * W + iw)
            = input (c * H * W + ih * W + iw))) := by
  have hH2 : 1 < Nat.gcd C H → 1 < H := fun hg =>
    Nat.lt_of_lt_of_le hg (Nat.le_of_dvd hH (Nat.gcd_dvd_right C H))
  refine ⟨⟨fun hbij => ?_, fun hco => ⟨fun index hidx => packDecode_range C H W index hidx,
    fun c ih iw hc hih hiw => ?_⟩⟩, fun hco => ⟨GPUPackKernelWrites_perm C H W hco, ?_⟩,
    fun hg => ⟨?_, ?_⟩⟩
  · by_contra hne
    have hg : 1 < Nat.gcd C H := by
      have := Nat.gcd_pos_of_pos_left H hC
      omega
    obtain ⟨index, ⟨_, he⟩, _⟩ := hbij.2 0 1 0 hC (hH2 hg) hW
    exact packDecode_misses C H W index hg he
  · obtain ⟨index, hidx, he⟩ := packDecode_surjective C H W c ih iw hco hc hih hiw
    refine ⟨index, ⟨hidx, he⟩, fun index' h' => ?_⟩
    exact packDecode_injective C H W index' index hco h'.1 hidx (h'.2.trans he.symm)
  · intro pack input R S P Q ph pw sh sw c ih iw hc hih hiw
    have hval : GPUPackKernel pack input (C * H * W) C H W R S P Q ph pw sh sw
        (c * H * W + ih * W + iw) = packSum pack C R S P Q ph pw sh sw c ih iw := by
      unfold GPUPackKernel BLITZ_CUDA_LOOP
      refine pack_workers_at (List.range (C * H * W))
        (fun index => (index / W % C, index / W % H, index % W)) C H W ?_
        pack input R S P Q ph pw sh sw c ih iw hih hiw ?_
      · intro index hidx
        exact (packDecode_range C H W index (List.mem_range.mp hidx)).2
      · obtain ⟨index, hidx, he⟩ := packDecode_surjective C H W c ih iw hco hc hih hiw
        exact ⟨index, List.mem_range.mpr hidx, he⟩
    exact ⟨hval, fun hsh hsw hph hpw => by
      rw [hval, packSum_eq_col2im pack C R S P Q ph pw sh sw hsh hsw c ih iw (by omega)
        (by omega)]⟩
  · obtain ⟨h1, h2, h3, h4, h5⟩ := packDecode_collides C H W hC hH hW hg
    exact ⟨0, Nat.lcm C H * W, h2, h1, h3, h4.trans h5.symm⟩
  · refine ⟨0, 1, 0, hC, hH2 hg, hW, fun index _ => packDecode_misses C H W index hg, ?_⟩
    intro pack input R S P Q ph pw sh sw
    apply GPUPackKernel_untouched
    intro index hidx hk
    obtain ⟨_, a2, a3⟩ := packDecode_range C H W index hidx
    obtain ⟨k1, k2, k3⟩ := position_injective H W _ _ _ _ _ _ (hH2 hg) hW a2 a3 hk
    exact residues_miss C H (index / W) hg ⟨k1.symm, k2.symm⟩

/-- Witness for the amended C23: with `C = 2`, `H = 3`, `W = 1` (coprime) the kernel stores to
each of the 6 positions once. -/
theorem general_pack_decode_bijective_iff_coprime_witness :
    (GPUPackKernelWrites (2 * 3 * 1) 2 3 1).Perm (List.range (2 * 3 * 1)) :=
  ((general_pack_decode_bijective_iff_coprime Int 2 3 1 (by decide) (by decide)
    (by decide)).2.1 (by decide)).1


/-! ## Claim about pack applied to an unpacked input -/

/-- C24, counterexample.  `C = H = W = 1`, a filter of `2^32 × 1`, one output position,
`padding_height = 2^32 - 1`, stride 1, and `X[0] = 1`, `X[k] = 0` elsewhere.  Position
`(0, 0, 0)` lies in exactly one window (both pack ranges are `[0, 1)`), so the claim gives
`X[0] * 1 * 1 = 1`.  The window cell that covers it is `i = 2^32 - 1`; the unpack kernel
holds the offset `0 - (2^32 - 1)` in an `int`, where it is `1`, so the cell receives
`p_input[i * W + j] = X[1 + (2^32 - 1)] = X[2^32] = 0` and the pack kernel leaves `0`. -/
theorem pack_after_unpack_fails_on_int_wrap :
    GPUPack1024Kernel 1 1 1
        (GPUUnpack1024Kernel 1 1 1 (fun k => if k = 0 then (1 : Int) else 0) (fun _ => 0)
          1 1 (2 ^ 32) 1 (2 ^ 32 - 1) 0 1 1)
        (fun _ => 0) (2 ^ 32) 1 1 1 (2 ^ 32 - 1) 0 1 1 (0 * 1 * 1 + 0 * 1 + 0) = 0 ∧
    (fun k => if k = 0 then (1 : Int) else 0) (0 * 1 * 1 + 0 * 1 + 0) *
        ((pack_end (0 + (2 ^ 32 - 1)) 1 1 - pack_start (0 + (2 ^ 32 - 1)) (2 ^ 32) 1 : Nat) : Int) *
        ((pack_end (0 + 0) 1 1 - pack_start (0 + 0) 1 1 : Nat) : Int) = 1 := by
  constructor
  · have hs := GPUUnpack1024Kernel_spec 1 1 1 (fun k => if k = 0 then (1 : Int) else 0)
      (fun _ => 0) 1 1 (2 ^ 32) 1 (2 ^ 32 - 1) 0 1 1 (2 ^ 32 - 1)
    rw [if_pos (by decide)] at hs
    have hcell : unpackSpec (fun k => if k = 0 then (1 : Int) else 0) 1 1 1 (2 ^ 32) 1 1
        (2 ^ 32 - 1) 0 1 1 (2 ^ 32 - 1) = 0 := by decide
    rw [hcell] at hs
    have hsum : ∀ U : Nat → Int,
        packSum U 1 (2 ^ 32) 1 1 1 (2 ^ 32 - 1) 0 1 1 0 0 0 = 0 + U (2 ^ 32 - 1) :=
      fun _ => rfl
    rw [GPUPack1024Kernel_at 1 1 1 _ _ (2 ^ 32) 1 1 1 (2 ^ 32 - 1) 0 1 1 0 0 0
      (by decide) (by decide) (by decide), hsum, hs]
    rfl
  · decide

/-- C24, amended.  Pack after unpack multiplies each element by its window-coverage count,
within the `int` range of the unpack kernel and the `size_t` range of the pack kernel: for
every input `X` over exact arithmetic, every configuration with stride at least 1, input
extents below `2^31`, filter extents at most `2^31` and paddings for which the sums
`ih + pad` do not wrap (`H + pad_h < 2^64`, `W + pad_w < 2^64`), and every position
`(c, ih, iw)` of the grid, the small pack kernel applied to the
matrix the small unpack kernel produced from `X` leaves
`X[c, ih, iw] * (h_end - h_start) * (w_end - w_start)` at that position, where
`[h_start, h_end)` and `[w_start, w_end)` are the pack ranges at `(ih, iw)` (an empty range
counting 0); the result is `0` at a position no window covers and `X[c, ih, iw]` where the
count is 1. -/
theorem pack_after_unpack_coverage_count {α : Type} [CommSemiring α] (X unpack0 input0 : Nat → α)
    (C H W R S P Q ph pw sh sw : Nat) (hsh : 1 ≤ sh) (hsw : 1 ≤ sw)
    (hH : H < 2 ^ 31) (hW : W < 2 ^ 31) (hR : R ≤ 2 ^ 31) (hS : S ≤ 2 ^ 31)
    (hph : H + ph < 2 ^ 64) (hpw : W + pw < 2 ^ 64)
    (c ih iw : Nat) (hc : c < C) (hih : ih < H) (hiw : iw < W) :
    GPUPack1024Kernel C H W (GPUUnpack1024Kernel C P Q X unpack0 H W R S ph pw sh sw) input0
        R S P Q ph pw sh sw (c * H * W + ih * W + iw)
      = X (c * H * W + ih * W + iw) *
          ((pack_end (ih + ph) sh P - pack_start (ih + ph) R sh : Nat) : α) *
          ((pack_end (iw + pw) sw Q - pack_start (iw + pw) S sw : Nat) : α) ∧
    ((¬ ∃ oh ow, oh < P ∧ ow < Q ∧ (oh * sh ≤ ih + ph ∧ ih + ph < oh * sh + R) ∧
          (ow * sw ≤ iw + pw ∧ iw + pw < ow * sw + S)) →
      GPUPack1024Kernel C H W (GPUUnpack1024Kernel C P Q X unpack0 H W R S ph pw sh sw) input0
          R S P Q ph pw sh sw (c * H * W + ih * W + iw) = 0) ∧
    ((pack_end (ih + ph) sh P - pack_start (ih + ph) R sh) *
        (pack_end (iw + pw) sw Q - pack_start (iw + pw) S sw) = 1 →
      GPUPack1024Kernel C H W (GPUUnpack1024Kernel C P Q X unpack0 H W R S ph pw sh sw) input0
          R S P Q ph pw sh sw (c * H * W + ih * W + iw) = X (c * H * W + ih * W + iw)) := by
  have hval : GPUPack1024Kernel C H W
        (GPUUnpack1024Kernel C P Q X unpack0 H W R S ph pw sh sw) input0
        R S P Q ph pw sh sw (c * H * W + ih * W + iw)
      = X (c * H * W + ih * W + iw) *
          ((pack_end (ih + ph) sh P - pack_start (ih + ph) R sh : Nat) : α) *
          ((pack_end (iw + pw) sw Q - pack_start (iw + pw) S sw : Nat) : α) := by
    have e : (c * H + ih) * W + iw = c * H * W + ih * W + iw := by ring
    rw [GPUPack1024Kernel_at C H W _ _ R S P Q ph pw sh sw c ih iw hc hih hiw,
      packSum_of_unpacked X _ C H W R S P Q ph pw sh sw
        (fun k hk => by rw [GPUUnpack1024Kernel_spec, if_pos hk])
        hH hW hR hS hsh hsw c ih iw hc hih hiw (by omega) (by omega),
      nsmul_eq_mul, nsmul_eq_mul, e]
    ring
  refine ⟨hval, fun hno => ?_, fun hone => ?_⟩
  · rw [hval]
    by_cases h1 : pack_start (ih + ph) R sh < pack_end (ih + ph) sh P
    · by_cases h2 : pack_start (iw + pw) S sw < pack_end (iw + pw) sw Q
      · exfalso
        obtain ⟨a1, a2, a3⟩ := (pack_range_iff (ih + ph) R sh P _ hsh).mp ⟨Nat.le_refl _, h1⟩
        obtain ⟨b1, b2, b3⟩ := (pack_range_iff (iw + pw) S sw Q _ hsw).mp ⟨Nat.le_refl _, h2⟩
        exact hno ⟨_, _, a1, b1, ⟨a2, a3⟩, ⟨b2, b3⟩⟩
      · rw [Nat.sub_eq_zero_of_le (Nat.le_of_not_lt h2), Nat.cast_zero, mul_zero]
    · rw [Nat.sub_eq_zero_of_le (Nat.le_of_not_lt h1), Nat.cast_zero, mul_zero, zero_mul]
  · rw [hval, mul_assoc, ← Nat.cast_mul, hone, Nat.cast_one, mul_one]

/-- Witness for the amended C24: a `1 × 3 × 3` input `X[k] = k`, `2 × 2` filter, `2 × 2`
outputs, no padding, stride 1: the centre `(0, 1, 1)` lies in `2 * 2` windows and receives
`4 * 2 * 2 = 16`. -/
theorem pack_after_unpack_coverage_count_witness :
    GPUPack1024Kernel 1 3 3
        (GPUUnpack1024Kernel 1 2 2 (fun k => (k : Int)) (fun _ => 0) 3 3 2 2 0 0 1 1)
        (fun _ => 0) 2 2 2 2 0 0 1 1 (0 * 3 * 3 + 1 * 3 + 1) = 16 :=
  (pack_after_unpack_coverage_count (fun k => (k : Int)) (fun _ => 0) (fun _ => 0)
    1 3 3 2 2 2 2 0 0 1 1 (by decide) (by decide) (by norm_num) (by norm_num) (by norm_num)
    (by norm_num) (by norm_num) (by norm_num) 0 1 1 (by decide) (by decide)
    (by decide)).1.trans (by decide)


/-! ## Claim about pack as the transpose of unpack -/

/-- C25, counterexample.  `C = H = W = R = S = P = Q = 1`, `padding_height = 2^32`, stride 1,
`X = [1]`, `Y = [1]`.  The unpack kernel holds the offset `0 - 2^32` in an `int`, where it is
`0`, so the cell passes the range test and `unpack(X) = [1]`: the sum of
`unpack(X)[k] * Y[k]` is `1`.  The pack range of the only position is empty
(`[2^32, 1)`), so `pack(Y) = [0]` and the sum of `X[m] * pack(Y)[m]` is `0`. -/
theorem unpack_pack_adjoint_fails_on_int_wrap :
    (∑ k in Finset.range (1 * 1 * 1 * 1 * 1),
        GPUUnpack1024Kernel 1 1 1 (fun _ => (1 : Int)) (fun _ => 0) 1 1 1 1 (2 ^ 32) 0 1 1 k *
          (fun _ => (1 : Int)) k) = 1 ∧
    (∑ m in Finset.range (1 * 1 * 1),
        (fun _ => (1 : Int)) m *
          GPUPack1024Kernel 1 1 1 (fun _ => (1 : Int)) (fun _ => 0) 1 1 1 1 (2 ^ 32) 0 1 1 m)
      = 0 := by
  constructor
  · rw [show (1 * 1 * 1 * 1 * 1 : Nat) = 1 from rfl, Finset.sum_range_one]
    decide
  · rw [show (1 * 1 * 1 : Nat) = 1 from rfl, Finset.sum_range_one]
    decide

/-- C25, amended.  Pack is the transpose of unpack within the `int` range of the unpack
kernel: for every input `X` and every matrix `Y` over exact arithmetic and every
configuration with stride at least 1 whose extents fit the `int` arithmetic (`FitsInt`), the
sum over all matrix indices `k < P*Q*C*R*S` of `unpack(X)[k] * Y[k]` equals the sum over all
input indices `m < C*H*W` of `X[m] * pack(Y)[m]`, where `unpack` and `pack` are the small
kernels run over their full grids, whatever the two destination buffers held before. -/
theorem unpack_pack_adjoint {α : Type} [Semiring α] (X Y unpack0 input0 : Nat → α)
    (C H W R S P Q ph pw sh sw : Nat) (hsh : 1 ≤ sh) (hsw : 1 ≤ sw)
    (hfit : FitsInt H W R S P Q ph pw sh sw) :
    ∑ k in Finset.range (P * Q * C * R * S),
        GPUUnpack1024Kernel C P Q X unpack0 H W R S ph pw sh sw k * Y k
      = ∑ m in Finset.range (C * H * W),
          X m * GPUPack1024Kernel C H W Y input0 R S P Q ph pw sh sw m := by
  rw [Nat.mul_assoc (P * Q * C) R S]
  have hfit' := hfit
  obtain ⟨hH, hW, hph, hpw, _, _⟩ := hfit'
  have h31 : (2 : Nat) ^ 31 + 2 ^ 31 < 2 ^ 64 := by norm_num
  exact unpack_pack_adjoint_sum X Y _ _ C H W R S P Q ph pw sh sw hfit
    (fun k hk => by rw [GPUUnpack1024Kernel_spec, if_pos hk])
    (fun c ih iw hc hih hiw => by
      rw [GPUPack1024Kernel_at C H W Y input0 R S P Q ph pw sh sw c ih iw hc hih hiw,
        packSum_eq_col2im Y C R S P Q ph pw sh sw hsh hsw c ih iw (by omega) (by omega)])

/-- Witness for the amended C25: a `1 × 3 × 3` input `X[m] = m + 1`, a `2 × 2` filter,
`2 × 2` outputs, no padding, stride 1 and `Y[k] = k`: both sums are equal. -/
theorem unpack_pack_adjoint_witness :
    ∑ k in Finset.range (2 * 2 * 1 * 2 * 2),
        GPUUnpack1024Kernel 1 2 2 (fun m => (m : Int) + 1) (fun _ => 0) 3 3 2 2 0 0 1 1 k *
          (fun k => (k : Int)) k
      = ∑ m in Finset.range (1 * 3 * 3),
          (fun m => (m : Int) + 1) m *
            GPUPack1024Kernel 1 3 3 (fun k => (k : Int)) (fun _ => 0) 2 2 2 2 0 0 1 1 m :=
  unpack_pack_adjoint (fun m => (m : Int) + 1) (fun k => (k : Int)) (fun _ => 0) (fun _ => 0)
    1 3 3 2 2 2 2 0 0 1 1 (by decide) (by decide) (by unfold FitsInt; norm_num)

end Blitz
